import Mathlib

/-!
# SCTPasp test port: connection table, reassembly, reconnect

A shallow embedding of `src/SCTPasp_PT.cc` (class `SCTPasp__PT_PROVIDER`).

* The members of the port object form `PortState`.  Every call the port makes to the
  operating system, to the readiness notifier (`Handler_Add_Fd_Read`, ...) or to the
  TTCN-3 side (`incoming_message`) is appended to `PortState.trace`, in program order.
* What the operating system answers during one call of a port function is given by an
  `Env` value.
* `error(...)` ends in `TTCN_error`, which throws: a port function is a state
  transformer returning `Outcome.fatal` together with the state reached at the throw.
* `int`/`ssize_t` members are `Int`.  Signed overflow is not modelled: `buflen` only
  doubles after the buffer has been filled, so it stays below the address-space size.
* Receive buffers are `Option (List Nat)`: `none` is `NULL`, `some bs` is an allocated
  block whose bytes are `bs`.  Fresh bytes handed out by `Malloc`/`Realloc` read as `0`.
* `log(...)` and `TTCN_warning(...)` only write diagnostics and are left out.
-/

namespace SCTPasp

/-! ## Constants -/

/-- `#define BUFLEN 1024` -/
def BUFLEN : Int := 1024

/-- `#define MAP_LENGTH 10` -/
def MAP_LENGTH : Nat := 10

/-- `INT_MAX` of `<limits.h>` for a 32-bit `int`. -/
def INT_MAX : Nat := 2147483647

/-- `AF_INET` of `<sys/socket.h>` (Linux). -/
def AF_INET : Int := 2

/-- `AF_INET6` of `<sys/socket.h>` (Linux). -/
def AF_INET6 : Int := 10

/-- `EISCONN` of `<errno.h>` (Linux). -/
def EISCONN : Int := 106

/-- `EINPROGRESS` of `<errno.h>` (Linux). -/
def EINPROGRESS : Int := 115

/-! ## Data model -/

/-- The part of `struct sockaddr_storage` the port reads or writes: family, port
(host byte order) and the address bytes. -/
structure sockaddr_storage where
  ss_family : Int
  port : Nat
  addr : List Nat
deriving DecidableEq, Repr

/-- Result of `memset(&sa, 0, sizeof(struct sockaddr_storage))`. -/
def sockaddr_storage.zero : sockaddr_storage := ⟨0, 0, []⟩

/-- `struct SCTPasp__PT_PROVIDER::fd_map_item`. -/
structure fd_map_item where
  fd : Int
  erased : Bool
  processing_message : Bool
  einprogress : Bool
  buf : Option (List Nat)
  buflen : Int
  nr : Int
  sin : sockaddr_storage
  saLen : Nat
deriving DecidableEq, Repr

/-- `struct SCTPasp__PT_PROVIDER::fd_map_server_item`; `local_IP_address` is an owned
pointer, `none` is `NULL`. -/
structure fd_map_server_item where
  fd : Int
  erased : Bool
  local_IP_address : Option String
  local_port : Nat
deriving DecidableEq, Repr

/-- `struct sctp_initmsg`. -/
structure sctp_initmsg where
  sinit_num_ostreams : Int
  sinit_max_instreams : Int
  sinit_max_attempts : Int
  sinit_max_init_timeo : Int
deriving DecidableEq, Repr

/-- `struct sctp_event_subscribe` (the fields the port sets). -/
structure sctp_event_subscribe where
  sctp_data_io_event : Bool
  sctp_association_event : Bool
  sctp_address_event : Bool
  sctp_send_failure_event : Bool
  sctp_peer_error_event : Bool
  sctp_shutdown_event : Bool
  sctp_partial_delivery_event : Bool
  sctp_adaptation_layer_event : Bool
deriving DecidableEq, Repr

/-- Modelled from the spec: the TTCN-3 enumerated type `SAC_STATE` of the types module,
which is not under `src/`; the spec lists its values as communication-up,
communication-lost, restarted, shutdown-complete, cannot-start-association, unknown. -/
inductive SAC_STATE
  | SCTP_COMM_UP
  | SCTP_COMM_LOST
  | SCTP_RESTART
  | SCTP_SHUTDOWN_COMP
  | SCTP_CANT_STR_ASSOC
  | SCTP_UNKNOWN_SAC_STATE
deriving DecidableEq, Repr

/-- Modelled from the spec: the TTCN-3 enumerated type `SPC_STATE` of the types module,
which is not under `src/`; the spec lists its values as address-available,
address-unreachable, address-removed, address-added, address-made-primary,
address-confirmed, unknown. -/
inductive SPC_STATE
  | SCTP_ADDR_AVAILABLE
  | SCTP_ADDR_UNREACHABLE
  | SCTP_ADDR_REMOVED
  | SCTP_ADDR_ADDED
  | SCTP_ADDR_MADE_PRIM
  | SCTP_ADDR_CONFIRMED
  | SCTP_UNKNOWN_SPC_STATE
deriving DecidableEq, Repr

/-- Modelled from the spec: the ASPs of the types module (not under `src/`) that the port
hands to `incoming_message`, with the fields the spec lists under "Outbound events".
An optional field is `Option`; `error_message` carries `errno` in place of
`strerror(errno)`. -/
inductive Message
  | ASP_SCTP (client_id : Option Int) (sinfo_stream : Int) (sinfo_ppid : Int)
      (data : List Nat)
  | ASP_SCTP_RESULT (client_id : Option Int) (error_status : Bool)
      (error_message : Option Int)
  | ASP_SCTP_Connected (client_id : Int) (local_hostname : String)
      (local_portnumber : Int) (peer_hostname : String) (peer_portnumber : Int)
  | ASP_SCTP_SENDMSG_ERROR (client_id : Option Int) (sinfo_stream : Int)
      (sinfo_ppid : Int) (data : List Nat)
  | ASP_SCTP_ASSOC_CHANGE (client_id : Int) (sac_state : SAC_STATE)
  | ASP_SCTP_PEER_ADDR_CHANGE (client_id : Int) (spc_state : SPC_STATE)
  | ASP_SCTP_SEND_FAILED (client_id : Int)
  | ASP_SCTP_REMOTE_ERROR (client_id : Int)
  | ASP_SCTP_SHUTDOWN_EVENT (client_id : Int)
  | ASP_SCTP_ADAPTION_INDICATION (client_id : Int)
  | ASP_SCTP_PARTIAL_DELIVERY_EVENT (client_id : Int)
deriving DecidableEq, Repr

/-- Socket options the port sets. -/
inductive Sockopt
  | SCTP_INITMSG
  | SCTP_EVENTS
  | SCTP_RTOINFO
  | SOL_SOCKET_SCTP_EVENTS
deriving DecidableEq, Repr

/-- One call leaving the port: a system call, a readiness-notifier call, a buffer
allocation call, or `incoming_message`. -/
inductive Effect
  | close (fd : Int)
  | Handler_Remove_Fd (fd : Int)
  | Handler_Remove_Fd_Write (fd : Int)
  | Handler_Add_Fd_Read (fd : Int)
  | Handler_Add_Fd_Write (fd : Int)
  | getaddrinfo (name : String)
  | usleep (usec : Nat)
  | socket (addr_family : Int)
  | setsockopt (fd : Int) (optname : Sockopt)
  | connect (fd : Int) (sa : sockaddr_storage) (saLen : Nat)
  | accept (fd : Int)
  | fcntl_GETFL (fd : Int)
  | fcntl_SETFL (fd : Int)
  | recvmsg (fd : Int) (iov_offset : Int) (iov_len : Int)
  | sendmsg (fd : Int) (sinfo_stream : Int) (sinfo_ppid : Nat) (data : List Nat)
  | bind (fd : Int) (sa : sockaddr_storage) (saLen : Nat)
  | listen (fd : Int) (backlog : Int)
  | sleep (seconds : Nat)
  | Malloc (size : Int)
  | Realloc (size : Int)
  | Free
  | incoming_message (m : Message)
deriving DecidableEq, Repr

/-- The data members of `SCTPasp__PT_PROVIDER` (`list_len` is `fd_map.length`,
`list_len_server` is `fd_map_server.length`), and the trace of calls made so far. -/
structure PortState where
  simple_mode : Bool
  reconnect : Bool
  reconnect_max_attempts : Int
  server_mode : Bool
  server_backlog : Int
  local_IP_address : String
  local_port : Int
  peer_IP_address : String
  peer_port : Int
  initmsg : sctp_initmsg
  events : sctp_event_subscribe
  fd : Int
  receiving_fd : Int
  fd_map : List fd_map_item
  fd_map_server : List fd_map_server_item
  trace : List Effect
  local_port_is_present : Bool
  peer_IP_address_is_present : Bool
  peer_port_is_present : Bool
deriving DecidableEq, Repr

/-- The fatal errors raised through `error(...)`, one per message text, and
`int2oct_error` for the error the TITAN library function `int2oct` raises,
`invalid_enum` for the one the constructor of an enumerated value raises, and
`undefined_behaviour` for an array access outside a table, a null dereference or a read
of freed memory (undefined in the source); `close_client_id` is the error of a close request that names
a client in client mode, and `invalid_int_conversion` the one `INTEGER::operator int()`
raises for a value that does not fit an `int`. -/
inductive Fatal
  | accept_error
  | index_out_of_range
  | cant_resolve_host
  | socket_error
  | fcntl_error
  | reconnect_failed
  | int2oct_error
  | invalid_enum
  | undefined_behaviour
  | close_client_id
  | invalid_int_conversion
  | connect_in_server_mode
  | connect_during_active_connection
  | peer_IP_address_undefined
  | peer_port_undefined
  | address_type_mismatch
  | bind_failed
  | listen_error
  | setsocketoptions_unbound
  | client_id_omit_in_normal_mode
  | client_id_omit_in_server_mode
  | client_id_present_in_client_mode
  | bad_client_id
deriving DecidableEq, Repr

/-- How a port function ends: normally with a value, or in `TTCN_error`. -/
inductive Outcome (α : Type)
  | ok (a : α)
  | fatal (e : Fatal)
deriving DecidableEq, Repr

/-- A port function: from the state before the call to the outcome and the state after. -/
def M (α : Type) : Type := PortState → Outcome α × PortState

/-- Sequencing: a fatal error skips the rest and keeps the state reached. -/
def M.bind {α β : Type} (x : M α) (f : α → M β) : M β := fun st =>
  match x st with
  | (Outcome.ok a, st1) => f a st1
  | (Outcome.fatal e, st1) => (Outcome.fatal e, st1)

/-- Normal return. -/
def M.pure {α : Type} (a : α) : M α := fun st => (Outcome.ok a, st)

instance : Monad M where
  pure := M.pure
  bind := M.bind

/-- The current state of the port object. -/
def getState : M PortState := fun st => (Outcome.ok st, st)

/-- Assignment to members of the port object. -/
def modifyState (f : PortState → PortState) : M Unit := fun st => (Outcome.ok (), f st)

/-- `error(...)`: throws. -/
def error {α : Type} (e : Fatal) : M α := fun st => (Outcome.fatal e, st)

/-- Records one outgoing call. -/
def emit (e : Effect) : M Unit :=
  modifyState fun st => { st with trace := st.trace ++ [e] }

/-- `fd_map[i]` as an rvalue. -/
def item (i : Int) : M fd_map_item := fun st =>
  if i < 0 then (Outcome.fatal Fatal.undefined_behaviour, st)
  else match st.fd_map[i.toNat]? with
    | some it => (Outcome.ok it, st)
    | none => (Outcome.fatal Fatal.undefined_behaviour, st)

/-- Assignment to fields of `fd_map[i]`. -/
def modify_item (i : Int) (f : fd_map_item → fd_map_item) : M Unit := fun st =>
  if i < 0 then (Outcome.fatal Fatal.undefined_behaviour, st)
  else match st.fd_map[i.toNat]? with
    | some it => (Outcome.ok (), { st with fd_map := st.fd_map.set i.toNat (f it) })
    | none => (Outcome.fatal Fatal.undefined_behaviour, st)

/-! ## Connection table -/

/-- The values `map_put_item` gives to a new element and `map_delete_item` to a deleted
one. -/
def erased_item : fd_map_item :=
  { fd := -1, erased := true, processing_message := false, einprogress := false,
    buf := none, buflen := 0, nr := 0, sin := sockaddr_storage.zero, saLen := 0 }

/-- The loop `while((i<list_len) && !fd_map[i].erased) i++` of `map_put_item`, started at
`i = 0`: the index of the first erased element, or the length when there is none. -/
def first_erased : List fd_map_item → Nat
  | [] => 0
  | x :: xs => if !x.erased then first_erased xs + 1 else 0

/-- `SCTPasp__PT_PROVIDER::map_put_item`. -/
def map_put_item (fd : Int) : M Unit := do
  let st ← getState
  let i := first_erased st.fd_map
  if i == st.fd_map.length then
    modifyState fun s =>
      { s with fd_map := s.fd_map ++ List.replicate MAP_LENGTH erased_item }
  modify_item i fun it => { it with fd := fd, erased := false }

/-- The loop of `map_get_item` from index `i` on. -/
def map_get_item_from (fd : Int) : List fd_map_item → Nat → Int
  | [], _ => -1
  | x :: xs, i =>
    if !x.erased && x.fd == fd then (i : Int) else map_get_item_from fd xs (i + 1)

/-- `SCTPasp__PT_PROVIDER::map_get_item`. -/
def map_get_item (fd : Int) (st : PortState) : Int :=
  map_get_item_from fd st.fd_map 0

/-- `SCTPasp__PT_PROVIDER::map_delete_item`. -/
def map_delete_item (index : Int) : M Unit := do
  let st ← getState
  if index ≥ st.fd_map.length || index < 0 then error Fatal.index_out_of_range
  let it ← item index
  if it.fd != -1 then
    emit (Effect.close it.fd)
    emit (Effect.Handler_Remove_Fd it.fd)
  if it.buf.isSome then emit Effect.Free
  modify_item index fun it =>
    { it with fd := -1, erased := true, einprogress := false, buf := none, buflen := 0,
              processing_message := false, nr := 0, saLen := 0,
              sin := sockaddr_storage.zero }

/-- The loop of `map_delete_item_fd` from index `i` on: the first element whose stored
`fd` equals `fd`, erased or not. -/
def first_with_fd (fd : Int) : List fd_map_item → Nat → Option Nat
  | [], _ => none
  | x :: xs, i => if x.fd == fd then some i else first_with_fd fd xs (i + 1)

/-- `SCTPasp__PT_PROVIDER::map_delete_item_fd`. -/
def map_delete_item_fd (fd : Int) : M Unit := do
  if fd != -1 then
    let st ← getState
    match first_with_fd fd st.fd_map 0 with
    | some i => map_delete_item (i : Int)
    | none => pure ()

/-- The values `map_delete_item_server` gives to a deleted element. -/
def erased_server_item : fd_map_server_item :=
  { fd := -1, erased := true, local_IP_address := none, local_port := 0 }

/-- The loop of `map_get_item_server` from index `i` on. -/
def map_get_item_server_from (fd : Int) : List fd_map_server_item → Nat → Int
  | [], _ => -1
  | x :: xs, i =>
    if !x.erased && x.fd == fd then (i : Int) else map_get_item_server_from fd xs (i + 1)

/-- `SCTPasp__PT_PROVIDER::map_get_item_server`. -/
def map_get_item_server (fd : Int) (st : PortState) : Int :=
  map_get_item_server_from fd st.fd_map_server 0

/-- `SCTPasp__PT_PROVIDER::map_delete_item_server`. -/
def map_delete_item_server (index : Int) : M Unit := do
  let st ← getState
  if index ≥ st.fd_map_server.length || index < 0 then error Fatal.index_out_of_range
  match st.fd_map_server[index.toNat]? with
  | none => error Fatal.undefined_behaviour
  | some it =>
    if it.fd != -1 then
      emit (Effect.close it.fd)
      emit (Effect.Handler_Remove_Fd it.fd)
    modifyState fun s =>
      { s with fd_map_server := s.fd_map_server.set index.toNat erased_server_item }

/-- The loop of `map_delete_item_fd_server` from index `i` on. -/
def first_with_fd_server (fd : Int) : List fd_map_server_item → Nat → Option Nat
  | [], _ => none
  | x :: xs, i => if x.fd == fd then some i else first_with_fd_server fd xs (i + 1)

/-- `SCTPasp__PT_PROVIDER::map_delete_item_fd_server`. -/
def map_delete_item_fd_server (fd : Int) : M Unit := do
  if fd != -1 then
    let st ← getState
    match first_with_fd_server fd st.fd_map_server 0 with
    | some i => map_delete_item_server (i : Int)
    | none => pure ()

/-! ## The operating system, as seen during one call of a port function -/

/-- What `accept` answers: the return value and the peer address it stores. -/
structure accept_result where
  newclient_fd : Int
  peer_address : sockaddr_storage
deriving DecidableEq, Repr

/-- What `recvmsg` answers: its return value, the bytes it stores at `iov_base`, the two
bits of `msg_flags` the port tests, and the `sctp_sndrcvinfo` fields it stores in the
control buffer (`sinfo_ppid` as the host reads the 32-bit word). -/
structure recvmsg_result where
  value : Int
  data : List Nat
  MSG_EOR : Bool
  MSG_NOTIFICATION : Bool
  sinfo_stream : Nat
  sinfo_ppid : Nat
deriving DecidableEq, Repr

/-- What `connect` (or a `setsockopt` whose result is tested) answers: return value and
`errno`. -/
structure connect_result where
  ret : Int
  errno : Int
deriving DecidableEq, Repr

/-- The fields of `union sctp_notification` (`<netinet/sctp.h>`) that `handle_event`
reads. -/
structure sctp_notification where
  sn_type : Int
  sac_state : Int
  spc_state : Int
deriving DecidableEq, Repr

/-- The answers of the operating system during one call of a port function.
`socket k` and `connect k` answer the `k`-th socket creation and the `k`-th `connect` of
the call (counted from 0), `accept k` the `accept` issued for listener slot `k`,
`fcntl fd` the `F_SETFL` on `fd`; `sn` is the view of a received buffer as
`union sctp_notification`, whose layout comes from the system headers. `sendmsg`, `bind`
and `listen` are the return values of the one such call a port function makes, and
`setsockopt` is the return value and `errno` of the one `setsockopt` whose result the
port tests. -/
structure Env where
  little_endian : Bool
  accept : Nat → accept_result
  fcntl : Int → Int
  recvmsg : recvmsg_result
  sn : List Nat → sctp_notification
  inet_pton : Int → String → Option (List Nat)
  getaddrinfo : String → Option sockaddr_storage
  inet_ntop : Int → List Nat → String
  socket : Nat → Int
  connect : Nat → connect_result
  sendmsg : Int
  bind : Int
  listen : Int
  setsockopt : connect_result

/-! ## Address resolution and socket creation -/

/-- `sizeof(struct sockaddr_in)`. -/
def sizeof_sockaddr_in : Nat := 16

/-- `sizeof(struct sockaddr_in6)`. -/
def sizeof_sockaddr_in6 : Nat := 28

/-- `htons(port)` for an `int` argument, as the value the peer reads back. -/
def htons (port : Int) : Nat := (port % 65536).toNat

/-- `SCTPasp__PT_PROVIDER::fill_addr_struct`; returns `addrtype` with the out-parameters
`*sa` and `saLen` (`saLen0` is the value the caller's variable held before). -/
def fill_addr_struct (env : Env) (name : String) (port : Int) (saLen0 : Nat) :
    M (Int × sockaddr_storage × Nat) := do
  match env.inet_pton AF_INET name with
  | some a => pure (AF_INET, ⟨AF_INET, htons port, a⟩, sizeof_sockaddr_in)
  | none =>
    match env.inet_pton AF_INET6 name with
    | some a => pure (AF_INET6, ⟨AF_INET6, htons port, a⟩, sizeof_sockaddr_in6)
    | none =>
      emit (Effect.getaddrinfo name)
      match env.getaddrinfo name with
      | none => error Fatal.cant_resolve_host
      | some res =>
        if res.ss_family == AF_INET then
          pure (AF_INET, ⟨AF_INET, htons port, res.addr⟩, sizeof_sockaddr_in)
        else if res.ss_family == AF_INET6 then
          pure (AF_INET6, ⟨AF_INET6, htons port, res.addr⟩, sizeof_sockaddr_in6)
        else
          pure (-1, sockaddr_storage.zero, saLen0)

/-- `SCTPasp__PT_PROVIDER::create_socket`, as the `k`-th socket creation of the call. -/
def create_socket (env : Env) (k : Nat) (addr_family : Int) : M Int := do
  emit (Effect.usleep 200000)
  emit (Effect.socket addr_family)
  let local_fd := env.socket k
  if local_fd == -1 then error Fatal.socket_error
  emit (Effect.setsockopt local_fd Sockopt.SCTP_INITMSG)
  emit (Effect.setsockopt local_fd Sockopt.SCTP_EVENTS)
  pure local_fd

/-- `SCTPasp__PT_PROVIDER::setNonBlocking`. -/
def setNonBlocking (env : Env) (fd : Int) : M Unit := do
  emit (Effect.fcntl_GETFL fd)
  emit (Effect.fcntl_SETFL fd)
  let result := env.fcntl fd
  if result == -1 then error Fatal.fcntl_error

/-! ## Reconnect -/

/-- The `for` loop of `forced_reconnect`, entered at the loop test with the given `i` and
`sleep_interval` (an `unsigned int`, so doubling wraps at `2^32`); the first argument
bounds the number of iterations.  Returns the value of `i` at loop exit. -/
def forced_reconnect_loop (env : Env) (sock_type : Int) (sa : sockaddr_storage)
    (saLen : Nat) (attempts : Int) : Nat → Int → Nat → M Int
  | 0, i, _ => pure i
  | fuel + 1, i, sleep_interval => do
    if i < attempts then
      let fd ← create_socket env i.toNat sock_type
      modifyState fun s => { s with fd := fd }
      emit (Effect.connect fd sa saLen)
      if (env.connect i.toNat).ret == -1 then
        emit (Effect.close fd)
        modifyState fun s => { s with fd := -1 }
        let sleep_interval :=
          if i % 2 == 0 && i != 0 then sleep_interval * 2 % 2 ^ 32 else sleep_interval
        emit (Effect.sleep sleep_interval)
        forced_reconnect_loop env sock_type sa saLen attempts fuel (i + 1) sleep_interval
      else
        map_put_item fd
        setNonBlocking env fd
        emit (Effect.Handler_Add_Fd_Read fd)
        pure i
    else pure i

/-- `SCTPasp__PT_PROVIDER::forced_reconnect`.  The loop runs from `i = 0` and leaves at
`i = attempts` at the latest, so `attempts` iterations are enough. -/
def forced_reconnect (env : Env) (attempts : Int) : M Unit := do
  let st ← getState
  let (sock_type, sa, saLen) ← fill_addr_struct env st.peer_IP_address st.peer_port 0
  let i ← forced_reconnect_loop env sock_type sa saLen attempts attempts.toNat 0 1
  if i == attempts then error Fatal.reconnect_failed

/-! ## Payload protocol identifier -/

/-- A 32-bit word with its four bytes in reverse order. -/
def bswap32 (x : Nat) : Nat :=
  x % 256 * 2 ^ 24 + x / 2 ^ 8 % 256 * 2 ^ 16 + x / 2 ^ 16 % 256 * 2 ^ 8 + x / 2 ^ 24 % 256

/-- `htonl` on a 32-bit word. -/
def htonl (little_endian : Bool) (x : Nat) : Nat :=
  if little_endian then bswap32 x else x

/-- `ntohl` on a 32-bit word. -/
def ntohl (little_endian : Bool) (x : Nat) : Nat :=
  if little_endian then bswap32 x else x

/-- The `uint32_t` whose bytes in memory, lowest address first, are `p0 p1 p2 p3`. -/
def uint32_of_bytes (little_endian : Bool) (p0 p1 p2 p3 : Nat) : Nat :=
  if little_endian then p0 + p1 * 2 ^ 8 + p2 * 2 ^ 16 + p3 * 2 ^ 24
  else p3 + p2 * 2 ^ 8 + p1 * 2 ^ 16 + p0 * 2 ^ 24

/-- `INTEGER::get_val().is_native()` of the TITAN runtime: the value is held in an
`int`. -/
def is_native (v : Int) : Bool := decide (-2147483648 ≤ v) && decide (v ≤ 2147483647)

/-- `int2oct(value, length)` of the TITAN runtime: the big-endian representation on
`length` octets; an error for a negative value or one that does not fit. -/
def int2oct (v : Int) (length : Nat) : Option (List Nat) :=
  if v < 0 then none
  else if 256 ^ length ≤ v.toNat then none
  else some ((List.range length).reverse.map fun k => v.toNat / 256 ^ k % 256)

/-- `sprintf(sbuf, "%u", ui)`: the decimal digits of `ui`. -/
def sprintf_u (ui : Nat) : List Char := Nat.toDigits 10 ui

/-- `INTEGER(const char*)` of the TITAN runtime on a string of decimal digits. -/
def INTEGER_of_str (s : List Char) : Int :=
  ((s.foldl (fun a c => a * 10 + (c.toNat - 48)) 0 : Nat) : Int)

/-- Lines 1080-1091 of `outgoing_send(const ASP__SCTP&)`: the word stored in
`sri->sinfo_ppid` for the caller's `sinfo_ppid`. -/
def outgoing_send_sinfo_ppid (little_endian : Bool) (sinfo_ppid : Int) : M Nat := do
  let ui ←
    if is_native sinfo_ppid && decide (sinfo_ppid > 0) then
      pure (sinfo_ppid % 2 ^ 32).toNat
    else
      match int2oct sinfo_ppid 4 with
      | some [os0, os1, os2, os3] => pure (uint32_of_bytes little_endian os3 os2 os1 os0)
      | _ => error Fatal.int2oct_error
  pure (htonl little_endian ui)

/-- Lines 538-546 of `Handle_Fd_Event_Readable`: the `INTEGER` built from the received
`sri->sinfo_ppid`. -/
def received_sinfo_ppid (little_endian : Bool) (sinfo_ppid : Nat) : Int :=
  let ui := ntohl little_endian sinfo_ppid
  if ui ≤ INT_MAX then (ui : Int) else INTEGER_of_str (sprintf_u ui)

/-! ## Receiving -/

/-- `return_value_t` of the port class. -/
inductive return_value_t
  | WHOLE_MESSAGE_RECEIVED
  | PARTIAL_RECEIVE
  | EOF_OR_ERROR
deriving DecidableEq, Repr

/-- The `struct msghdr` handed to `getmsg`: its single `iovec` points `iov_offset` bytes
into the buffer of `fd_map[iov_index]` and is `iov_len` bytes long. -/
structure msghdr where
  iov_index : Int
  iov_offset : Int
  iov_len : Int
deriving DecidableEq, Repr

/-- The bytes of a block after `data` has been stored at offset `off`. -/
def store (bs : List Nat) (off : Nat) (data : List Nat) : List Nat :=
  bs.take off ++ data ++ bs.drop (off + data.length)

/-- `Malloc(size)` of the TITAN runtime. -/
def Malloc (size : Int) : M (Option (List Nat)) := do
  emit (Effect.Malloc size)
  pure (some (List.replicate size.toNat 0))

/-- `Realloc(ptr, size)` of the TITAN runtime: the old bytes are kept. -/
def Realloc (ptr : Option (List Nat)) (size : Int) : M (Option (List Nat)) := do
  emit (Effect.Realloc size)
  let bs := ptr.getD []
  pure (some (bs.take size.toNat ++ List.replicate (size.toNat - bs.length) 0))

/-- `Free(ptr)` of the TITAN runtime: nothing is released for `NULL`. -/
def Free (ptr : Option (List Nat)) : M Unit := do
  if ptr.isSome then emit Effect.Free

/-- The system call `recvmsg(fd, msg, 0)`: a positive return value comes with the
received bytes stored at `iov_base`. -/
def recvmsg (env : Env) (fd : Int) (msg : msghdr) : M Int := do
  emit (Effect.recvmsg fd msg.iov_offset msg.iov_len)
  if env.recvmsg.value > 0 then
    modify_item msg.iov_index fun it =>
      { it with buf := it.buf.map fun bs => store bs msg.iov_offset.toNat env.recvmsg.data }
  pure env.recvmsg.value

/-- `SCTPasp__PT_PROVIDER::getmsg`. -/
def getmsg (env : Env) (fd : Int) (msg : msghdr) : M return_value_t := do
  let st ← getState
  let index := map_get_item fd st
  let it ← item index
  (if !it.processing_message then modify_item index fun it => { it with nr := 0 }
   else pure ())
  let value ← recvmsg env fd msg
  if value ≤ 0 then
    pure return_value_t.EOF_OR_ERROR
  else
    modify_item index fun it => { it with nr := it.nr + value }
    if env.recvmsg.MSG_EOR then
      pure return_value_t.WHOLE_MESSAGE_RECEIVED
    else
      let it ← item index
      (if it.buflen == it.nr then do
        let p ← Realloc it.buf (it.buflen * 2)
        modify_item index fun it => { it with buf := p }
        modify_item index fun it => { it with buflen := it.buflen * 2 }
       else pure ())
      pure return_value_t.PARTIAL_RECEIVE

/-! ## Notifications -/

/-- `SCTP_ASSOC_CHANGE` of `enum sctp_sn_type` (`<netinet/sctp.h>`, lksctp 1.0.9). -/
def SCTP_ASSOC_CHANGE : Int := 32769

/-- `SCTP_PEER_ADDR_CHANGE` of `enum sctp_sn_type`. -/
def SCTP_PEER_ADDR_CHANGE : Int := 32770

/-- `SCTP_SEND_FAILED` of `enum sctp_sn_type`. -/
def SCTP_SEND_FAILED : Int := 32771

/-- `SCTP_REMOTE_ERROR` of `enum sctp_sn_type`. -/
def SCTP_REMOTE_ERROR : Int := 32772

/-- `SCTP_SHUTDOWN_EVENT` of `enum sctp_sn_type`. -/
def SCTP_SHUTDOWN_EVENT : Int := 32773

/-- `SCTP_PARTIAL_DELIVERY_EVENT` of `enum sctp_sn_type`. -/
def SCTP_PARTIAL_DELIVERY_EVENT : Int := 32774

/-- `SCTP_ADAPTATION_INDICATION` of `enum sctp_sn_type`. -/
def SCTP_ADAPTATION_INDICATION : Int := 32775

/-- `SCTP_COMM_UP` of `enum sctp_sac_state`. -/
def SCTP_COMM_UP : Int := 0

/-- `SCTP_COMM_LOST` of `enum sctp_sac_state`. -/
def SCTP_COMM_LOST : Int := 1

/-- `SCTP_RESTART` of `enum sctp_sac_state`. -/
def SCTP_RESTART : Int := 2

/-- `SCTP_SHUTDOWN_COMP` of `enum sctp_sac_state`. -/
def SCTP_SHUTDOWN_COMP : Int := 3

/-- `SCTP_CANT_STR_ASSOC` of `enum sctp_sac_state`. -/
def SCTP_CANT_STR_ASSOC : Int := 4

/-- `SCTP_ADDR_AVAILABLE` of `enum sctp_spc_state`. -/
def SCTP_ADDR_AVAILABLE : Int := 0

/-- `SCTP_ADDR_UNREACHABLE` of `enum sctp_spc_state`. -/
def SCTP_ADDR_UNREACHABLE : Int := 1

/-- `SCTP_ADDR_REMOVED` of `enum sctp_spc_state`. -/
def SCTP_ADDR_REMOVED : Int := 2

/-- `SCTP_ADDR_ADDED` of `enum sctp_spc_state`. -/
def SCTP_ADDR_ADDED : Int := 3

/-- `SCTP_ADDR_MADE_PRIM` of `enum sctp_spc_state`. -/
def SCTP_ADDR_MADE_PRIM : Int := 4

/-- `SCTP_ADDR_CONFIRMED` of `enum sctp_spc_state`. -/
def SCTP_ADDR_CONFIRMED : Int := 5

/-- Modelled from the spec: the constructor `SAC__STATE(int)` of the generated class for
the enumerated type `SAC_STATE` (types module, not under `src/`), with the enumeration
values numbered from 0 in the order the spec lists them; any other number is an error. -/
def SAC_STATE.ofInt (n : Int) : Option SAC_STATE :=
  if n == 0 then some SAC_STATE.SCTP_COMM_UP
  else if n == 1 then some SAC_STATE.SCTP_COMM_LOST
  else if n == 2 then some SAC_STATE.SCTP_RESTART
  else if n == 3 then some SAC_STATE.SCTP_SHUTDOWN_COMP
  else if n == 4 then some SAC_STATE.SCTP_CANT_STR_ASSOC
  else if n == 5 then some SAC_STATE.SCTP_UNKNOWN_SAC_STATE
  else none

/-- The inner `switch(sac->sac_state)` of `handle_event`. -/
def sac_state_ttcn (sac_state : Int) : SAC_STATE :=
  if sac_state == SCTP_COMM_UP then SAC_STATE.SCTP_COMM_UP
  else if sac_state == SCTP_COMM_LOST then SAC_STATE.SCTP_COMM_LOST
  else if sac_state == SCTP_RESTART then SAC_STATE.SCTP_RESTART
  else if sac_state == SCTP_SHUTDOWN_COMP then SAC_STATE.SCTP_SHUTDOWN_COMP
  else if sac_state == SCTP_CANT_STR_ASSOC then SAC_STATE.SCTP_CANT_STR_ASSOC
  else SAC_STATE.SCTP_UNKNOWN_SAC_STATE

/-- The inner `switch(spc->spc_state)` of `handle_event` (lksctp 1.0.7 or newer). -/
def spc_state_ttcn (spc_state : Int) : SPC_STATE :=
  if spc_state == SCTP_ADDR_AVAILABLE then SPC_STATE.SCTP_ADDR_AVAILABLE
  else if spc_state == SCTP_ADDR_UNREACHABLE then SPC_STATE.SCTP_ADDR_UNREACHABLE
  else if spc_state == SCTP_ADDR_REMOVED then SPC_STATE.SCTP_ADDR_REMOVED
  else if spc_state == SCTP_ADDR_ADDED then SPC_STATE.SCTP_ADDR_ADDED
  else if spc_state == SCTP_ADDR_MADE_PRIM then SPC_STATE.SCTP_ADDR_MADE_PRIM
  else if spc_state == SCTP_ADDR_CONFIRMED then SPC_STATE.SCTP_ADDR_CONFIRMED
  else SPC_STATE.SCTP_UNKNOWN_SPC_STATE

/-- `incoming_message(...)`. -/
def incoming_message (m : Message) : M Unit := emit (Effect.incoming_message m)

/-- The read of `sac->sac_state` at line 1209 of `handle_event`.  `sac` points into the
buffer the decoder was given, the member `buf` of slot `i`.  While the slot still holds
the buffer, nothing has written to it and the read returns `sac_state`, the value of the
first read; once the slot has released the buffer (`map_delete_item` frees it at line
1422 and stores `NULL`) the read is of freed memory, which is undefined. -/
def reread_sac_state (i : Int) (sac_state : Int) : M Int := do
  let it ← item i
  match it.buf with
  | none => error Fatal.undefined_behaviour
  | some _ => pure sac_state

/-- The `case SCTP_ASSOC_CHANGE` of `handle_event`, for the notification in the buffer of
slot `i`.  `sac_state` is the value of `sac->sac_state` that lines 1159 and 1188 read,
before anything is freed; line 1209 reads the field once more through the pointer, after
`map_delete_item_fd` may have freed the buffer, and only when `reconnect` is set. -/
def case_SCTP_ASSOC_CHANGE (env : Env) (i : Int) (sac_state : Int) : M Unit := do
  (if sac_state == SCTP_COMM_LOST then do
    let st ← getState
    if st.simple_mode then
      (if !st.server_mode then modifyState fun s => { s with fd := -1 } else pure ())
      map_delete_item_fd st.receiving_fd
    else
      map_delete_item_fd st.receiving_fd
      map_delete_item_fd_server st.receiving_fd
   else pure ())
  let st ← getState
  (if st.events.sctp_association_event then
    incoming_message
      (Message.ASP_SCTP_ASSOC_CHANGE st.receiving_fd (sac_state_ttcn sac_state))
   else pure ())
  if st.simple_mode then
    if st.reconnect then
      let sac_state_1209 ← reread_sac_state i sac_state
      if sac_state_1209 == SCTP_COMM_LOST then
        forced_reconnect env st.reconnect_max_attempts

/-- `SCTPasp__PT_PROVIDER::handle_event` (lksctp 1.0.7 or newer).  The pointer argument
of the source is given as the index `i` of the slot whose member `buf` it is (line 533
passes `fd_map[i].buf`) and the bytes `buf` it points to when the decoder is entered, the
received notification. -/
def handle_event (env : Env) (i : Int) (buf : List Nat) : M Unit := do
  let snp := env.sn buf
  let st ← getState
  if snp.sn_type == SCTP_ASSOC_CHANGE then
    case_SCTP_ASSOC_CHANGE env i snp.sac_state
  else if snp.sn_type == SCTP_PEER_ADDR_CHANGE then
    if st.events.sctp_address_event then
      incoming_message
        (Message.ASP_SCTP_PEER_ADDR_CHANGE st.receiving_fd (spc_state_ttcn snp.spc_state))
  else if snp.sn_type == SCTP_REMOTE_ERROR then
    if st.events.sctp_peer_error_event then
      incoming_message (Message.ASP_SCTP_REMOTE_ERROR st.receiving_fd)
  else if snp.sn_type == SCTP_SEND_FAILED then
    if st.events.sctp_send_failure_event then
      incoming_message (Message.ASP_SCTP_SEND_FAILED st.receiving_fd)
  else if snp.sn_type == SCTP_SHUTDOWN_EVENT then
    if st.events.sctp_shutdown_event then
      incoming_message (Message.ASP_SCTP_SHUTDOWN_EVENT st.receiving_fd)
  else if snp.sn_type == SCTP_ADAPTATION_INDICATION then
    if st.events.sctp_adaptation_layer_event then
      incoming_message (Message.ASP_SCTP_ADAPTION_INDICATION st.receiving_fd)
  else if snp.sn_type == SCTP_PARTIAL_DELIVERY_EVENT then
    if st.events.sctp_partial_delivery_event then
      incoming_message (Message.ASP_SCTP_PARTIAL_DELIVERY_EVENT st.receiving_fd)
  else
    pure ()

/-! ## The readable handler -/

/-- `get_ip` (file scope). -/
def get_ip (env : Env) (sa : sockaddr_storage) : String :=
  if sa.ss_family == AF_INET then env.inet_ntop AF_INET sa.addr
  else if sa.ss_family == AF_INET6 then env.inet_ntop AF_INET6 sa.addr
  else ""

/-- `get_port` (file scope). -/
def get_port (sa : sockaddr_storage) : Int :=
  if sa.ss_family == AF_INET then (sa.port : Int)
  else if sa.ss_family == AF_INET6 then (sa.port : Int)
  else 0

/-- The loop over `fd_map_server` at the head of `Handle_Fd_Event_Readable` (the listener
table does not change while it runs), from index `i` on. -/
def accept_loop (env : Env) (my_fd : Int) : List fd_map_server_item → Nat → M Unit
  | [], _ => pure ()
  | s :: rest, i => do
    (if !s.erased && s.fd == my_fd then do
      emit (Effect.accept s.fd)
      let a := env.accept i
      if a.newclient_fd == -1 then
        error Fatal.accept_error
      else
        map_put_item a.newclient_fd
        setNonBlocking env a.newclient_fd
        emit (Effect.Handler_Add_Fd_Read a.newclient_fd)
        match s.local_IP_address with
        | none => error Fatal.undefined_behaviour
        | some ip =>
          incoming_message (Message.ASP_SCTP_Connected a.newclient_fd ip s.local_port
            (get_ip env a.peer_address) (get_port a.peer_address))
     else pure ())
    accept_loop env my_fd rest (i + 1)

/-- The part of `Handle_Fd_Event_Readable` under the comment "Accepting new client". -/
def accept_new_client (env : Env) (my_fd : Int) : M Unit := do
  let st ← getState
  if !st.simple_mode then
    accept_loop env my_fd st.fd_map_server 0
  else
    if st.server_mode && st.fd == my_fd then
      emit (Effect.accept st.fd)
      let a := env.accept 0
      if a.newclient_fd == -1 then
        error Fatal.accept_error
      else
        map_put_item a.newclient_fd
        setNonBlocking env a.newclient_fd
        emit (Effect.Handler_Add_Fd_Read a.newclient_fd)

/-- Lines 498-511 of `Handle_Fd_Event_Readable`: the buffer and the `iovec` for the
receive on slot `i`. -/
def prepare_iov (i : Int) : M msghdr := do
  let it ← item i
  if !it.processing_message then
    let p ← Malloc BUFLEN
    modify_item i fun it => { it with buf := p }
    modify_item i fun it => { it with buflen := BUFLEN }
    pure { iov_index := i, iov_offset := 0, iov_len := BUFLEN }
  else
    pure { iov_index := i, iov_offset := it.nr, iov_len := it.buflen - it.nr }

/-- The `case WHOLE_MESSAGE_RECEIVED` of `Handle_Fd_Event_Readable`. -/
def case_WHOLE_MESSAGE_RECEIVED (env : Env) (i : Int) : M Unit := do
  modify_item i fun it => { it with processing_message := false }
  (if env.recvmsg.MSG_NOTIFICATION then do
    let it ← item i
    match it.buf with
    | none => error Fatal.undefined_behaviour
    | some bs => handle_event env i bs
   else do
    let i_ppid := received_sinfo_ppid env.little_endian env.recvmsg.sinfo_ppid
    let st ← getState
    let it ← item i
    incoming_message (Message.ASP_SCTP (some st.receiving_fd) env.recvmsg.sinfo_stream
      i_ppid ((it.buf.getD []).take it.nr.toNat)))
  let it ← item i
  Free it.buf
  modify_item i fun it => { it with buf := none }

/-- The `case EOF_OR_ERROR` of `Handle_Fd_Event_Readable`. -/
def case_EOF_OR_ERROR (env : Env) (i : Int) : M Unit := do
  let st ← getState
  (if !st.server_mode then modifyState fun s => { s with fd := -1 } else pure ())
  map_delete_item i
  let st ← getState
  (if st.events.sctp_association_event then
    match SAC_STATE.ofInt SCTP_COMM_LOST with
    | none => error Fatal.invalid_enum
    | some sac => incoming_message (Message.ASP_SCTP_ASSOC_CHANGE st.receiving_fd sac)
   else pure ())
  if st.reconnect then forced_reconnect env st.reconnect_max_attempts

/-- Lines 489-524 of `Handle_Fd_Event_Readable`: everything from the assignment of
`receiving_fd` to the call of `getmsg`, for the slot `i` found for the ready fd. -/
def call_getmsg (env : Env) (i : Int) : M return_value_t := do
  let it ← item i
  modifyState fun s => { s with receiving_fd := it.fd }
  let msg ← prepare_iov i
  let st ← getState
  getmsg env st.receiving_fd msg

/-- The part of `Handle_Fd_Event_Readable` under the comment "Receiving data". -/
def receive_data (env : Env) (my_fd : Int) : M Unit := do
  let st ← getState
  let i := map_get_item my_fd st
  if i != -1 then
    let value ← call_getmsg env i
    match value with
    | return_value_t.WHOLE_MESSAGE_RECEIVED => case_WHOLE_MESSAGE_RECEIVED env i
    | return_value_t.PARTIAL_RECEIVE =>
      modify_item i fun it => { it with processing_message := true }
    | return_value_t.EOF_OR_ERROR => case_EOF_OR_ERROR env i

/-- `SCTPasp__PT_PROVIDER::Handle_Fd_Event_Readable`. -/
def Handle_Fd_Event_Readable (env : Env) (my_fd : Int) : M Unit := do
  accept_new_client env my_fd
  receive_data env my_fd

/-! ## Sequences of table operations -/

/-- Whether a slot is live and keyed by `fd`. -/
def live_with_fd (fd : Int) (it : fd_map_item) : Bool := !it.erased && it.fd == fd

/-- The number of live slots keyed by `fd`. -/
def live_count (fd : Int) (m : List fd_map_item) : Nat := m.countP (live_with_fd fd)

/-- A call of one of the three mutating operations of the connection table. -/
inductive TableOp
  | put (fd : Int)
  | remove (index : Int)
  | remove_by_fd (fd : Int)
deriving DecidableEq, Repr

/-- The port function a table operation stands for. -/
def TableOp.run : TableOp → M Unit
  | TableOp.put fd => map_put_item fd
  | TableOp.remove index => map_delete_item index
  | TableOp.remove_by_fd fd => map_delete_item_fd fd

/-- The state after a sequence of table operations; a call that ends in the fatal error
leaves the state it reached and the next call goes on from there. -/
def run_ops : List TableOp → PortState → PortState
  | [], st => st
  | op :: ops, st => run_ops ops (op.run st).2

/-- Every `put` of the sequence is called with an fd that has no live slot at the time
of the call. -/
def fresh_puts : List TableOp → PortState → Bool
  | [], _ => true
  | TableOp.put fd :: ops, st =>
    decide (map_get_item fd st = -1) && fresh_puts ops ((TableOp.put fd).run st).2
  | op :: ops, st => fresh_puts ops (op.run st).2

/-- The state the constructor `SCTPasp__PT_PROVIDER(const char*)` sets up. -/
def initial_state : PortState :=
  { simple_mode := false, reconnect := false, reconnect_max_attempts := 6,
    server_mode := false, server_backlog := 1, local_IP_address := "0.0.0.0",
    local_port := -1, peer_IP_address := "", peer_port := -1,
    initmsg := ⟨64, 64, 0, 0⟩,
    events := ⟨true, true, true, true, true, true, true, true⟩,
    fd := -1, receiving_fd := -1, fd_map := [], fd_map_server := [], trace := [],
    local_port_is_present := false, peer_IP_address_is_present := false,
    peer_port_is_present := false }

/-- The table `map_put_item` works on after its growth step. -/
def grown (m : List fd_map_item) : List fd_map_item :=
  if first_erased m = m.length then m ++ List.replicate MAP_LENGTH erased_item else m

/-- The table `map_put_item fd` leaves (theorem `map_put_item_run`). -/
def table_put (fd : Int) (m : List fd_map_item) : List fd_map_item :=
  (grown m).set (first_erased m)
    { (grown m).getD (first_erased m) erased_item with fd := fd, erased := false }

/-- The calls `map_delete_item` makes for a slot with the given `fd` and `buf`. -/
def delete_calls (fd : Int) (buf : Option (List Nat)) : List Effect :=
  (if fd != -1 then [Effect.close fd, Effect.Handler_Remove_Fd fd] else [])
    ++ (if buf.isSome then [Effect.Free] else [])

/-! ## One receive, slot by slot

The functions below restate what one call of the readable handler does to the slot of the
ready fd; the theorems `receive_data_part`, `receive_data_whole` and `receive_data_eof`
tie them to `receive_data`, and `Handle_Fd_Event_Readable_eq` to the handler. -/

/-- The ready fd belongs to no listening socket, so the handler accepts nothing. -/
def not_listening (my_fd : Int) (st : PortState) : Bool :=
  if !st.simple_mode then st.fd_map_server.all fun s => !(!s.erased && s.fd == my_fd)
  else !(st.server_mode && st.fd == my_fd)

/-- The slot after `prepare_iov`. -/
def slot_prepared (it : fd_map_item) : fd_map_item :=
  if !it.processing_message then
    { it with buf := some (List.replicate BUFLEN.toNat 0), buflen := BUFLEN }
  else it

/-- The offset of `iov_base` in the buffer. -/
def offered_offset (it : fd_map_item) : Int :=
  if !it.processing_message then 0 else it.nr

/-- The length offered to `recvmsg` (`iov_len`). -/
def offered_len (it : fd_map_item) : Int :=
  if !it.processing_message then BUFLEN else it.buflen - it.nr

/-- What `getmsg` does to the slot up to the test of `MSG_EOR`, when `recvmsg` stores its
bytes at offset `off` and returns a positive count. -/
def slot_received (it : fd_map_item) (off : Int) (r : recvmsg_result) : fd_map_item :=
  { it with
    buf := it.buf.map fun bs => store bs off.toNat r.data
    nr := (if !it.processing_message then 0 else it.nr) + r.value }

/-- The slot after `recvmsg` returned a positive count and `getmsg` added it to `nr`. -/
def recv_store (it : fd_map_item) (r : recvmsg_result) : fd_map_item :=
  slot_received (slot_prepared it) (offered_offset it) r

/-- The resize step of `getmsg`. -/
def recv_grow (it : fd_map_item) : fd_map_item :=
  if it.buflen == it.nr then
    { it with
      buf := some ((it.buf.getD []).take (it.buflen * 2).toNat
        ++ List.replicate ((it.buflen * 2).toNat - (it.buf.getD []).length) 0)
      buflen := it.buflen * 2 }
  else it

/-- The calls of the resize step of `getmsg`. -/
def calls_grow (it : fd_map_item) : List Effect :=
  if it.buflen == it.nr then [Effect.Realloc (it.buflen * 2)] else []

/-- The slot after a receive that `getmsg` classifies as `PARTIAL_RECEIVE`. -/
def slot_after_part (it : fd_map_item) (r : recvmsg_result) : fd_map_item :=
  { recv_grow (recv_store it r) with processing_message := true }

/-- The slot after a receive that completes a data message. -/
def slot_after_whole (it : fd_map_item) (r : recvmsg_result) : fd_map_item :=
  { recv_store it r with processing_message := false, buf := none }

/-- The calls up to and including `recvmsg`. -/
def calls_recv (it : fd_map_item) : List Effect :=
  (if !it.processing_message then [Effect.Malloc BUFLEN] else [])
    ++ [Effect.recvmsg it.fd (offered_offset it) (offered_len it)]

/-- The calls of a receive classified as `PARTIAL_RECEIVE`. -/
def calls_part (it : fd_map_item) (r : recvmsg_result) : List Effect :=
  calls_recv it ++ calls_grow (recv_store it r)

/-- The data event emitted when a receive completes a data message. -/
def data_event (env : Env) (it : fd_map_item) : Message :=
  Message.ASP_SCTP (some it.fd) env.recvmsg.sinfo_stream
    (received_sinfo_ppid env.little_endian env.recvmsg.sinfo_ppid)
    (((recv_store it env.recvmsg).buf.getD []).take (recv_store it env.recvmsg).nr.toNat)

/-- The calls of a receive that completes a data message. -/
def calls_whole (env : Env) (it : fd_map_item) : List Effect :=
  calls_recv it ++ [Effect.incoming_message (data_event env it)]
    ++ (if (recv_store it env.recvmsg).buf.isSome then [Effect.Free] else [])

/-- The state in which the `case EOF_OR_ERROR` of the handler reaches its last line,
`if (reconnect) forced_reconnect(reconnect_max_attempts)`, for the slot `i` holding
`it`. -/
def state_before_reconnect (st : PortState) (i : Nat) (it : fd_map_item) : PortState :=
  { st with
    fd := if !st.server_mode then -1 else st.fd
    receiving_fd := it.fd
    fd_map := st.fd_map.set i erased_item
    trace := st.trace ++ calls_recv it ++ delete_calls it.fd (slot_prepared it).buf
      ++ (if st.events.sctp_association_event then
            [Effect.incoming_message
              (Message.ASP_SCTP_ASSOC_CHANGE it.fd SAC_STATE.SCTP_COMM_LOST)]
          else []) }

/-! ## Sequences of readiness notifications for one connection -/

/-- One call of the readable handler for the fd `f` per element of the list, each with
the answers of the operating system during that call. -/
def readable_calls (f : Int) : List Env → M Unit
  | [] => pure ()
  | e :: es => do
    Handle_Fd_Event_Readable e f
    readable_calls f es

/-- The slot after a sequence of receives that `getmsg` classifies as
`PARTIAL_RECEIVE`. -/
def slot_after_parts (it : fd_map_item) : List Env → fd_map_item
  | [] => it
  | e :: es => slot_after_parts (slot_after_part it e.recvmsg) es

/-- The calls of a sequence of receives classified as `PARTIAL_RECEIVE`. -/
def calls_parts (it : fd_map_item) : List Env → List Effect
  | [] => []
  | e :: es => calls_part it e.recvmsg ++ calls_parts (slot_after_part it e.recvmsg) es

/-- Every receive of the sequence returns a positive count, without `MSG_EOR`. -/
def all_part (es : List Env) : Bool :=
  es.all fun e => decide (0 < e.recvmsg.value) && !e.recvmsg.MSG_EOR

/-- Every receive of the sequence returns no more bytes than the length offered to it;
`it` is the slot before the first receive, and each receive but the last is followed by
the slot update of a `PARTIAL_RECEIVE`. -/
def within_offered (it : fd_map_item) : List Env → Bool
  | [] => true
  | e :: es =>
    decide (e.recvmsg.value ≤ offered_len it)
      && within_offered (slot_after_part it e.recvmsg) es

/-- The capacity invariant of a slot: `buflen` is `1024 * 2^j` and `nr ≤ buflen`. -/
def capacity_ok (it : fd_map_item) : Prop :=
  (∃ j : Nat, it.buflen = 1024 * 2 ^ j) ∧ it.nr ≤ it.buflen

/-- What holds of a slot between two receives of one message: the capacity is
`1024 * 2^j` and there is room left. -/
def between_receives (it : fd_map_item) : Prop :=
  it.processing_message = true → (∃ j : Nat, it.buflen = 1024 * 2 ^ j) ∧ it.nr < it.buflen

/-- The bytes of the fragments, in order. -/
def payload (es : List Env) : List Nat := (es.map fun e => e.recvmsg.data).flatten

/-- The data events among a list of calls. -/
def data_events (calls : List Effect) : List Message :=
  calls.filterMap fun c =>
    match c with
    | Effect.incoming_message (Message.ASP_SCTP a b c d) => some (Message.ASP_SCTP a b c d)
    | _ => none

/-- The slot's buffer holds the bytes `acc` at its start, `nr` counts them and `buflen`
is the size of the buffer. -/
def holds_bytes (it : fd_map_item) (acc : List Nat) : Prop :=
  ∃ bs, it.buf = some bs ∧ (bs.length : Int) = it.buflen ∧ it.nr = (acc.length : Int)
    ∧ bs.take acc.length = acc

/-- A small client-mode port with one connection, on fd 5, in slot 0. -/
def example_state : PortState :=
  (map_put_item 5 { initial_state with simple_mode := true, peer_IP_address := "10.0.0.1",
                                       peer_port := 9000 }).2

/-- An operating system that answers the receive of the call with `r`, resolves every
name as the IPv4 literal 10.0.0.1, hands out the socket `7 + k` at the `k`-th creation
and lets the `k`-th `connect` fail exactly when `fails k`; every other call succeeds. -/
def example_env (r : recvmsg_result) (fails : Nat → Bool) : Env :=
  { little_endian := true
    accept := fun _ => ⟨-1, sockaddr_storage.zero⟩
    fcntl := fun _ => 0
    recvmsg := r
    sn := fun _ => ⟨0, 0, 0⟩
    inet_pton := fun af _ => if af == AF_INET then some [10, 0, 0, 1] else none
    getaddrinfo := fun _ => none
    inet_ntop := fun _ _ => ""
    socket := fun k => 7 + k
    connect := fun k => ⟨if fails k then -1 else 0, 0⟩
    sendmsg := 0
    bind := 0
    listen := 0
    setsockopt := ⟨0, 0⟩ }

/-- A receive that returns the bytes `data`, on stream 3 with payload protocol id 1. -/
def fragment (data : List Nat) (eor : Bool) : recvmsg_result :=
  { value := data.length, data := data, MSG_EOR := eor, MSG_NOTIFICATION := false,
    sinfo_stream := 3, sinfo_ppid := 16777216 }

/-- The value of `nr` the next receive starts from: `getmsg` resets `nr` to 0 when no
message is in progress. -/
def base_nr (it : fd_map_item) : Int := if it.processing_message then it.nr else 0

/-- The slot when `getmsg` returns after a receive with a positive count. -/
def slot_after_getmsg (it : fd_map_item) (r : recvmsg_result) : fd_map_item :=
  if r.MSG_EOR then recv_store it r else recv_grow (recv_store it r)

/-- Every receive of the sequence returns exactly the bytes it reports. -/
def returns_fragments (es : List Env) : Bool :=
  es.all fun x => decide (x.recvmsg.value = (x.recvmsg.data.length : Int))

/-- The first receive of the scenario of a 2500-byte message: 1024 bytes, without the
end-of-record flag. -/
def scenario_first : Env :=
  example_env (fragment (List.replicate 1024 1) false) fun _ => true

/-- The second receive of the scenario: 1024 bytes, without the end-of-record flag. -/
def scenario_second : Env :=
  example_env (fragment (List.replicate 1024 2) false) fun _ => true

/-- The first two receives of the scenario. -/
def scenario_parts : List Env := [scenario_first, scenario_second]

/-- The third receive of the scenario: 452 bytes with the end-of-record flag. -/
def scenario_last : Env :=
  example_env (fragment (List.replicate 452 3) true) fun _ => true

/-! ## Reconnect attempts -/

/-- Address resolution of `name` succeeds: it is an IPv4 literal, an IPv6 literal, or
`getaddrinfo` finds it. -/
def resolves (env : Env) (name : String) : Bool :=
  (env.inet_pton AF_INET name).isSome || (env.inet_pton AF_INET6 name).isSome
    || (env.getaddrinfo name).isSome

/-- The calls `fill_addr_struct` makes for `name`. -/
def resolve_calls (env : Env) (name : String) : List Effect :=
  if (env.inet_pton AF_INET name).isSome || (env.inet_pton AF_INET6 name).isSome then []
  else [Effect.getaddrinfo name]

/-- The `k`-th attempt of a reconnect creates its socket and its `connect` fails. -/
def attempt_fails (env : Env) (k : Nat) : Bool :=
  env.socket k != -1 && (env.connect k).ret == -1

/-- The `k`-th attempt of a reconnect creates its socket, its `connect` succeeds and so
does making the socket non-blocking. -/
def attempt_succeeds (env : Env) (k : Nat) : Bool :=
  env.socket k != -1 && (env.connect k).ret != -1 && env.fcntl (env.socket k) != -1

/-- The update of `sleep_interval` in iteration `k` of the loop of `forced_reconnect`. -/
def next_interval (k : Nat) (sleep_interval : Nat) : Nat :=
  if k % 2 == 0 && k != 0 then sleep_interval * 2 % 2 ^ 32 else sleep_interval

/-- The calls of iteration `k` when its `connect` fails, sleeping `seconds`. -/
def failed_attempt_calls (env : Env) (sock_type : Int) (sa : sockaddr_storage) (saLen : Nat)
    (k : Nat) (seconds : Nat) : List Effect :=
  [Effect.usleep 200000, Effect.socket sock_type,
   Effect.setsockopt (env.socket k) Sockopt.SCTP_INITMSG,
   Effect.setsockopt (env.socket k) Sockopt.SCTP_EVENTS,
   Effect.connect (env.socket k) sa saLen, Effect.close (env.socket k),
   Effect.sleep seconds]

/-- The calls of `m` failing iterations from iteration `k` on, entered with the interval
`s`. -/
def failure_calls (env : Env) (sock_type : Int) (sa : sockaddr_storage) (saLen : Nat) :
    Nat → Nat → Nat → List Effect
  | 0, _, _ => []
  | m + 1, k, s =>
    failed_attempt_calls env sock_type sa saLen k (next_interval k s)
      ++ failure_calls env sock_type sa saLen m (k + 1) (next_interval k s)

/-- The interval after `m` failing iterations from iteration `k` on. -/
def interval_after : Nat → Nat → Nat → Nat
  | 0, _, s => s
  | m + 1, k, s => interval_after m (k + 1) (next_interval k s)

/-- The calls of iteration `k` when its `connect` succeeds. -/
def successful_attempt_calls (env : Env) (sock_type : Int) (sa : sockaddr_storage)
    (saLen : Nat) (k : Nat) : List Effect :=
  [Effect.usleep 200000, Effect.socket sock_type,
   Effect.setsockopt (env.socket k) Sockopt.SCTP_INITMSG,
   Effect.setsockopt (env.socket k) Sockopt.SCTP_EVENTS,
   Effect.connect (env.socket k) sa saLen,
   Effect.fcntl_GETFL (env.socket k), Effect.fcntl_SETFL (env.socket k),
   Effect.Handler_Add_Fd_Read (env.socket k)]

/-- The arguments of the `sleep` calls among a list of calls. -/
def sleeps (calls : List Effect) : List Nat :=
  calls.filterMap fun c => match c with
    | Effect.sleep n => some n
    | _ => none

/-- The descriptors closed by a list of calls. -/
def closes (calls : List Effect) : List Int :=
  calls.filterMap fun c => match c with
    | Effect.close fd => some fd
    | _ => none

/-- The number of socket creations among a list of calls. -/
def socket_count (calls : List Effect) : Nat :=
  calls.countP fun c => match c with
    | Effect.socket _ => true
    | _ => false

/-- The number of `connect` calls among a list of calls. -/
def connect_count (calls : List Effect) : Nat :=
  calls.countP fun c => match c with
    | Effect.connect _ _ _ => true
    | _ => false

/-- The events handed to `incoming_message` by a list of calls. -/
def events_of (calls : List Effect) : List Message :=
  calls.filterMap fun c => match c with
    | Effect.incoming_message m => some m
    | _ => none

/-! ## The writable handler and the close request -/

/-- `SCTPasp__PT_PROVIDER::Handle_Fd_Event_Writable`; its `connect` is the first of the
call, and `error_message` carries the `errno` that `connect` left. -/
def Handle_Fd_Event_Writable (env : Env) (my_fd : Int) : M Unit := do
  let st ← getState
  let i := map_get_item my_fd st
  if i != -1 && !st.simple_mode then
    let it ← item i
    if !it.erased && it.einprogress then
      emit (Effect.connect it.fd it.sin it.saLen)
      if (env.connect 0).ret == -1 then
        emit (Effect.Handler_Remove_Fd_Write it.fd)
        if (env.connect 0).errno == EISCONN then
          incoming_message (Message.ASP_SCTP_RESULT (some it.fd) false none)
          modify_item i fun it => { it with einprogress := false }
          emit (Effect.Handler_Add_Fd_Read it.fd)
        else
          emit (Effect.close it.fd)
          modifyState fun s => { s with fd := -1 }
          incoming_message
            (Message.ASP_SCTP_RESULT (some it.fd) true (some (env.connect 0).errno))
          map_delete_item_fd it.fd

/-- The loop `for(int i=0;i<list_len;i++) map_delete_item(i)`, entered at the loop test
with the given `i`; the first argument bounds the number of iterations. -/
def delete_items_from : Nat → Int → M Unit
  | 0, _ => pure ()
  | fuel + 1, i => do
    let st ← getState
    if i < st.fd_map.length then
      map_delete_item i
      delete_items_from fuel (i + 1)

/-- The loop `for(int i=0;i<list_len_server;i++) map_delete_item_server(i)`, entered at
the loop test with the given `i`; the first argument bounds the number of iterations. -/
def delete_server_items_from : Nat → Int → M Unit
  | 0, _ => pure ()
  | fuel + 1, i => do
    let st ← getState
    if i < st.fd_map_server.length then
      map_delete_item_server i
      delete_server_items_from fuel (i + 1)

/-- `SCTPasp__PT_PROVIDER::outgoing_send(const ASP__SCTP__Close&)`; `client_id` is the
optional field of the request, `none` for `omit`.  Each loop runs from `i = 0` over a
table whose length does not change, so as many iterations as the table has slots are
enough. -/
def outgoing_send_ASP_SCTP_Close (client_id : Option Int) : M Unit := do
  let st ← getState
  if !st.simple_mode then
    match client_id with
    | some local_fd =>
      map_delete_item_fd local_fd
      map_delete_item_fd_server local_fd
    | none =>
      delete_items_from st.fd_map.length 0
      delete_server_items_from st.fd_map_server.length 0
  else
    if st.server_mode then
      match client_id with
      | some local_fd => map_delete_item_fd local_fd
      | none => delete_items_from st.fd_map.length 0
    else
      (if client_id.isSome then error Fatal.close_client_id else pure ())
      map_delete_item_fd st.fd
      modifyState fun s => { s with fd := -1 }

/-! ## Sequences of calls on the port -/

/-- One call that changes the connection table: a table operation, a close request, or
one of the two handlers with the answers of the operating system during that call. -/
inductive Call
  | put (fd : Int)
  | remove (index : Int)
  | remove_by_fd (fd : Int)
  | close_request (client_id : Option Int)
  | readable (env : Env) (my_fd : Int)
  | writable (env : Env) (my_fd : Int)

/-- The port function a call stands for. -/
def Call.run : Call → M Unit
  | Call.put fd => map_put_item fd
  | Call.remove index => map_delete_item index
  | Call.remove_by_fd fd => map_delete_item_fd fd
  | Call.close_request client_id => outgoing_send_ASP_SCTP_Close client_id
  | Call.readable env my_fd => Handle_Fd_Event_Readable env my_fd
  | Call.writable env my_fd => Handle_Fd_Event_Writable env my_fd

/-- The state between two calls: the state after a sequence of calls each of which
returned; `none` when one of them ended in the fatal error, which ends the test case. -/
def run_calls : List Call → PortState → Option PortState
  | [], st => some st
  | c :: cs, st =>
    match c.run st with
    | (Outcome.ok _, st1) => run_calls cs st1
    | (Outcome.fatal _, _) => none

/-- The receive buffer of a slot is non-null exactly when a message is in progress. -/
def buffer_iff_processing (it : fd_map_item) : Bool :=
  it.buf.isSome == it.processing_message

/-- Every slot of the table satisfies `P`, which may depend on the index of the slot. -/
def all_slots (P : Nat → fd_map_item → Prop) (m : List fd_map_item) : Prop :=
  ∀ j it, m[j]? = some it → P j it

/-- A property `T` of the connection table goes on holding when `map_put_item` stores a
descriptor and when `map_delete_item` erases a slot. -/
def stable (T : List fd_map_item → Prop) : Prop :=
  (∀ m fd, fd ≠ -1 → T m → T (table_put fd m))
    ∧ ∀ m i, i < m.length → T m → T (m.set i erased_item)

/-- The port function `x` maintains the property `T` of the connection table, whether it
returns or ends in the fatal error. -/
def keeps (T : List fd_map_item → Prop) {α : Type} (x : M α) : Prop :=
  ∀ st, T st.fd_map → T (x st).2.fd_map

/-- What a property `Q` of slots needs to hold between the calls of a sequence whose
`put` calls take their fd from `okfd`: it holds of a fresh or deleted slot, survives
the assignment of an fd to an erased slot, and survives what the two handlers do to the
live slot of the ready fd. -/
structure slot_invariant (Q : fd_map_item → Prop) (okfd : Int → Prop) : Prop where
  descriptors : ∀ fd, fd ≠ -1 → okfd fd
  fresh : Q erased_item
  put : ∀ it fd, okfd fd → it.erased = true → Q it → Q { it with fd := fd, erased := false }
  part : ∀ it r, it.erased = false → Q it → Q (slot_after_part it r)
  whole : ∀ it r, it.erased = false → Q it → Q (slot_after_whole it r)
  connected : ∀ it, it.erased = false → Q it → Q { it with einprogress := false }

/-! ## Parts of the handlers -/

/-- Lines 528-552 of `Handle_Fd_Event_Readable`: the `case WHOLE_MESSAGE_RECEIVED` up to
the delivery of the notification or of the data. -/
def deliver_whole_message (env : Env) (i : Int) : M Unit := do
  modify_item i fun it => { it with processing_message := false }
  (if env.recvmsg.MSG_NOTIFICATION then do
    let it ← item i
    match it.buf with
    | none => error Fatal.undefined_behaviour
    | some bs => handle_event env i bs
   else do
    let i_ppid := received_sinfo_ppid env.little_endian env.recvmsg.sinfo_ppid
    let st ← getState
    let it ← item i
    incoming_message (Message.ASP_SCTP (some st.receiving_fd) env.recvmsg.sinfo_stream
      i_ppid ((it.buf.getD []).take it.nr.toNat)))

/-- Lines 553-554 of `Handle_Fd_Event_Readable`: `Free(fd_map[i].buf)` and
`fd_map[i].buf = NULL`, the end of the `case WHOLE_MESSAGE_RECEIVED`. -/
def release_buffer (i : Int) : M Unit := do
  let it ← item i
  Free it.buf
  modify_item i fun it => { it with buf := none }

/-- Lines 1189-1201 of `handle_event`: the removal of the records of the receiving fd
when the association state is `SCTP_COMM_LOST`. -/
def remove_on_comm_lost (sac_state : Int) : M Unit :=
  if sac_state == SCTP_COMM_LOST then do
    let st ← getState
    if st.simple_mode then
      (if !st.server_mode then modifyState fun s => { s with fd := -1 } else pure ())
      map_delete_item_fd st.receiving_fd
    else
      map_delete_item_fd st.receiving_fd
      map_delete_item_fd_server st.receiving_fd
  else pure ()

/-- Lines 1202-1210 of `handle_event`, for the notification in the buffer of slot `i`:
the emission of the association-change event and the reconnect, decided on a second read
of `sac->sac_state`. -/
def emit_assoc_change (env : Env) (i : Int) (sac_state : Int) : M Unit := do
  let st ← getState
  (if st.events.sctp_association_event then
    incoming_message
      (Message.ASP_SCTP_ASSOC_CHANGE st.receiving_fd (sac_state_ttcn sac_state))
   else pure ())
  if st.simple_mode then
    if st.reconnect then
      let sac_state_1209 ← reread_sac_state i sac_state
      if sac_state_1209 == SCTP_COMM_LOST then
        forced_reconnect env st.reconnect_max_attempts

/-- Line 1209 of `handle_event` in simple mode once `reconnect` is found set: the second
read of `sac->sac_state` and the reconnect that depends on it. -/
def reconnect_on_reread (env : Env) (i : Int) (sac_state : Int) : M Unit := do
  let st ← getState
  let sac_state_1209 ← reread_sac_state i sac_state
  if sac_state_1209 == SCTP_COMM_LOST then
    forced_reconnect env st.reconnect_max_attempts

/-- Slot `i` of the connection table is live and keyed by `fd`. -/
def live_keyed (fd : Int) (i : Nat) (st : PortState) : Bool :=
  match st.fd_map[i]? with
  | some it => !it.erased && it.fd == fd
  | none => false

/-- The number of live slots of the listener table keyed by `fd`. -/
def live_server_count (fd : Int) (m : List fd_map_server_item) : Nat :=
  m.countP fun s => !s.erased && s.fd == fd

/-- The slot of the ready fd when its message is complete and about to be delivered. -/
def slot_complete (it : fd_map_item) (r : recvmsg_result) : fd_map_item :=
  { recv_store it r with processing_message := false }

/-- A complete notification, as `recvmsg` reports it. -/
def notification : recvmsg_result :=
  { value := 20, data := List.replicate 20 0, MSG_EOR := true, MSG_NOTIFICATION := true,
    sinfo_stream := 0, sinfo_ppid := 0 }

/-- An operating system like `example_env` whose receive returns a complete notification
of the given type with the given association state. -/
def notification_env (sn_type sac_state : Int) (fails : Nat → Bool) : Env :=
  { example_env notification fails with sn := fun _ => ⟨sn_type, sac_state, 0⟩ }

/-! ## A sequence of calls -/

/-- An operating system whose receive returns the three bytes 1, 2, 3 without the
end-of-record flag. -/
def three_bytes_env : Env := example_env (fragment [1, 2, 3] false) fun _ => true

/-- Four calls on a port: a connection on fd 5, a first fragment of a message on it, a
second connection on fd 6, and its removal. -/
def example_calls : List Call :=
  [Call.put 5, Call.readable three_bytes_env 5, Call.put 6, Call.remove 1]

/-- The state after `example_calls` on the port as constructed: the message on fd 5 is
in progress. -/
def example_between : PortState :=
  { initial_state with
    receiving_fd := 5
    fd_map :=
      { erased_item with
        fd := 5, erased := false, processing_message := true
        buf := some (store (List.replicate 1024 0) 0 [1, 2, 3])
        buflen := 1024, nr := 3 } :: List.replicate 9 erased_item
    trace := [Effect.Malloc 1024, Effect.recvmsg 5 0 1024, Effect.close 6,
              Effect.Handler_Remove_Fd 6] }

/-! ## What the decoder emits -/

/-- The events the decoder hands to the test for a notification `n`: the one event of
the category of `n` when that category is subscribed, none otherwise. -/
def decoded_events (st : PortState) (n : sctp_notification) : List Message :=
  if n.sn_type = SCTP_ASSOC_CHANGE then
    if st.events.sctp_association_event then
      [Message.ASP_SCTP_ASSOC_CHANGE st.receiving_fd (sac_state_ttcn n.sac_state)]
    else []
  else if n.sn_type = SCTP_PEER_ADDR_CHANGE then
    if st.events.sctp_address_event then
      [Message.ASP_SCTP_PEER_ADDR_CHANGE st.receiving_fd (spc_state_ttcn n.spc_state)]
    else []
  else if n.sn_type = SCTP_REMOTE_ERROR then
    if st.events.sctp_peer_error_event then [Message.ASP_SCTP_REMOTE_ERROR st.receiving_fd]
    else []
  else if n.sn_type = SCTP_SEND_FAILED then
    if st.events.sctp_send_failure_event then [Message.ASP_SCTP_SEND_FAILED st.receiving_fd]
    else []
  else if n.sn_type = SCTP_SHUTDOWN_EVENT then
    if st.events.sctp_shutdown_event then [Message.ASP_SCTP_SHUTDOWN_EVENT st.receiving_fd]
    else []
  else if n.sn_type = SCTP_ADAPTATION_INDICATION then
    if st.events.sctp_adaptation_layer_event then
      [Message.ASP_SCTP_ADAPTION_INDICATION st.receiving_fd]
    else []
  else if n.sn_type = SCTP_PARTIAL_DELIVERY_EVENT then
    if st.events.sctp_partial_delivery_event then
      [Message.ASP_SCTP_PARTIAL_DELIVERY_EVENT st.receiving_fd]
    else []
  else []

/-- The condition under which the decoder is to call `forced_reconnect`: an association
change with state `SCTP_COMM_LOST`, with `reconnect` set, in simple mode. -/
def reconnect_due (st : PortState) (n : sctp_notification) : Bool :=
  n.sn_type == SCTP_ASSOC_CHANGE && n.sac_state == SCTP_COMM_LOST && st.reconnect
    && st.simple_mode

/-- The condition under which the decoder reads `sac->sac_state` at line 1209: an
association change, with `reconnect` set, in simple mode. -/
def reread_due (st : PortState) (n : sctp_notification) : Bool :=
  n.sn_type == SCTP_ASSOC_CHANGE && st.reconnect && st.simple_mode

/-- The connection table `map_delete_item_fd(fd)` leaves: the first slot that stores
`fd` is erased, unless `fd` is `-1`. -/
def table_remove_fd (fd : Int) (m : List fd_map_item) : List fd_map_item :=
  if fd = -1 then m
  else match first_with_fd fd m 0 with
    | some i => m.set i erased_item
    | none => m

/-- The listener table `map_delete_item_fd_server(fd)` leaves. -/
def server_table_remove_fd (fd : Int) (m : List fd_map_server_item) :
    List fd_map_server_item :=
  if fd = -1 then m
  else match first_with_fd_server fd m 0 with
    | some i => m.set i erased_server_item
    | none => m

/-! ## Example states for the decoder and the writable handler -/

/-- The example port while its readable handler runs for fd 5. -/
def receiving_state : PortState := { example_state with receiving_fd := 5 }

/-- An operating system whose receive returns an association-change notification with
state `SCTP_COMM_LOST`. -/
def comm_lost_env : Env := notification_env SCTP_ASSOC_CHANGE SCTP_COMM_LOST fun _ => true

/-- A multiplexed port with one connection, on fd 5 in slot 0, whose `connect` is in
progress. -/
def connecting_state : PortState :=
  { initial_state with
    fd := 5
    fd_map :=
      { erased_item with fd := 5, erased := false, einprogress := true,
                         sin := ⟨AF_INET, 9000, [10, 0, 0, 1]⟩, saLen := 16 }
        :: List.replicate 9 erased_item
    trace := [Effect.Handler_Add_Fd_Write 5] }

/-- An operating system whose `connect` reports "already connected". -/
def connected_env : Env :=
  { example_env (fragment [] false) fun _ => true with connect := fun _ => ⟨-1, EISCONN⟩ }

/-- The example port when its readable handler hands the decoder a notification received
for fd 5: slot 0 holds the buffer, 20 bytes of which are the notification. -/
def decoding_state (reconnect : Bool) : PortState :=
  { example_state with
    reconnect := reconnect
    receiving_fd := 5
    fd_map := example_state.fd_map.set 0
      { erased_item with fd := 5, erased := false, buf := some (List.replicate 1024 0),
                         buflen := 1024, nr := 20 } }

/-! ## Outbound requests: connect, listen, socket options, send -/

/-- `INTEGER::operator int()` of the TITAN runtime, the conversion `(int) v` of the
source: the value, or an error when it is not held in an `int`. -/
def INTEGER_to_int (v : Int) : M Int :=
  if is_native v then pure v else error Fatal.invalid_int_conversion

/-- The loop of `map_put_item_server` that searches the free item. -/
def first_erased_server : List fd_map_server_item → Nat
  | [] => 0
  | x :: xs => if x.erased then 0 else first_erased_server xs + 1

/-- `SCTPasp__PT_PROVIDER::map_put_item_server`; the parameter `local_port` is an
`unsigned short`, so the `int` passed to it is taken modulo `2^16`. -/
def map_put_item_server (fd : Int) (local_IP_address : String) (local_port : Int) :
    M Unit := do
  let st ← getState
  let i := first_erased_server st.fd_map_server
  if i == st.fd_map_server.length then
    modifyState fun s =>
      { s with
        fd_map_server := s.fd_map_server ++ List.replicate MAP_LENGTH erased_server_item }
  modifyState fun s =>
    { s with
      fd_map_server := s.fd_map_server.set i
        { fd := fd, erased := false, local_IP_address := some local_IP_address,
          local_port := (local_port % 65536).toNat } }

/-- Lines 666-680 of `outgoing_send(const ASP__SCTP__Connect&)`, repeated as lines
748-760 of `outgoing_send(const ASP__SCTP__ConnectFrom&)`: the peer address of the
request, where given, replaces the one of the port. -/
def outgoing_send_peer (peer_hostname : Option String) (peer_portnumber : Option Int) :
    M Unit := do
  let st ← getState
  if !st.peer_IP_address_is_present && !peer_hostname.isSome then
    error Fatal.peer_IP_address_undefined
  if !st.peer_port_is_present && !peer_portnumber.isSome then
    error Fatal.peer_port_undefined
  match peer_hostname with
  | some h => modifyState fun s => { s with peer_IP_address := h }
  | none => pure ()
  match peer_portnumber with
  | some p =>
    let v ← INTEGER_to_int p
    modifyState fun s => { s with peer_port := v }
  | none => pure ()

/-- Lines 699-739 of `outgoing_send(const ASP__SCTP__Connect&)`: the `connect` on the new
socket and what follows it; `error_message` carries the `errno` that `connect` left. -/
def outgoing_send_ASP_SCTP_Connect_connect (env : Env) (fd : Int) (sa : sockaddr_storage)
    (saLen : Nat) : M Unit := do
  let st ← getState
  if !st.simple_mode then setNonBlocking env fd
  emit (Effect.connect fd sa saLen)
  if (env.connect 0).ret == -1 then
    if (env.connect 0).errno == EINPROGRESS && !st.simple_mode then
      map_put_item fd
      let st1 ← getState
      modify_item (map_get_item fd st1) fun it =>
        { it with einprogress := true, sin := sa, saLen := saLen }
      emit (Effect.Handler_Add_Fd_Write fd)
    else
      emit (Effect.close fd)
      modifyState fun s => { s with fd := -1 }
      incoming_message (Message.ASP_SCTP_RESULT none true (some (env.connect 0).errno))
  else
    incoming_message (Message.ASP_SCTP_RESULT (some fd) false none)
    map_put_item fd
    if st.simple_mode then setNonBlocking env fd
    emit (Effect.Handler_Add_Fd_Read fd)

/-- `SCTPasp__PT_PROVIDER::outgoing_send(const ASP__SCTP__Connect&)`; the two optional
fields of the request are the arguments. -/
def outgoing_send_ASP_SCTP_Connect (env : Env) (peer_hostname : Option String)
    (peer_portnumber : Option Int) : M Unit := do
  let st ← getState
  if st.simple_mode then
    if st.server_mode then error Fatal.connect_in_server_mode
    if st.fd != -1 then error Fatal.connect_during_active_connection
  outgoing_send_peer peer_hostname peer_portnumber
  let st ← getState
  let (sock_type, sa, saLen) ← fill_addr_struct env st.peer_IP_address st.peer_port 0
  let fd ← create_socket env 0 sock_type
  modifyState fun s => { s with fd := fd }
  if st.simple_mode && st.local_port_is_present then
    let (loc_sock_type, loc_sa, loc_saLen) ←
      fill_addr_struct env st.local_IP_address st.local_port 0
    if sock_type != loc_sock_type then error Fatal.address_type_mismatch
    emit (Effect.bind fd loc_sa loc_saLen)
    if env.bind != 0 then error Fatal.bind_failed
  outgoing_send_ASP_SCTP_Connect_connect env fd sa saLen

/-- Lines 783-818 of `outgoing_send(const ASP__SCTP__ConnectFrom&)`: the `connect` on
the new socket and what follows it. -/
def outgoing_send_ASP_SCTP_ConnectFrom_connect (env : Env) (fd : Int)
    (sa : sockaddr_storage) (saLen : Nat) : M Unit := do
  setNonBlocking env fd
  emit (Effect.connect fd sa saLen)
  if (env.connect 0).ret == -1 then
    if (env.connect 0).errno == EINPROGRESS then
      map_put_item fd
      let st1 ← getState
      modify_item (map_get_item fd st1) fun it =>
        { it with einprogress := true, sin := sa, saLen := saLen }
      emit (Effect.Handler_Add_Fd_Write fd)
    else
      emit (Effect.close fd)
      modifyState fun s => { s with fd := -1 }
      incoming_message (Message.ASP_SCTP_RESULT none true (some (env.connect 0).errno))
  else
    incoming_message (Message.ASP_SCTP_RESULT (some fd) false none)
    map_put_item fd
    emit (Effect.Handler_Add_Fd_Read fd)

/-- `SCTPasp__PT_PROVIDER::outgoing_send(const ASP__SCTP__ConnectFrom&)`; the fields of
the request are the arguments. -/
def outgoing_send_ASP_SCTP_ConnectFrom (env : Env) (local_hostname : Option String)
    (local_portnumber : Int) (peer_hostname : Option String)
    (peer_portnumber : Option Int) : M Unit := do
  let st ← getState
  if !st.simple_mode then
    outgoing_send_peer peer_hostname peer_portnumber
    let st ← getState
    let (sock_type, sa, saLen) ← fill_addr_struct env st.peer_IP_address st.peer_port 0
    let loc_port ← INTEGER_to_int local_portnumber
    let (loc_sock_type, loc_sa, loc_saLen) ←
      fill_addr_struct env (local_hostname.getD st.local_IP_address) loc_port 0
    if sock_type != loc_sock_type then error Fatal.address_type_mismatch
    let fd ← create_socket env 0 sock_type
    modifyState fun s => { s with fd := fd }
    emit (Effect.bind fd loc_sa loc_saLen)
    if env.bind != 0 then error Fatal.bind_failed
    outgoing_send_ASP_SCTP_ConnectFrom_connect env fd sa saLen

/-- `SCTPasp__PT_PROVIDER::outgoing_send(const ASP__SCTP__Listen&)`, built without
`SCTP_REPORT_LISTEN_RESULT`; the fields of the request are the arguments. -/
def outgoing_send_ASP_SCTP_Listen (env : Env) (local_hostname : Option String)
    (local_portnumber : Int) : M Unit := do
  let st ← getState
  if !st.simple_mode then
    let loc_name := local_hostname.getD st.local_IP_address
    let loc_port ← INTEGER_to_int local_portnumber
    let (loc_sock_type, loc_sa, loc_saLen) ← fill_addr_struct env loc_name loc_port 0
    let fd ← create_socket env 0 loc_sock_type
    modifyState fun s => { s with fd := fd }
    emit (Effect.bind fd loc_sa loc_saLen)
    if env.bind != 0 then error Fatal.bind_failed
    emit (Effect.listen fd st.server_backlog)
    if env.listen == -1 then error Fatal.listen_error
    map_put_item_server fd loc_name loc_port
    emit (Effect.Handler_Add_Fd_Read fd)

/-- Lines 1054-1078 of `outgoing_send(const ASP__SCTP&)`: the descriptor the message is
sent to. -/
def outgoing_send_target (client_id : Option Int) : M Int := do
  let st ← getState
  if !st.simple_mode then
    match client_id with
    | none => error Fatal.client_id_omit_in_normal_mode
    | some c =>
      let target ← INTEGER_to_int c
      if map_get_item target st == -1 && map_get_item_server target st == -1 then
        error Fatal.bad_client_id
      pure target
  else
    if st.server_mode then
      if !client_id.isSome then error Fatal.client_id_omit_in_server_mode
    else
      if client_id.isSome then error Fatal.client_id_present_in_client_mode
    let target ←
      if st.server_mode then
        match client_id with
        | some c => INTEGER_to_int c
        | none => error Fatal.undefined_behaviour
      else pure st.fd
    if map_get_item target st == -1 then error Fatal.bad_client_id
    pure target

/-- `SCTPasp__PT_PROVIDER::outgoing_send(const ASP__SCTP&)`; the fields of the request
are the arguments, and the `sendmsg` call is recorded with the descriptor, the stream
(a `__u16`), the payload protocol id as stored in `sinfo_ppid`, and the payload. -/
def outgoing_send_ASP_SCTP (env : Env) (client_id : Option Int) (sinfo_stream : Int)
    (sinfo_ppid : Int) (data : List Nat) : M Unit := do
  let stream ← INTEGER_to_int sinfo_stream
  let target ← outgoing_send_target client_id
  let ppid ← outgoing_send_sinfo_ppid env.little_endian sinfo_ppid
  emit (Effect.sendmsg target (stream % 65536) ppid data)
  if env.sendmsg < 0 then
    let st ← getState
    incoming_message
      (Message.ASP_SCTP_SENDMSG_ERROR (if st.server_mode then some target else none)
        sinfo_stream sinfo_ppid data)

/-! ## What the requests are checked against -/

/-- The `sendmsg` calls among a list of calls. -/
def sendmsg_count (calls : List Effect) : Nat :=
  calls.countP fun c => match c with
    | Effect.sendmsg _ _ _ _ => true
    | _ => false

/-- The condition C22 gives for a send request to be rejected: (a) in multiplexed mode
the client id is omitted or names an fd live in neither table, (b) in simple server mode
it is omitted or names an fd not live in the connection table, (c) in simple client mode
it is present or the port's `fd` is not live in the connection table. -/
def send_rejected (st : PortState) (client_id : Option Int) : Bool :=
  if !st.simple_mode then
    match client_id with
    | none => true
    | some c => live_count c st.fd_map == 0 && live_server_count c st.fd_map_server == 0
  else if st.server_mode then
    match client_id with
    | none => true
    | some c => live_count c st.fd_map == 0
  else
    client_id.isSome || live_count st.fd st.fd_map == 0

/-- An operating system like `connected_env` whose `connect` is refused. -/
def refused_env : Env :=
  { connected_env with connect := fun _ => ⟨-1, 111⟩ }

/-- An operating system like `connected_env` whose `connect` succeeds. -/
def accepting_env : Env :=
  { connected_env with connect := fun _ => ⟨0, 0⟩ }

/-- An operating system like `connected_env` whose `sendmsg` fails. -/
def send_failing_env : Env :=
  { connected_env with sendmsg := -1 }

/-- A multiplexed port with one established connection, on fd 5 in slot 0. -/
def multiplexed_state : PortState :=
  { initial_state with
    fd := 5
    fd_map := { erased_item with fd := 5, erased := false } :: List.replicate 9 erased_item }

/-- A client-mode port that is to bind its socket to the local address `nohost`
before it connects to 10.0.0.1. -/
def binding_state : PortState :=
  { initial_state with
    simple_mode := true, local_IP_address := "nohost", local_port := 5000,
    local_port_is_present := true, peer_IP_address := "10.0.0.1", peer_port := 9000,
    peer_IP_address_is_present := true, peer_port_is_present := true }

/-- An operating system that resolves the literal 10.0.0.1 and no other name. -/
def literal_env : Env :=
  { connected_env with
    inet_pton := fun af name =>
      if af == AF_INET && name == "10.0.0.1" then some [10, 0, 0, 1] else none }

/-- The descriptor a send request goes to when it is not rejected: the port's `fd` in
simple client mode, the client id otherwise. -/
def send_target (st : PortState) (client_id : Option Int) : Int :=
  if st.simple_mode && !st.server_mode then st.fd else client_id.getD (-1)

/-! ## Address resolution before socket creation -/

/-- The port function never ends in the fatal resolution error. -/
def never_unresolved {α : Type} (x : M α) : Prop :=
  ∀ st, (x st).1 ≠ Outcome.fatal Fatal.cant_resolve_host

/-- The port function only adds calls to the trace, none of them a socket creation. -/
def socket_free {α : Type} (x : M α) : Prop :=
  ∀ st, ∃ calls, (x st).2.trace = st.trace ++ calls ∧ socket_count calls = 0

/-- Whenever the port function ends in the fatal resolution error, it has only added
calls to the trace, none of them a socket creation. -/
def resolves_before_socket {α : Type} (x : M α) : Prop :=
  ∀ st, (x st).1 = Outcome.fatal Fatal.cant_resolve_host →
    ∃ calls, (x st).2.trace = st.trace ++ calls ∧ socket_count calls = 0

@[simp] theorem bind_run {α β : Type} (x : M α) (f : α → M β) (st : PortState) :
    (x >>= f) st = match x st with
      | (Outcome.ok a, st1) => f a st1
      | (Outcome.fatal e, st1) => (Outcome.fatal e, st1) := rfl

@[simp] theorem pure_run {α : Type} (a : α) (st : PortState) :
    (pure a : M α) st = (Outcome.ok a, st) := rfl

@[simp] theorem getState_run (st : PortState) : getState st = (Outcome.ok st, st) := rfl

@[simp] theorem modifyState_run (f : PortState → PortState) (st : PortState) :
    modifyState f st = (Outcome.ok (), f st) := rfl

@[simp] theorem error_run {α : Type} (e : Fatal) (st : PortState) :
    (error e : M α) st = (Outcome.fatal e, st) := rfl

@[simp] theorem emit_run (e : Effect) (st : PortState) :
    emit e st = (Outcome.ok (), { st with trace := st.trace ++ [e] }) := rfl

theorem item_run {st : PortState} {i : Nat} {it : fd_map_item}
    (h : st.fd_map[i]? = some it) : item (i : Int) st = (Outcome.ok it, st) := by
  simp [item, h]

theorem modify_item_run {st : PortState} {i : Nat} {it : fd_map_item}
    (h : st.fd_map[i]? = some it) (f : fd_map_item → fd_map_item) :
    modify_item (i : Int) f st
      = (Outcome.ok (), { st with fd_map := st.fd_map.set i (f it) }) := by
  simp [modify_item, h]

/-! ## Facts about the table scans -/

theorem first_erased_le (m : List fd_map_item) : first_erased m ≤ m.length := by
  induction m with
  | nil => simp [first_erased]
  | cons x xs ih =>
    simp only [first_erased]
    split
    · simp; omega
    · simp

theorem first_erased_spec (m : List fd_map_item) (h : first_erased m < m.length) :
    ∃ it, m[first_erased m]? = some it ∧ it.erased = true := by
  induction m with
  | nil => simp at h
  | cons x xs ih =>
    simp only [first_erased] at h ⊢
    split
    · rename_i hx
      have : first_erased xs < xs.length := by
        simp [hx] at h; exact h
      simpa using ih this
    · rename_i hx
      exact ⟨x, by simp, by simpa using hx⟩

theorem first_erased_lt_grown (m : List fd_map_item) :
    first_erased m < (grown m).length := by
  have h := first_erased_le m
  unfold grown
  split
  · simp [MAP_LENGTH]; omega
  · omega

theorem grown_first_erased (m : List fd_map_item) :
    ∃ it, (grown m)[first_erased m]? = some it ∧ it.erased = true := by
  by_cases h : first_erased m = m.length
  · refine ⟨erased_item, ?_, rfl⟩
    rw [grown, if_pos h, h, List.getElem?_append_right (Nat.le_refl _)]
    simp [MAP_LENGTH]
  · have hlt : first_erased m < m.length := by
      have := first_erased_le m; omega
    simpa [grown, h] using first_erased_spec m hlt

theorem map_put_item_run (fd : Int) (st : PortState) :
    map_put_item fd st = (Outcome.ok (), { st with fd_map := table_put fd st.fd_map }) := by
  obtain ⟨it, hit, -⟩ := grown_first_erased st.fd_map
  unfold map_put_item
  simp only [bind_run, getState_run, beq_iff_eq]
  by_cases h : first_erased st.fd_map = st.fd_map.length
  · have hg : grown st.fd_map = st.fd_map ++ List.replicate MAP_LENGTH erased_item := by
      simp [grown, h]
    rw [hg] at hit
    simp only [h, if_true, bind_run, modifyState_run]
    rw [← h, modify_item_run hit]
    simp [table_put, hg, hit, List.getD_eq_getElem?_getD]
  · have hg : grown st.fd_map = st.fd_map := by simp [grown, h]
    rw [hg] at hit
    simp only [h, if_false, bind_run, pure_run]
    rw [modify_item_run hit]
    simp [table_put, hg, hit, List.getD_eq_getElem?_getD]

theorem map_delete_item_run {st : PortState} {i : Nat} {it : fd_map_item}
    (h : st.fd_map[i]? = some it) :
    map_delete_item (i : Int) st
      = (Outcome.ok (), { st with fd_map := st.fd_map.set i erased_item,
                                  trace := st.trace ++ delete_calls it.fd it.buf }) := by
  have hi : i < st.fd_map.length := (List.getElem?_eq_some_iff.mp h).1
  unfold map_delete_item
  have hr : ¬ ((st.fd_map.length : Int) ≤ i) := by omega
  simp only [bind_run, getState_run, ge_iff_le, Bool.or_eq_true, decide_eq_true_eq, hr,
    false_or, Int.natCast_nonneg, not_lt.mpr, if_false, pure_run, item_run h]
  cases hfd : it.fd != -1 <;> cases hb : it.buf.isSome <;>
    simp [hfd, hb, delete_calls, modify_item, h, erased_item]

theorem map_delete_item_fatal {st : PortState} {index : Int}
    (h : (st.fd_map.length : Int) ≤ index ∨ index < 0) :
    map_delete_item index st = (Outcome.fatal Fatal.index_out_of_range, st) := by
  unfold map_delete_item
  simp [h]

/-! ## At most one live slot per fd -/

theorem countP_set_le {p : fd_map_item → Bool} (l : List fd_map_item) (i : Nat)
    (x : fd_map_item) (hx : p x = false) : (l.set i x).countP p ≤ l.countP p := by
  induction l generalizing i with
  | nil => simp
  | cons a as ih =>
    cases i with
    | zero =>
      simp only [List.set_cons_zero, List.countP_cons, hx]
      simp
    | succ n =>
      simp only [List.set_cons_succ, List.countP_cons]
      have := ih n
      omega

theorem countP_set_of_not {p : fd_map_item → Bool} (l : List fd_map_item) (i : Nat)
    (a x : fd_map_item) (ha : l[i]? = some a) (hp : p a = false) :
    (l.set i x).countP p = l.countP p + if p x then 1 else 0 := by
  induction l generalizing i with
  | nil => simp at ha
  | cons b bs ih =>
    cases i with
    | zero =>
      simp only [List.getElem?_cons_zero, Option.some.injEq] at ha
      subst ha
      simp [List.countP_cons, hp]
    | succ n =>
      simp only [List.getElem?_cons_succ] at ha
      simp only [List.set_cons_succ, List.countP_cons, ih n ha]
      omega

theorem live_count_grown (fd : Int) (m : List fd_map_item) :
    live_count fd (grown m) = live_count fd m := by
  unfold grown live_count
  split
  · simp [List.countP_replicate, live_with_fd, erased_item]
  · rfl

theorem live_count_table_put (fd fd1 : Int) (m : List fd_map_item) :
    live_count fd1 (table_put fd m) = live_count fd1 m + if fd = fd1 then 1 else 0 := by
  obtain ⟨it, hit, her⟩ := grown_first_erased m
  unfold table_put live_count
  rw [countP_set_of_not (grown m) (first_erased m) it _ hit (by simp [live_with_fd, her])]
  have := live_count_grown fd1 m
  unfold live_count at this
  rw [this]
  simp [live_with_fd]

theorem map_get_item_from_neg_one (fd : Int) (m : List fd_map_item) (k : Nat) :
    map_get_item_from fd m k = -1 ↔ live_count fd m = 0 := by
  induction m generalizing k with
  | nil => simp [map_get_item_from, live_count]
  | cons x xs ih =>
    unfold map_get_item_from
    by_cases h : live_with_fd fd x = true
    · have h1 : (!x.erased && x.fd == fd) = true := h
      simp only [h1, if_true]
      constructor
      · intro hk; omega
      · intro hc; simp [live_count, List.countP_cons, h] at hc
    · have h1 : (!x.erased && x.fd == fd) = false := by
        simpa [live_with_fd] using h
      simp only [h1, Bool.false_eq_true, if_false, ih (k + 1)]
      simp [live_count, List.countP_cons, h]

theorem map_get_item_neg_one (fd : Int) (st : PortState) :
    map_get_item fd st = -1 ↔ live_count fd st.fd_map = 0 :=
  map_get_item_from_neg_one fd st.fd_map 0

theorem first_with_fd_spec (fd : Int) (m : List fd_map_item) (k i : Nat)
    (h : first_with_fd fd m k = some i) : k ≤ i ∧ i - k < m.length := by
  induction m generalizing k with
  | nil => simp [first_with_fd] at h
  | cons x xs ih =>
    unfold first_with_fd at h
    split at h
    · simp only [Option.some.injEq] at h
      subst h
      simp
    · have := ih (k + 1) h
      simp only [List.length_cons]
      omega

theorem live_count_after_op (op : TableOp) (fd : Int) (st : PortState)
    (hfresh : ∀ f, op = TableOp.put f → map_get_item f st = -1)
    (h : live_count fd st.fd_map ≤ 1) : live_count fd (op.run st).2.fd_map ≤ 1 := by
  have hdel : ∀ index : Int, live_count fd (map_delete_item index st).2.fd_map ≤ 1 := by
    intro index
    by_cases hr : (st.fd_map.length : Int) ≤ index ∨ index < 0
    · rw [map_delete_item_fatal hr]; exact h
    · have h0 : 0 ≤ index := by omega
      obtain ⟨i, rfl⟩ := Int.eq_ofNat_of_zero_le h0
      have hi : i < st.fd_map.length := by omega
      have hget : st.fd_map[i]? = some st.fd_map[i] := List.getElem?_eq_getElem hi
      rw [map_delete_item_run hget]
      have := @countP_set_le (live_with_fd fd) st.fd_map i erased_item
        (by simp [live_with_fd, erased_item])
      simp only [live_count] at h ⊢
      omega
  cases op with
  | put f =>
    have hf := (map_get_item_neg_one f st).mp (hfresh f rfl)
    simp only [TableOp.run, map_put_item_run, live_count_table_put]
    split
    · rename_i hff
      subst hff
      omega
    · omega
  | remove index => exact hdel index
  | remove_by_fd f =>
    simp only [TableOp.run]
    unfold map_delete_item_fd
    by_cases hf : f = -1
    · simpa [hf] using h
    · simp only [bne_iff_ne, ne_eq, hf, not_false_eq_true, if_true, bind_run, getState_run]
      cases hw : first_with_fd f st.fd_map 0 with
      | none => simpa using h
      | some i => simpa using hdel i

theorem live_count_run_ops (ops : List TableOp) (fd : Int) (st : PortState)
    (hfresh : fresh_puts ops st = true) (h : live_count fd st.fd_map ≤ 1) :
    live_count fd (run_ops ops st).fd_map ≤ 1 := by
  induction ops generalizing st with
  | nil => simpa [run_ops] using h
  | cons op ops ih =>
    simp only [run_ops]
    cases op with
    | put f =>
      simp only [fresh_puts, Bool.and_eq_true, decide_eq_true_eq] at hfresh
      exact ih _ hfresh.2
        (live_count_after_op (TableOp.put f) fd st
          (by intro g hg; cases hg; exact hfresh.1) h)
    | remove index =>
      simp only [fresh_puts] at hfresh
      exact ih _ hfresh (live_count_after_op _ fd st (by intro g hg; cases hg) h)
    | remove_by_fd f =>
      simp only [fresh_puts] at hfresh
      exact ih _ hfresh (live_count_after_op _ fd st (by intro g hg; cases hg) h)

/-- C1 (as stated, refuted): two `put` calls with the same fd on the empty table leave two
live slots keyed by that fd. -/
theorem C1_counterexample :
    live_count 5 (run_ops [TableOp.put 5, TableOp.put 5] initial_state).fd_map = 2 := by
  decide

/-- C1 (amended): starting from an empty connection table, after every sequence of
`map_put_item`, `map_delete_item` and `map_delete_item_fd` calls in which each
`map_put_item(fd)` is called with an fd that has no live slot at that moment, every fd is
the key of at most one live slot. -/
theorem C1_at_most_one_live_slot (ops : List TableOp) (fd : Int) (st : PortState)
    (hempty : st.fd_map = []) (hfresh : fresh_puts ops st = true) :
    live_count fd (run_ops ops st).fd_map ≤ 1 :=
  live_count_run_ops ops fd st hfresh (by simp [hempty, live_count])

theorem C1_at_most_one_live_slot_witness :
    fresh_puts [TableOp.put 5, TableOp.put 6, TableOp.remove 0, TableOp.put 5,
        TableOp.remove_by_fd 6, TableOp.remove 99] initial_state = true
      ∧ live_count 5 (run_ops [TableOp.put 5, TableOp.put 6, TableOp.remove 0,
          TableOp.put 5, TableOp.remove_by_fd 6, TableOp.remove 99] initial_state).fd_map
        ≤ 1 :=
  ⟨by decide, C1_at_most_one_live_slot _ 5 initial_state rfl (by decide)⟩

/-! ## One call of the readable handler -/

@[simp] theorem item_natCast (i : Nat) (st : PortState) :
    item (i : Int) st = match st.fd_map[i]? with
      | some it => (Outcome.ok it, st)
      | none => (Outcome.fatal Fatal.undefined_behaviour, st) := by
  simp [item]

@[simp] theorem modify_item_natCast (i : Nat) (f : fd_map_item → fd_map_item)
    (st : PortState) :
    modify_item (i : Int) f st = match st.fd_map[i]? with
      | some it => (Outcome.ok (), { st with fd_map := st.fd_map.set i (f it) })
      | none => (Outcome.fatal Fatal.undefined_behaviour, st) := by
  simp [modify_item]

theorem map_get_item_from_set (fd : Int) (m : List fd_map_item) (k i : Nat)
    (it x : fd_map_item) (h : m[i]? = some it) (hfd : x.fd = it.fd)
    (her : x.erased = it.erased) :
    map_get_item_from fd (m.set i x) k = map_get_item_from fd m k := by
  induction m generalizing k i with
  | nil => simp
  | cons a as ih =>
    cases i with
    | zero =>
      simp only [List.getElem?_cons_zero, Option.some.injEq] at h
      subst h
      simp [map_get_item_from, hfd, her]
    | succ n =>
      simp only [List.getElem?_cons_succ] at h
      simp [map_get_item_from, ih (k + 1) n h]

theorem map_get_item_from_found (fd : Int) (m : List fd_map_item) (k : Nat) (i : Int)
    (h : map_get_item_from fd m k = i) (hi : i ≠ -1) :
    ∃ j it, i = ((k + j : Nat) : Int) ∧ m[j]? = some it ∧ it.erased = false ∧ it.fd = fd := by
  induction m generalizing k with
  | nil => simp [map_get_item_from] at h; omega
  | cons x xs ih =>
    unfold map_get_item_from at h
    split at h
    · rename_i hx
      simp only [Bool.and_eq_true, Bool.not_eq_true', beq_iff_eq] at hx
      exact ⟨0, x, by simp [← h], by simp, hx.1, hx.2⟩
    · obtain ⟨j, it, h1, h2, h3⟩ := ih (k + 1) h
      exact ⟨j + 1, it, by rw [h1]; congr 1; omega, by simpa using h2, h3⟩

theorem map_get_item_found (fd : Int) (st : PortState) (i : Nat)
    (h : map_get_item fd st = (i : Int)) :
    ∃ it, st.fd_map[i]? = some it ∧ it.erased = false ∧ it.fd = fd := by
  obtain ⟨j, it, h1, h2, h3⟩ := map_get_item_from_found fd st.fd_map 0 i h (by omega)
  have : i = j := by omega
  subst this
  exact ⟨it, h2, h3⟩

theorem accept_loop_noop (env : Env) (my_fd : Int) (l : List fd_map_server_item) (k : Nat)
    (st : PortState) (h : (l.all fun s => !(!s.erased && s.fd == my_fd)) = true) :
    accept_loop env my_fd l k st = (Outcome.ok (), st) := by
  induction l generalizing k with
  | nil => rfl
  | cons s rest ih =>
    simp only [List.all_cons, Bool.and_eq_true, Bool.not_eq_true'] at h
    unfold accept_loop
    simp only [h.1, Bool.false_eq_true, if_false, bind_run, pure_run]
    exact ih (k + 1) (by simpa using h.2)

theorem accept_new_client_noop (env : Env) (my_fd : Int) (st : PortState)
    (h : not_listening my_fd st = true) :
    accept_new_client env my_fd st = (Outcome.ok (), st) := by
  unfold accept_new_client
  unfold not_listening at h
  cases hs : st.simple_mode
  · simp only [hs, Bool.not_false, if_true] at h
    simp [hs, accept_loop_noop env my_fd _ 0 st h]
  · simp only [hs, Bool.not_true, Bool.false_eq_true, if_false, Bool.not_eq_true'] at h
    have h1 : ¬ (st.server_mode = true ∧ st.fd = my_fd) := by
      intro hc
      simp [hc.1, hc.2] at h
    simp [hs, h1]


theorem map_get_item_set (fd : Int) (st st1 : PortState) (i : Nat) (it x : fd_map_item)
    (h : st.fd_map[i]? = some it) (hm : st1.fd_map = st.fd_map.set i x)
    (hfd : x.fd = it.fd) (her : x.erased = it.erased) :
    map_get_item fd st1 = map_get_item fd st := by
  unfold map_get_item
  rw [hm, map_get_item_from_set fd st.fd_map 0 i it x h hfd her]

theorem set_eq_self {m : List fd_map_item} {i : Nat} {it : fd_map_item}
    (h : m[i]? = some it) : m.set i it = m := by
  apply List.ext_getElem?
  intro j
  by_cases hj : i = j
  · subst hj
    rw [List.getElem?_set_self (List.getElem?_eq_some_iff.mp h).1, h]
  · rw [List.getElem?_set_ne hj]

theorem prepare_iov_run {st : PortState} {i : Nat} {it : fd_map_item}
    (hit : st.fd_map[i]? = some it) :
    prepare_iov (i : Int) st
      = (Outcome.ok { iov_index := i, iov_offset := offered_offset it,
                      iov_len := offered_len it },
          { st with fd_map := st.fd_map.set i (slot_prepared it)
                    trace := st.trace
                      ++ if !it.processing_message then [Effect.Malloc BUFLEN] else [] }) := by
  have hi : i < st.fd_map.length := (List.getElem?_eq_some_iff.mp hit).1
  unfold prepare_iov
  cases hpm : it.processing_message
  · simp [hit, hpm, Malloc, List.getElem?_set_self hi, slot_prepared, offered_offset,
      offered_len]
  · simp [hit, hpm, slot_prepared, offered_offset, offered_len, set_eq_self hit]

theorem getmsg_eof {env : Env} {fd : Int} {st : PortState} {i : Nat} {it : fd_map_item}
    (msg : msghdr) (hidx : map_get_item fd st = (i : Int)) (hit : st.fd_map[i]? = some it)
    (hv : env.recvmsg.value ≤ 0) :
    getmsg env fd msg st
      = (Outcome.ok return_value_t.EOF_OR_ERROR,
          { st with fd_map := st.fd_map.set i
                      { it with nr := if !it.processing_message then 0 else it.nr }
                    trace := st.trace ++ [Effect.recvmsg fd msg.iov_offset msg.iov_len] }) := by
  have hi : i < st.fd_map.length := (List.getElem?_eq_some_iff.mp hit).1
  have hv1 : ¬ 0 < env.recvmsg.value := by omega
  unfold getmsg
  rcases it with ⟨fd0, er, pm, ein, buf, bl, nr, sin, sl⟩
  cases pm
  · simp [hidx, hit, recvmsg, hv, hv1]
  · simp [hidx, hit, recvmsg, hv, hv1, set_eq_self hit]

theorem getmsg_pos {env : Env} {fd : Int} {st : PortState} {i : Nat} {it : fd_map_item}
    (off len : Int) (hidx : map_get_item fd st = (i : Int))
    (hit : st.fd_map[i]? = some it) (hv : 0 < env.recvmsg.value) :
    getmsg env fd { iov_index := i, iov_offset := off, iov_len := len } st
      = if env.recvmsg.MSG_EOR then
          (Outcome.ok return_value_t.WHOLE_MESSAGE_RECEIVED,
            { st with fd_map := st.fd_map.set i (slot_received it off env.recvmsg)
                      trace := st.trace ++ [Effect.recvmsg fd off len] })
        else
          (Outcome.ok return_value_t.PARTIAL_RECEIVE,
            { st with fd_map := st.fd_map.set i (recv_grow (slot_received it off env.recvmsg))
                      trace := st.trace ++ [Effect.recvmsg fd off len]
                        ++ calls_grow (slot_received it off env.recvmsg) }) := by
  have hi : i < st.fd_map.length := (List.getElem?_eq_some_iff.mp hit).1
  have hv1 : ¬ env.recvmsg.value ≤ 0 := by omega
  unfold getmsg
  rcases it with ⟨fd0, er, pm, ein, buf, bl, nr, sin, sl⟩
  cases pm <;> cases heor : env.recvmsg.MSG_EOR
  · by_cases hfull : bl = env.recvmsg.value
    · simp [hidx, hit, recvmsg, hv, hv1, heor, List.getElem?_set_self hi, Realloc,
        slot_received, recv_grow, calls_grow, hfull]
    · simp [hidx, hit, recvmsg, hv, hv1, heor, List.getElem?_set_self hi, Realloc,
        slot_received, recv_grow, calls_grow, hfull]
  · simp [hidx, hit, recvmsg, hv, hv1, heor, List.getElem?_set_self hi, slot_received]
  · by_cases hfull : bl = nr + env.recvmsg.value
    · simp [hidx, hit, recvmsg, hv, hv1, heor, List.getElem?_set_self hi, Realloc,
        slot_received, recv_grow, calls_grow, hfull]
    · simp [hidx, hit, recvmsg, hv, hv1, heor, List.getElem?_set_self hi, Realloc,
        slot_received, recv_grow, calls_grow, hfull]
  · simp [hidx, hit, recvmsg, hv, hv1, heor, List.getElem?_set_self hi, slot_received]

theorem slot_prepared_fd (it : fd_map_item) : (slot_prepared it).fd = it.fd := by
  unfold slot_prepared; split <;> rfl

theorem slot_prepared_erased (it : fd_map_item) :
    (slot_prepared it).erased = it.erased := by
  unfold slot_prepared; split <;> rfl

theorem slot_prepared_processing (it : fd_map_item) :
    (slot_prepared it).processing_message = it.processing_message := by
  unfold slot_prepared; split <;> rfl

theorem call_getmsg_run (env : Env) (st : PortState) (i : Nat) (it : fd_map_item)
    (hidx : map_get_item it.fd st = (i : Int)) (hit : st.fd_map[i]? = some it) :
    ∃ st1 : PortState,
      st1 = { st with receiving_fd := it.fd
                      fd_map := st.fd_map.set i (slot_prepared it)
                      trace := st.trace
                        ++ if !it.processing_message then [Effect.Malloc BUFLEN] else [] }
      ∧ map_get_item it.fd st1 = (i : Int)
      ∧ st1.fd_map[i]? = some (slot_prepared it)
      ∧ call_getmsg env i st
        = getmsg env it.fd { iov_index := i, iov_offset := offered_offset it,
                             iov_len := offered_len it } st1 := by
  have hi : i < st.fd_map.length := (List.getElem?_eq_some_iff.mp hit).1
  refine ⟨_, rfl, ?_, ?_, ?_⟩
  · rw [map_get_item_set it.fd st _ i it (slot_prepared it) hit rfl (slot_prepared_fd it)
      (slot_prepared_erased it), hidx]
  · simp [List.getElem?_set_self hi]
  · unfold call_getmsg
    simp only [bind_run, getState_run, item_natCast, hit, modifyState_run]
    rw [@prepare_iov_run { st with receiving_fd := it.fd } i it hit]

/-- The state in which `receive_data` calls `getmsg`. -/
theorem receive_data_to_getmsg (env : Env) (st : PortState) (i : Nat) (it : fd_map_item)
    (hidx : map_get_item it.fd st = (i : Int)) (hit : st.fd_map[i]? = some it) :
    ∃ st1 : PortState,
      st1 = { st with receiving_fd := it.fd
                      fd_map := st.fd_map.set i (slot_prepared it)
                      trace := st.trace
                        ++ if !it.processing_message then [Effect.Malloc BUFLEN] else [] }
      ∧ map_get_item it.fd st1 = (i : Int)
      ∧ st1.fd_map[i]? = some (slot_prepared it)
      ∧ receive_data env it.fd st
        = match getmsg env it.fd { iov_index := i, iov_offset := offered_offset it,
                                   iov_len := offered_len it } st1 with
          | (Outcome.ok return_value_t.WHOLE_MESSAGE_RECEIVED, st2) =>
            case_WHOLE_MESSAGE_RECEIVED env i st2
          | (Outcome.ok return_value_t.PARTIAL_RECEIVE, st2) =>
            modify_item i (fun it => { it with processing_message := true }) st2
          | (Outcome.ok return_value_t.EOF_OR_ERROR, st2) => case_EOF_OR_ERROR env i st2
          | (Outcome.fatal e, st2) => (Outcome.fatal e, st2) := by
  have hne : ((i : Int) != -1) = true := by simp
  obtain ⟨st1, h1, h2, h3, h4⟩ := call_getmsg_run env st i it hidx hit
  refine ⟨st1, h1, h2, h3, ?_⟩
  unfold receive_data
  simp only [bind_run, getState_run, hidx, hne, if_true, h4]
  split <;> rename_i h5 <;> split <;> simp_all

theorem receive_data_part (env : Env) (st : PortState) (i : Nat) (it : fd_map_item)
    (hidx : map_get_item it.fd st = (i : Int)) (hit : st.fd_map[i]? = some it)
    (hpos : 0 < env.recvmsg.value) (heor : env.recvmsg.MSG_EOR = false) :
    receive_data env it.fd st
      = (Outcome.ok (),
          { st with receiving_fd := it.fd
                    fd_map := st.fd_map.set i (slot_after_part it env.recvmsg)
                    trace := st.trace ++ calls_part it env.recvmsg }) := by
  have hi : i < st.fd_map.length := (List.getElem?_eq_some_iff.mp hit).1
  obtain ⟨st1, hst1, hidx1, hit1, hrun⟩ := receive_data_to_getmsg env st i it hidx hit
  rw [hrun, getmsg_pos _ _ hidx1 hit1 hpos]
  subst hst1
  simp [heor, List.getElem?_set_self hi, slot_after_part, recv_store, calls_part, calls_recv]

theorem receive_data_whole (env : Env) (st : PortState) (i : Nat) (it : fd_map_item)
    (hidx : map_get_item it.fd st = (i : Int)) (hit : st.fd_map[i]? = some it)
    (hpos : 0 < env.recvmsg.value) (heor : env.recvmsg.MSG_EOR = true)
    (hdata : env.recvmsg.MSG_NOTIFICATION = false) :
    receive_data env it.fd st
      = (Outcome.ok (),
          { st with receiving_fd := it.fd
                    fd_map := st.fd_map.set i (slot_after_whole it env.recvmsg)
                    trace := st.trace ++ calls_whole env it }) := by
  have hi : i < st.fd_map.length := (List.getElem?_eq_some_iff.mp hit).1
  obtain ⟨st1, hst1, hidx1, hit1, hrun⟩ := receive_data_to_getmsg env st i it hidx hit
  rw [hrun, getmsg_pos _ _ hidx1 hit1 hpos]
  subst hst1
  simp only [heor, if_true]
  unfold case_WHOLE_MESSAGE_RECEIVED
  cases hb : (recv_store it env.recvmsg).buf.isSome
  all_goals
    rw [recv_store] at hb
    simp [hdata, List.getElem?_set_self hi, slot_after_whole, recv_store, calls_whole,
      calls_recv, Free, incoming_message, data_event, hb]

theorem map_delete_item_natCast (i : Nat) (st : PortState) :
    map_delete_item (i : Int) st = match st.fd_map[i]? with
      | some it => (Outcome.ok (), { st with fd_map := st.fd_map.set i erased_item,
                                             trace := st.trace ++ delete_calls it.fd it.buf })
      | none => (Outcome.fatal Fatal.index_out_of_range, st) := by
  cases h : st.fd_map[i]? with
  | some it => exact map_delete_item_run h
  | none =>
    have : st.fd_map.length ≤ i := List.getElem?_eq_none_iff.mp h
    exact map_delete_item_fatal (Or.inl (by omega))

theorem SAC_STATE_ofInt_COMM_LOST :
    SAC_STATE.ofInt SCTP_COMM_LOST = some SAC_STATE.SCTP_COMM_LOST := by decide

theorem receive_data_eof (env : Env) (st : PortState) (i : Nat) (it : fd_map_item)
    (hidx : map_get_item it.fd st = (i : Int)) (hit : st.fd_map[i]? = some it)
    (hv : env.recvmsg.value ≤ 0) :
    receive_data env it.fd st
      = if st.reconnect then
          forced_reconnect env st.reconnect_max_attempts (state_before_reconnect st i it)
        else (Outcome.ok (), state_before_reconnect st i it) := by
  have hi : i < st.fd_map.length := (List.getElem?_eq_some_iff.mp hit).1
  obtain ⟨st1, hst1, hidx1, hit1, hrun⟩ := receive_data_to_getmsg env st i it hidx hit
  rw [hrun, getmsg_eof _ hidx1 hit1 hv]
  subst hst1
  simp only []
  unfold case_EOF_OR_ERROR
  cases hs : st.server_mode <;> cases he : st.events.sctp_association_event <;>
    cases hr : st.reconnect <;>
    simp [hs, he, hr, map_delete_item_natCast, List.getElem?_set_self hi,
      SAC_STATE_ofInt_COMM_LOST, incoming_message, state_before_reconnect, calls_recv,
      slot_prepared_fd]

/-! ## Sequences of receives on one connection -/

theorem Handle_Fd_Event_Readable_eq (env : Env) (f : Int) (st : PortState)
    (hnl : not_listening f st = true) :
    Handle_Fd_Event_Readable env f st = receive_data env f st := by
  unfold Handle_Fd_Event_Readable
  simp [accept_new_client_noop env f st hnl]

theorem recv_grow_fd (it : fd_map_item) : (recv_grow it).fd = it.fd := by
  unfold recv_grow; split <;> rfl

theorem recv_grow_erased (it : fd_map_item) : (recv_grow it).erased = it.erased := by
  unfold recv_grow; split <;> rfl

theorem recv_grow_nr (it : fd_map_item) : (recv_grow it).nr = it.nr := by
  unfold recv_grow; split <;> rfl

theorem slot_after_part_fd (it : fd_map_item) (r : recvmsg_result) :
    (slot_after_part it r).fd = it.fd := by
  show (recv_grow (recv_store it r)).fd = it.fd
  rw [recv_grow_fd]
  exact slot_prepared_fd it

theorem slot_after_part_erased (it : fd_map_item) (r : recvmsg_result) :
    (slot_after_part it r).erased = it.erased := by
  show (recv_grow (recv_store it r)).erased = it.erased
  rw [recv_grow_erased]
  exact slot_prepared_erased it

theorem readable_calls_parts (f : Int) (i : Nat) (es : List Env) (st : PortState)
    (it : fd_map_item) (hidx : map_get_item f st = (i : Int))
    (hit : st.fd_map[i]? = some it) (hnl : not_listening f st = true)
    (hes : all_part es = true) :
    readable_calls f es st
      = (Outcome.ok (),
          { st with receiving_fd := if es.isEmpty then st.receiving_fd else f
                    fd_map := st.fd_map.set i (slot_after_parts it es)
                    trace := st.trace ++ calls_parts it es }) := by
  induction es generalizing st it with
  | nil => simp [readable_calls, slot_after_parts, calls_parts, set_eq_self hit]
  | cons e es ih =>
    obtain ⟨it1, hit1, her, hfd⟩ := map_get_item_found f st i hidx
    rw [hit] at hit1
    cases hit1
    subst hfd
    have hi : i < st.fd_map.length := (List.getElem?_eq_some_iff.mp hit).1
    simp only [all_part, List.all_cons, Bool.and_eq_true, decide_eq_true_eq,
      Bool.not_eq_true'] at hes
    obtain ⟨⟨hpos, heor⟩, hrest⟩ := hes
    unfold readable_calls
    simp only [bind_run, Handle_Fd_Event_Readable_eq e it.fd st hnl,
      receive_data_part e st i it hidx hit hpos heor]
    rw [ih _ (slot_after_part it e.recvmsg)]
    · simp [slot_after_parts, calls_parts]
    · rw [map_get_item_set it.fd st _ i it (slot_after_part it e.recvmsg) hit rfl
        (slot_after_part_fd it _) (slot_after_part_erased it _), hidx]
    · simp [List.getElem?_set_self hi]
    · exact hnl
    · exact hrest

theorem call_getmsg_pos (env : Env) (st : PortState) (i : Nat) (it : fd_map_item)
    (hidx : map_get_item it.fd st = (i : Int)) (hit : st.fd_map[i]? = some it)
    (hpos : 0 < env.recvmsg.value) :
    call_getmsg env i st
      = (Outcome.ok (if env.recvmsg.MSG_EOR then return_value_t.WHOLE_MESSAGE_RECEIVED
                     else return_value_t.PARTIAL_RECEIVE),
          { st with receiving_fd := it.fd
                    fd_map := st.fd_map.set i (slot_after_getmsg it env.recvmsg)
                    trace := st.trace ++ calls_recv it
                      ++ if env.recvmsg.MSG_EOR then []
                         else calls_grow (recv_store it env.recvmsg) }) := by
  have hi : i < st.fd_map.length := (List.getElem?_eq_some_iff.mp hit).1
  obtain ⟨st1, hst1, hidx1, hit1, hrun⟩ := call_getmsg_run env st i it hidx hit
  rw [hrun, getmsg_pos _ _ hidx1 hit1 hpos]
  subst hst1
  cases heor : env.recvmsg.MSG_EOR <;>
    simp [slot_after_getmsg, heor, recv_store, calls_recv]

theorem recv_store_nr (it : fd_map_item) (r : recvmsg_result) :
    (recv_store it r).nr = base_nr it + r.value := by
  simp only [recv_store, slot_received, base_nr, slot_prepared_processing]
  cases h : it.processing_message
  · simp
  · simp [slot_prepared, h]

theorem recv_store_buflen (it : fd_map_item) (r : recvmsg_result) :
    (recv_store it r).buflen = if it.processing_message then it.buflen else BUFLEN := by
  simp only [recv_store, slot_received]
  cases h : it.processing_message <;> simp [slot_prepared, h]

theorem slot_after_getmsg_nr (it : fd_map_item) (r : recvmsg_result) :
    (slot_after_getmsg it r).nr = base_nr it + r.value := by
  unfold slot_after_getmsg
  split
  · exact recv_store_nr it r
  · rw [recv_grow_nr]; exact recv_store_nr it r

theorem base_nr_slot_after_part (it : fd_map_item) (r : recvmsg_result) :
    base_nr (slot_after_part it r) = base_nr it + r.value := by
  show (recv_grow (recv_store it r)).nr = _
  rw [recv_grow_nr, recv_store_nr]

theorem base_nr_slot_after_parts (it : fd_map_item) (es : List Env) :
    base_nr (slot_after_parts it es)
      = base_nr it + (es.map fun e => e.recvmsg.value).sum := by
  induction es generalizing it with
  | nil => simp [slot_after_parts]
  | cons e es ih =>
    simp only [slot_after_parts, ih, base_nr_slot_after_part, List.map_cons, List.sum_cons]
    omega

theorem slot_after_parts_fd (it : fd_map_item) (es : List Env) :
    (slot_after_parts it es).fd = it.fd := by
  induction es generalizing it with
  | nil => rfl
  | cons e es ih => simp only [slot_after_parts, ih, slot_after_part_fd]

theorem slot_after_parts_erased (it : fd_map_item) (es : List Env) :
    (slot_after_parts it es).erased = it.erased := by
  induction es generalizing it with
  | nil => rfl
  | cons e es ih => simp only [slot_after_parts, ih, slot_after_part_erased]

/-- The readable handler run on a sequence of receives classified as `PARTIAL_RECEIVE`,
followed by the next call up to the return of `getmsg`, for a positive count. -/
theorem parts_then_getmsg (f : Int) (i : Nat) (es : List Env) (e : Env) (st : PortState)
    (it : fd_map_item) (hidx : map_get_item f st = (i : Int))
    (hit : st.fd_map[i]? = some it) (hnl : not_listening f st = true)
    (hes : all_part es = true) (hpos : 0 < e.recvmsg.value) :
    (readable_calls f es >>= fun _ => call_getmsg e i) st
      = (Outcome.ok (if e.recvmsg.MSG_EOR then return_value_t.WHOLE_MESSAGE_RECEIVED
                     else return_value_t.PARTIAL_RECEIVE),
          { st with receiving_fd := f
                    fd_map := st.fd_map.set i
                      (slot_after_getmsg (slot_after_parts it es) e.recvmsg)
                    trace := st.trace ++ calls_parts it es
                      ++ calls_recv (slot_after_parts it es)
                      ++ if e.recvmsg.MSG_EOR then []
                         else calls_grow (recv_store (slot_after_parts it es) e.recvmsg) }) := by
  obtain ⟨it1, hit1, her, hfd⟩ := map_get_item_found f st i hidx
  rw [hit] at hit1
  cases hit1
  subst hfd
  have hi : i < st.fd_map.length := (List.getElem?_eq_some_iff.mp hit).1
  simp only [bind_run, readable_calls_parts it.fd i es st it hidx hit hnl hes]
  have hfd2 := slot_after_parts_fd it es
  rw [call_getmsg_pos e _ i (slot_after_parts it es)
    (by rw [hfd2, map_get_item_set it.fd st _ i it (slot_after_parts it es) hit rfl hfd2
          (slot_after_parts_erased it es), hidx])
    (by simp [List.getElem?_set_self hi]) hpos]
  simp [hfd2]

/-- C2: for a connection in the empty state (no message in progress), after `k - 1`
calls of the readable handler whose receives return positive counts without the
end-of-record flag and a `k`-th call up to the return of `getmsg` whose receive returns a
positive count, the run has not failed and the accumulated-byte count `nr` of the
connection's slot is the sum of the `k` counts (whatever length was offered). -/
theorem C2_accumulated_bytes_sum (f : Int) (i : Nat) (es : List Env) (e : Env)
    (st : PortState) (it : fd_map_item) (hidx : map_get_item f st = (i : Int))
    (hit : st.fd_map[i]? = some it) (hnl : not_listening f st = true)
    (hempty : it.processing_message = false)
    (hes : all_part es = true) (hpos : 0 < e.recvmsg.value) :
    ∃ v st1 it1, (readable_calls f es >>= fun _ => call_getmsg e i) st = (Outcome.ok v, st1)
      ∧ st1.fd_map[i]? = some it1
      ∧ it1.nr = ((es ++ [e]).map fun x => x.recvmsg.value).sum := by
  have hi : i < st.fd_map.length := (List.getElem?_eq_some_iff.mp hit).1
  refine ⟨_, _, slot_after_getmsg (slot_after_parts it es) e.recvmsg,
    parts_then_getmsg f i es e st it hidx hit hnl hes hpos, ?_, ?_⟩
  · simp [List.getElem?_set_self hi]
  · rw [slot_after_getmsg_nr, base_nr_slot_after_parts]
    simp [base_nr, hempty]

theorem C2_accumulated_bytes_sum_witness :
    ∃ v st1 it1,
      (readable_calls 5 [example_env (fragment [1, 2, 3] false) fun _ => true,
          example_env (fragment [4, 5] false) fun _ => true]
        >>= fun _ => call_getmsg (example_env (fragment [6, 7, 8, 9] true) fun _ => true) 0)
        example_state = (Outcome.ok v, st1)
      ∧ st1.fd_map[0]? = some it1
      ∧ it1.nr = (([example_env (fragment [1, 2, 3] false) fun _ => true,
          example_env (fragment [4, 5] false) fun _ => true]
          ++ [example_env (fragment [6, 7, 8, 9] true) fun _ => true]).map
            fun x => x.recvmsg.value).sum :=
  C2_accumulated_bytes_sum 5 0 _ _ example_state
    { erased_item with fd := 5, erased := false } (by decide) (by decide) (by decide)
    (by decide) (by decide) (by decide)

/-! ## Capacity of the receive buffer -/

theorem recv_store_capacity (it : fd_map_item) (r : recvmsg_result)
    (h : between_receives it) (hoff : r.value ≤ offered_len it) :
    capacity_ok (recv_store it r) := by
  unfold capacity_ok
  rw [recv_store_nr, recv_store_buflen]
  unfold offered_len at hoff
  unfold base_nr
  cases hpm : it.processing_message
  · simp only [hpm, Bool.not_false, if_true, Bool.false_eq_true, if_false] at hoff ⊢
    exact ⟨⟨0, by simp [BUFLEN]⟩, by omega⟩
  · simp only [hpm, Bool.not_true, Bool.false_eq_true, if_false, if_true] at hoff ⊢
    exact ⟨(h hpm).1, by omega⟩

theorem recv_grow_capacity (it : fd_map_item) (h : capacity_ok it) :
    (∃ j : Nat, (recv_grow it).buflen = 1024 * 2 ^ j)
      ∧ (recv_grow it).nr < (recv_grow it).buflen := by
  obtain ⟨⟨j, hj⟩, hle⟩ := h
  have hp : (0 : Int) < 2 ^ j := by positivity
  unfold recv_grow
  split
  · rename_i hfull
    simp only [beq_iff_eq] at hfull
    refine ⟨⟨j + 1, ?_⟩, ?_⟩
    · simp only [hj, pow_succ]; ring
    · simp only []; omega
  · rename_i hfull
    simp only [beq_iff_eq] at hfull
    exact ⟨⟨j, hj⟩, by omega⟩

theorem slot_after_part_between (it : fd_map_item) (r : recvmsg_result)
    (h : between_receives it) (hoff : r.value ≤ offered_len it) :
    between_receives (slot_after_part it r) := by
  intro _
  exact recv_grow_capacity _ (recv_store_capacity it r h hoff)

theorem slot_after_parts_between (it : fd_map_item) (es : List Env)
    (h : between_receives it) (hoff : within_offered it es = true) :
    between_receives (slot_after_parts it es) := by
  induction es generalizing it with
  | nil => exact h
  | cons e es ih =>
    simp only [within_offered, Bool.and_eq_true, decide_eq_true_eq] at hoff
    exact ih _ (slot_after_part_between it _ h hoff.1) hoff.2

theorem within_offered_append (it : fd_map_item) (es : List Env) (e : Env) :
    within_offered it (es ++ [e]) = true ↔
      within_offered it es = true
        ∧ e.recvmsg.value ≤ offered_len (slot_after_parts it es) := by
  induction es generalizing it with
  | nil => simp [within_offered, slot_after_parts]
  | cons x xs ih =>
    rw [List.cons_append]
    simp only [within_offered, Bool.and_eq_true, decide_eq_true_eq, slot_after_parts]
    rw [ih]
    tauto

theorem slot_after_getmsg_capacity (it : fd_map_item) (r : recvmsg_result)
    (h : between_receives it) (hoff : r.value ≤ offered_len it) :
    capacity_ok (slot_after_getmsg it r) := by
  unfold slot_after_getmsg
  split
  · exact recv_store_capacity it r h hoff
  · have := recv_grow_capacity _ (recv_store_capacity it r h hoff)
    exact ⟨this.1, by omega⟩

theorem all_part_append (es : List Env) (e : Env) :
    all_part (es ++ [e]) = true ↔
      all_part es = true ∧ 0 < e.recvmsg.value ∧ e.recvmsg.MSG_EOR = false := by
  simp [all_part]

theorem slot_after_parts_append (it : fd_map_item) (es : List Env) (e : Env) :
    slot_after_parts it (es ++ [e]) = slot_after_part (slot_after_parts it es) e.recvmsg := by
  induction es generalizing it with
  | nil => rfl
  | cons x xs ih => exact ih _

/-- C3: for a connection in the empty state, during a run of receives that each return a
positive count no larger than the length offered (all but the last without the
end-of-record flag), the slot's capacity `buflen` is `1024 * 2^j` for some `j` and its
accumulated-byte count `nr` is at most `buflen`, both when `getmsg` returns in the last
call and, when that receive is classified as `PARTIAL_RECEIVE` too, when the handler
returns from it. -/
theorem C3_capacity_power_of_two (f : Int) (i : Nat) (es : List Env) (e : Env)
    (st : PortState) (it : fd_map_item) (hidx : map_get_item f st = (i : Int))
    (hit : st.fd_map[i]? = some it) (hnl : not_listening f st = true)
    (hempty : it.processing_message = false)
    (hes : all_part es = true) (hpos : 0 < e.recvmsg.value)
    (hoff : within_offered it (es ++ [e]) = true) :
    (∃ v st1 it1,
        (readable_calls f es >>= fun _ => call_getmsg e i) st = (Outcome.ok v, st1)
        ∧ st1.fd_map[i]? = some it1
        ∧ (∃ j : Nat, it1.buflen = 1024 * 2 ^ j) ∧ it1.nr ≤ it1.buflen)
    ∧ (e.recvmsg.MSG_EOR = false →
        ∃ st2 it2, readable_calls f (es ++ [e]) st = (Outcome.ok (), st2)
          ∧ st2.fd_map[i]? = some it2
          ∧ (∃ j : Nat, it2.buflen = 1024 * 2 ^ j) ∧ it2.nr ≤ it2.buflen) := by
  have hi : i < st.fd_map.length := (List.getElem?_eq_some_iff.mp hit).1
  have hb0 : between_receives it := by
    intro h; rw [hempty] at h; cases h
  obtain ⟨hoff1, hoff2⟩ := (within_offered_append it es e).mp hoff
  have hb := slot_after_parts_between it es hb0 hoff1
  constructor
  · refine ⟨_, _, slot_after_getmsg (slot_after_parts it es) e.recvmsg,
      parts_then_getmsg f i es e st it hidx hit hnl hes hpos, ?_, ?_⟩
    · simp [List.getElem?_set_self hi]
    · exact slot_after_getmsg_capacity _ _ hb hoff2
  · intro heor
    have hall : all_part (es ++ [e]) = true := (all_part_append es e).mpr ⟨hes, hpos, heor⟩
    refine ⟨_, slot_after_parts it (es ++ [e]),
      readable_calls_parts f i (es ++ [e]) st it hidx hit hnl hall, ?_, ?_⟩
    · simp [List.getElem?_set_self hi]
    · have := slot_after_parts_between it (es ++ [e]) hb0 hoff
      have hpm : (slot_after_parts it (es ++ [e])).processing_message = true := by
        rw [slot_after_parts_append]; rfl
      exact ⟨(this hpm).1, by have := (this hpm).2; omega⟩

set_option maxRecDepth 100000 in
theorem C3_capacity_power_of_two_witness :
    (∃ v st1 it1,
        (readable_calls 5 [example_env (fragment (List.replicate 1024 7) false) fun _ => true]
          >>= fun _ => call_getmsg
            (example_env (fragment (List.replicate 1024 8) false) fun _ => true) 0)
          example_state = (Outcome.ok v, st1)
        ∧ st1.fd_map[0]? = some it1
        ∧ (∃ j : Nat, it1.buflen = 1024 * 2 ^ j) ∧ it1.nr ≤ it1.buflen)
    ∧ ((example_env (fragment (List.replicate 1024 8) false) fun _ => true).recvmsg.MSG_EOR
          = false →
        ∃ st2 it2, readable_calls 5
            ([example_env (fragment (List.replicate 1024 7) false) fun _ => true]
              ++ [example_env (fragment (List.replicate 1024 8) false) fun _ => true])
            example_state = (Outcome.ok (), st2)
          ∧ st2.fd_map[0]? = some it2
          ∧ (∃ j : Nat, it2.buflen = 1024 * 2 ^ j) ∧ it2.nr ≤ it2.buflen) :=
  C3_capacity_power_of_two 5 0 _ _ example_state
    { erased_item with fd := 5, erased := false } (by decide) (by decide) (by decide)
    (by decide) (by decide) (by decide) (by decide)

/-! ## Contents of the receive buffer -/

theorem store_length (bs data : List Nat) (off : Nat)
    (h : off + data.length ≤ bs.length) : (store bs off data).length = bs.length := by
  simp only [store, List.length_append, List.length_take, List.length_drop]
  omega

theorem store_take (bs data acc : List Nat) (hacc : bs.take acc.length = acc)
    (h : acc.length + data.length ≤ bs.length) :
    (store bs acc.length data).take (acc ++ data).length = acc ++ data := by
  have h1 : (bs.take acc.length ++ data).length = (acc ++ data).length := by
    simp only [List.length_append, List.length_take]
    omega
  rw [store, List.take_left' h1, hacc]

theorem recv_store_holds (it : fd_map_item) (r : recvmsg_result) (acc : List Nat)
    (hacc : if it.processing_message then holds_bytes it acc else acc = [])
    (hlen : r.value = (r.data.length : Int)) (hoff : r.value ≤ offered_len it) :
    holds_bytes (recv_store it r) (acc ++ r.data) := by
  unfold holds_bytes
  rw [recv_store_nr, recv_store_buflen]
  unfold offered_len at hoff
  cases hpm : it.processing_message
  · simp only [hpm, Bool.false_eq_true, if_false] at hacc
    subst hacc
    simp only [hpm, Bool.not_false, if_true] at hoff
    have hB : BUFLEN = 1024 := rfl
    have hBn : BUFLEN.toNat = 1024 := rfl
    have hfit : 0 + r.data.length ≤ (List.replicate BUFLEN.toNat 0).length := by
      rw [List.length_replicate]
      omega
    refine ⟨store (List.replicate BUFLEN.toNat 0) 0 r.data, ?_, ?_, ?_, ?_⟩
    · simp [recv_store, slot_received, slot_prepared, hpm, offered_offset]
    · rw [store_length _ _ _ hfit, List.length_replicate]
      simp only [Bool.false_eq_true, if_false]
      omega
    · simp [base_nr, hpm, hlen]
    · exact store_take _ r.data [] rfl hfit
  · simp only [hpm, if_true] at hacc
    obtain ⟨bs, h1, h2, h3, h4⟩ := hacc
    simp only [hpm, Bool.not_true, Bool.false_eq_true, if_false] at hoff
    have hfit : acc.length + r.data.length ≤ bs.length := by omega
    refine ⟨store bs acc.length r.data, ?_, ?_, ?_, ?_⟩
    · simp [recv_store, slot_received, slot_prepared, hpm, offered_offset, h1, h3]
    · rw [store_length _ _ _ hfit]
      simpa using h2
    · simp only [base_nr, hpm, if_true, h3, hlen, List.length_append]
      omega
    · exact store_take bs r.data acc h4 hfit

theorem recv_grow_holds (it : fd_map_item) (acc : List Nat) (h : holds_bytes it acc)
    (hle : it.nr ≤ it.buflen) : holds_bytes (recv_grow it) acc := by
  obtain ⟨bs, h1, h2, h3, h4⟩ := h
  unfold recv_grow
  split
  · have hn : (it.buflen * 2).toNat = bs.length + bs.length := by omega
    refine ⟨bs ++ List.replicate bs.length 0, ?_, ?_, h3, ?_⟩
    · simp only [h1, Option.getD_some, hn]
      rw [List.take_of_length_le (by omega)]
      simp
    · simp only [List.length_append, List.length_replicate]
      omega
    · rw [List.take_append_of_le_length (by omega)]
      exact h4
  · exact ⟨bs, h1, h2, h3, h4⟩

theorem slot_after_part_holds (it : fd_map_item) (r : recvmsg_result) (acc : List Nat)
    (hb : between_receives it)
    (hacc : if it.processing_message then holds_bytes it acc else acc = [])
    (hlen : r.value = (r.data.length : Int)) (hoff : r.value ≤ offered_len it) :
    holds_bytes (slot_after_part it r) (acc ++ r.data) := by
  have h1 := recv_store_holds it r acc hacc hlen hoff
  have h2 := recv_grow_holds _ _ h1 (recv_store_capacity it r hb hoff).2
  obtain ⟨bs, h3, h4, h5, h6⟩ := h2
  exact ⟨bs, h3, h4, h5, h6⟩

theorem slot_after_parts_holds (it : fd_map_item) (es : List Env) (acc : List Nat)
    (hb : between_receives it)
    (hacc : if it.processing_message then holds_bytes it acc else acc = [])
    (hlen : ∀ e ∈ es, e.recvmsg.value = (e.recvmsg.data.length : Int))
    (hoff : within_offered it es = true) :
    if (slot_after_parts it es).processing_message
    then holds_bytes (slot_after_parts it es) (acc ++ payload es)
    else acc ++ payload es = [] := by
  induction es generalizing it acc with
  | nil => simpa [slot_after_parts, payload] using hacc
  | cons e es ih =>
    simp only [within_offered, Bool.and_eq_true, decide_eq_true_eq] at hoff
    have hstep := slot_after_part_holds it e.recvmsg acc hb hacc
      (hlen e (List.mem_cons_self _ _)) hoff.1
    have := ih (slot_after_part it e.recvmsg) (acc ++ e.recvmsg.data)
      (slot_after_part_between it _ hb hoff.1)
      (by
        have hpm : (slot_after_part it e.recvmsg).processing_message = true := rfl
        rw [hpm]; exact hstep)
      (fun x hx => hlen x (List.mem_cons_of_mem _ hx)) hoff.2
    simpa [slot_after_parts, payload, List.append_assoc] using this

theorem readable_calls_append (f : Int) (es es1 : List Env) (st : PortState) :
    readable_calls f (es ++ es1) st
      = (readable_calls f es >>= fun _ => readable_calls f es1) st := by
  induction es generalizing st with
  | nil => simp [readable_calls]
  | cons e es ih =>
    simp only [List.cons_append, readable_calls, bind_run]
    cases h : Handle_Fd_Event_Readable e f st with
    | mk o st1 =>
      cases o with
      | ok a => simpa using ih st1
      | fatal x => rfl

theorem data_events_calls_recv (it : fd_map_item) : data_events (calls_recv it) = [] := by
  unfold calls_recv data_events
  split <;> simp

theorem data_events_calls_grow (it : fd_map_item) : data_events (calls_grow it) = [] := by
  unfold calls_grow data_events
  split <;> simp

theorem data_events_append (a b : List Effect) :
    data_events (a ++ b) = data_events a ++ data_events b := by
  simp [data_events]

theorem data_events_calls_parts (it : fd_map_item) (es : List Env) :
    data_events (calls_parts it es) = [] := by
  induction es generalizing it with
  | nil => rfl
  | cons e es ih =>
    simp [calls_parts, calls_part, data_events_append, data_events_calls_recv,
      data_events_calls_grow, ih]

theorem data_events_calls_whole (env : Env) (it : fd_map_item) :
    data_events (calls_whole env it) = [data_event env it] := by
  unfold calls_whole
  rw [data_events_append, data_events_append, data_events_calls_recv]
  split <;> simp [data_events, data_event]

/-- The readable handler run on a sequence of receives classified as `PARTIAL_RECEIVE`,
and then on a receive that completes a data message. -/
theorem parts_then_whole (f : Int) (i : Nat) (es : List Env) (e : Env) (st : PortState)
    (it : fd_map_item) (hidx : map_get_item f st = (i : Int))
    (hit : st.fd_map[i]? = some it) (hnl : not_listening f st = true)
    (hes : all_part es = true) (hpos : 0 < e.recvmsg.value)
    (heor : e.recvmsg.MSG_EOR = true) (hdata : e.recvmsg.MSG_NOTIFICATION = false) :
    readable_calls f (es ++ [e]) st
      = (Outcome.ok (),
          { st with receiving_fd := f
                    fd_map := st.fd_map.set i
                      (slot_after_whole (slot_after_parts it es) e.recvmsg)
                    trace := st.trace ++ calls_parts it es
                      ++ calls_whole e (slot_after_parts it es) }) := by
  obtain ⟨it1, hit1, her, hfd⟩ := map_get_item_found f st i hidx
  rw [hit] at hit1
  cases hit1
  subst hfd
  have hi : i < st.fd_map.length := (List.getElem?_eq_some_iff.mp hit).1
  have hfd2 := slot_after_parts_fd it es
  rw [readable_calls_append]
  simp only [bind_run, readable_calls_parts it.fd i es st it hidx hit hnl hes,
    readable_calls, pure_run]
  rw [Handle_Fd_Event_Readable_eq e it.fd
      { st with receiving_fd := if es.isEmpty then st.receiving_fd else it.fd
                fd_map := st.fd_map.set i (slot_after_parts it es)
                trace := st.trace ++ calls_parts it es } hnl, ← hfd2,
    receive_data_whole e _ i (slot_after_parts it es)
      (by rw [hfd2, map_get_item_set it.fd st _ i it (slot_after_parts it es) hit rfl hfd2
            (slot_after_parts_erased it es), hidx])
      (by simp [List.getElem?_set_self hi]) hpos heor hdata]
  simp [hfd2]

/-- C9: for a connection in the empty state, when a data message arrives as fragments
`b1..bk` over `k ≥ 1` calls of the readable handler (each receive returns its fragment,
a positive number of bytes no larger than the length offered; the end-of-record flag is
set on the last receive only, which is not flagged as a notification), the calls emit
exactly one data event, and it carries the connection's fd, the stream and payload
protocol id of the last receive and as payload `b1 ++ ... ++ bk`; for fragments of 1024,
1024 and 452 bytes the payload has 2500 bytes. -/
theorem C9_data_event_payload (f : Int) (i : Nat) (es : List Env) (e : Env)
    (st : PortState) (it : fd_map_item) (hidx : map_get_item f st = (i : Int))
    (hit : st.fd_map[i]? = some it) (hnl : not_listening f st = true)
    (hempty : it.processing_message = false)
    (hes : all_part es = true) (hpos : 0 < e.recvmsg.value)
    (heor : e.recvmsg.MSG_EOR = true) (hdata : e.recvmsg.MSG_NOTIFICATION = false)
    (hfrag : returns_fragments (es ++ [e]) = true)
    (hoff : within_offered it (es ++ [e]) = true) :
    (∃ st1, readable_calls f (es ++ [e]) st = (Outcome.ok (), st1)
      ∧ data_events (st1.trace.drop st.trace.length)
        = [Message.ASP_SCTP (some f) e.recvmsg.sinfo_stream
            (received_sinfo_ppid e.little_endian e.recvmsg.sinfo_ppid)
            (payload (es ++ [e]))])
    ∧ (es.map (fun x => x.recvmsg.data.length) = [1024, 1024] →
        e.recvmsg.data.length = 452 → (payload (es ++ [e])).length = 2500) := by
  have hlen : ∀ x ∈ es ++ [e], x.recvmsg.value = (x.recvmsg.data.length : Int) := by
    intro x hx
    unfold returns_fragments at hfrag
    rw [List.all_eq_true] at hfrag
    simpa using hfrag x hx
  constructor
  · obtain ⟨it1, hit1, her, hfd⟩ := map_get_item_found f st i hidx
    rw [hit] at hit1
    cases hit1
    refine ⟨_, parts_then_whole f i es e st it hidx hit hnl hes hpos heor hdata, ?_⟩
    have hb0 : between_receives it := by
      intro h; rw [hempty] at h; cases h
    obtain ⟨hoff1, hoff2⟩ := (within_offered_append it es e).mp hoff
    have hacc := slot_after_parts_holds it es [] hb0 (by simp [hempty])
      (fun x hx => hlen x (List.mem_append_left _ hx)) hoff1
    have hst := recv_store_holds (slot_after_parts it es) e.recvmsg ([] ++ payload es)
      hacc (hlen e (by simp)) hoff2
    obtain ⟨bs, h1, h2, h3, h4⟩ := hst
    have hp : payload (es ++ [e]) = [] ++ payload es ++ e.recvmsg.data := by
      simp [payload]
    simp only [List.append_assoc, List.drop_left, data_events_append,
      data_events_calls_parts, data_events_calls_whole, List.nil_append, data_event,
      slot_after_parts_fd, hfd, h1, h3, Option.getD_some, Int.toNat_ofNat, hp]
    simp only [List.nil_append] at h4
    rw [h4]
  · intro h1 h2
    have : (payload es).length = 2048 := by
      have : (payload es).length = (es.map fun x => x.recvmsg.data.length).sum := by
        simp [payload, List.length_flatten, Function.comp_def]
      rw [this, h1]
      rfl
    simp [payload] at this ⊢
    omega

/-! ## The 2500-byte scenario -/

theorem recv_grow_buflen (it : fd_map_item) :
    (recv_grow it).buflen = if it.buflen = it.nr then it.buflen * 2 else it.buflen := by
  unfold recv_grow
  by_cases h : it.buflen = it.nr <;> simp [h]

theorem slot_after_part_buflen (it : fd_map_item) (r : recvmsg_result) :
    (slot_after_part it r).buflen
      = if (if it.processing_message then it.buflen else BUFLEN) = base_nr it + r.value
        then (if it.processing_message then it.buflen else BUFLEN) * 2
        else (if it.processing_message then it.buflen else BUFLEN) := by
  show (recv_grow (recv_store it r)).buflen = _
  rw [recv_grow_buflen, recv_store_nr, recv_store_buflen]

theorem slot_after_part_nr (it : fd_map_item) (r : recvmsg_result) :
    (slot_after_part it r).nr = base_nr it + r.value :=
  base_nr_slot_after_part it r

set_option maxRecDepth 100000 in
theorem C9_data_event_payload_witness :
    (∃ st1, readable_calls 5 (scenario_parts ++ [scenario_last]) example_state
        = (Outcome.ok (), st1)
      ∧ data_events (st1.trace.drop example_state.trace.length)
        = [Message.ASP_SCTP (some 5) scenario_last.recvmsg.sinfo_stream
            (received_sinfo_ppid scenario_last.little_endian
              scenario_last.recvmsg.sinfo_ppid)
            (payload (scenario_parts ++ [scenario_last]))])
    ∧ (scenario_parts.map (fun x => x.recvmsg.data.length) = [1024, 1024] →
        scenario_last.recvmsg.data.length = 452 →
        (payload (scenario_parts ++ [scenario_last])).length = 2500) :=
  C9_data_event_payload 5 0 scenario_parts scenario_last example_state
    { erased_item with fd := 5, erased := false } (by decide) (by decide) (by decide)
    (by decide) (by decide) (by decide) (by decide) (by decide) (by decide) (by decide)


/-- The capacity and fill of the slot along three receives of 1024, 1024 and 452 bytes,
the first two classified as `PARTIAL_RECEIVE`. -/
theorem scenario_slot (it : fd_map_item) (r1 r2 r3 : recvmsg_result)
    (hempty : it.processing_message = false)
    (h1 : r1.value = 1024) (h2 : r2.value = 1024) (h3 : r3.value = 452) :
    ((slot_after_part it r1).buflen = 2048 ∧ (slot_after_part it r1).nr = 1024)
    ∧ ((slot_after_part (slot_after_part it r1) r2).buflen = 4096
        ∧ (slot_after_part (slot_after_part it r1) r2).nr = 2048)
    ∧ ((slot_after_whole (slot_after_part (slot_after_part it r1) r2) r3).buflen = 4096
        ∧ (slot_after_whole (slot_after_part (slot_after_part it r1) r2) r3).nr = 2500) := by
  have hB : BUFLEN = 1024 := rfl
  have hpm1 : (slot_after_part it r1).processing_message = true := rfl
  have hpm2 : (slot_after_part (slot_after_part it r1) r2).processing_message = true := rfl
  have a1 : (slot_after_part it r1).nr = 1024 := by
    rw [slot_after_part_nr, base_nr, hempty, h1]; rfl
  have b1 : (slot_after_part it r1).buflen = 2048 := by
    rw [slot_after_part_buflen, base_nr, hempty, h1, hB]; rfl
  have a2 : (slot_after_part (slot_after_part it r1) r2).nr = 2048 := by
    rw [slot_after_part_nr, base_nr, hpm1, a1, h2]; rfl
  have b2 : (slot_after_part (slot_after_part it r1) r2).buflen = 4096 := by
    rw [slot_after_part_buflen, base_nr, hpm1, a1, b1, h2]; rfl
  refine ⟨⟨b1, a1⟩, ⟨b2, a2⟩, ?_, ?_⟩
  · show (recv_store _ r3).buflen = 4096
    rw [recv_store_buflen, hpm2, b2]; rfl
  · show (recv_store _ r3).nr = 2500
    rw [recv_store_nr, base_nr, hpm2, a2, h3]; rfl

set_option maxRecDepth 100000 in
/-- C10 (as stated, refuted): in the scenario the capacity after the second 1024-byte
fragment is 4096, not 2048. -/
theorem C10_counterexample :
    ∃ st2 it2, readable_calls 5 scenario_parts example_state = (Outcome.ok (), st2)
      ∧ st2.fd_map[0]? = some it2 ∧ it2.buflen = 4096 ∧ it2.buflen ≠ 2048 := by
  have h := scenario_slot { erased_item with fd := 5, erased := false }
    (fragment (List.replicate 1024 1) false) (fragment (List.replicate 1024 2) false)
    (fragment (List.replicate 452 3) true) rfl rfl rfl rfl
  refine ⟨_, _, readable_calls_parts 5 0 scenario_parts example_state
    { erased_item with fd := 5, erased := false } (by decide) (by decide) (by decide)
    (by decide), ?_, h.2.1.1, ?_⟩
  · exact List.getElem?_set_self (by decide)
  · have := h.2.1.1
    show (slot_after_part (slot_after_part _ _) _).buflen ≠ 2048
    omega

/-- C10 (amended): in the scenario of a 2500-byte message received as fragments of 1024,
1024 and 452 bytes (end-of-record on the third, a data message), the first call
allocates 1024 bytes, offers 1024 bytes at offset 0 and grows the buffer to 2048; the
second call offers 1024 bytes at offset 1024 and, the buffer being exactly full again,
grows it to 4096; the third call offers 2048 bytes at offset 2048, does not resize, and
the capacity stays 4096. -/
theorem C10_capacity_in_scenario (f : Int) (i : Nat) (e1 e2 e3 : Env) (st : PortState)
    (it : fd_map_item) (hidx : map_get_item f st = (i : Int))
    (hit : st.fd_map[i]? = some it) (hnl : not_listening f st = true)
    (hempty : it.processing_message = false)
    (h1 : e1.recvmsg.value = 1024) (h2 : e2.recvmsg.value = 1024)
    (h3 : e3.recvmsg.value = 452)
    (heor1 : e1.recvmsg.MSG_EOR = false) (heor2 : e2.recvmsg.MSG_EOR = false)
    (heor3 : e3.recvmsg.MSG_EOR = true) (hdata : e3.recvmsg.MSG_NOTIFICATION = false) :
    ∃ st1 st2 st3 it1 it2 it3 rest,
      readable_calls f [e1] st = (Outcome.ok (), st1)
      ∧ st1.trace = st.trace
          ++ [Effect.Malloc 1024, Effect.recvmsg f 0 1024, Effect.Realloc 2048]
      ∧ st1.fd_map[i]? = some it1 ∧ it1.buflen = 2048
      ∧ readable_calls f [e1, e2] st = (Outcome.ok (), st2)
      ∧ st2.trace = st1.trace ++ [Effect.recvmsg f 1024 1024, Effect.Realloc 4096]
      ∧ st2.fd_map[i]? = some it2 ∧ it2.buflen = 4096
      ∧ readable_calls f ([e1, e2] ++ [e3]) st = (Outcome.ok (), st3)
      ∧ st3.trace = st2.trace ++ Effect.recvmsg f 2048 2048 :: rest
      ∧ (∀ n, Effect.Realloc n ∉ rest)
      ∧ st3.fd_map[i]? = some it3 ∧ it3.buflen = 4096 := by
  obtain ⟨it0, hit0, her, hfd⟩ := map_get_item_found f st i hidx
  rw [hit] at hit0
  cases hit0
  have hi : i < st.fd_map.length := (List.getElem?_eq_some_iff.mp hit).1
  have hB : BUFLEN = 1024 := rfl
  obtain ⟨⟨b1, a1⟩, ⟨b2, a2⟩, b3, -⟩ :=
    scenario_slot it e1.recvmsg e2.recvmsg e3.recvmsg hempty h1 h2 h3
  have hpm1 : (slot_after_part it e1.recvmsg).processing_message = true := rfl
  have hpm2 : (slot_after_part (slot_after_part it e1.recvmsg) e2.recvmsg).processing_message
      = true := rfl
  have hfd1 := slot_after_part_fd it e1.recvmsg
  have hfd2 := slot_after_part_fd (slot_after_part it e1.recvmsg) e2.recvmsg
  have c1 : calls_part it e1.recvmsg
      = [Effect.Malloc 1024, Effect.recvmsg f 0 1024, Effect.Realloc 2048] := by
    simp only [calls_part, calls_recv, calls_grow, recv_store_buflen, recv_store_nr, base_nr,
      offered_offset, offered_len, hempty, h1, hB, hfd]
    rfl
  have c2 : calls_part (slot_after_part it e1.recvmsg) e2.recvmsg
      = [Effect.recvmsg f 1024 1024, Effect.Realloc 4096] := by
    simp only [calls_part, calls_recv, calls_grow, recv_store_buflen, recv_store_nr, base_nr,
      offered_offset, offered_len, hpm1, a1, b1, h2, hfd1, hfd]
    rfl
  have c3 : calls_recv (slot_after_part (slot_after_part it e1.recvmsg) e2.recvmsg)
      = [Effect.recvmsg f 2048 2048] := by
    simp only [calls_recv, offered_offset, offered_len, hpm2, a2, b2, hfd2, hfd1, hfd]
    rfl
  refine ⟨_, _, _, _, _, _,
    [Effect.incoming_message
        (data_event e3 (slot_after_part (slot_after_part it e1.recvmsg) e2.recvmsg))]
      ++ (if (recv_store (slot_after_part (slot_after_part it e1.recvmsg) e2.recvmsg)
            e3.recvmsg).buf.isSome then [Effect.Free] else []),
    readable_calls_parts f i [e1] st it hidx hit hnl (by simp [all_part, h1, heor1]), ?_,
    List.getElem?_set_self hi, b1,
    readable_calls_parts f i [e1, e2] st it hidx hit hnl
      (by simp [all_part, h1, h2, heor1, heor2]), ?_,
    List.getElem?_set_self hi, b2,
    parts_then_whole f i [e1, e2] e3 st it hidx hit hnl
      (by simp [all_part, h1, h2, heor1, heor2]) (by omega) heor3 hdata, ?_, ?_,
    List.getElem?_set_self hi, b3⟩
  · simp [calls_parts, c1]
  · simp [calls_parts, c1, c2]
  · have hs : slot_after_parts it [e1, e2]
        = slot_after_part (slot_after_part it e1.recvmsg) e2.recvmsg := rfl
    simp only [calls_parts, calls_whole, c1, c2, hs, c3, List.append_nil, List.append_assoc,
      List.singleton_append]
    rfl
  · intro n hn
    split at hn <;> simp at hn

set_option maxRecDepth 100000 in
theorem C10_capacity_in_scenario_witness :
    ∃ st1 st2 st3 it1 it2 it3 rest,
      readable_calls 5 [scenario_first] example_state = (Outcome.ok (), st1)
      ∧ st1.trace = example_state.trace
          ++ [Effect.Malloc 1024, Effect.recvmsg 5 0 1024, Effect.Realloc 2048]
      ∧ st1.fd_map[0]? = some it1 ∧ it1.buflen = 2048
      ∧ readable_calls 5 [scenario_first, scenario_second] example_state
          = (Outcome.ok (), st2)
      ∧ st2.trace = st1.trace ++ [Effect.recvmsg 5 1024 1024, Effect.Realloc 4096]
      ∧ st2.fd_map[0]? = some it2 ∧ it2.buflen = 4096
      ∧ readable_calls 5 ([scenario_first, scenario_second]
            ++ [scenario_last]) example_state = (Outcome.ok (), st3)
      ∧ st3.trace = st2.trace ++ Effect.recvmsg 5 2048 2048 :: rest
      ∧ (∀ n, Effect.Realloc n ∉ rest)
      ∧ st3.fd_map[0]? = some it3 ∧ it3.buflen = 4096 :=
  C10_capacity_in_scenario 5 0 _ _ _ example_state
    { erased_item with fd := 5, erased := false } (by decide) (by decide) (by decide)
    (by decide) (by decide) (by decide) (by decide) (by decide) (by decide) (by decide)
    (by decide)

/-! ## Payload protocol identifier round trip -/

theorem bswap32_nested (y : Nat) :
    bswap32 y = y % 256 * 16777216 + y / 256 % 256 * 65536 + y / 256 / 256 % 256 * 256
      + y / 256 / 256 / 256 % 256 := by
  unfold bswap32
  simp [Nat.div_div_eq_div_mul]

theorem bswap32_bytes (a b c d : Nat) (ha : a < 256) (hb : b < 256) (hc : c < 256)
    (hd : d < 256) :
    bswap32 (a + 256 * b + 65536 * c + 16777216 * d)
      = d + 256 * c + 65536 * b + 16777216 * a := by
  rw [bswap32_nested]
  have q1 : (a + 256 * b + 65536 * c + 16777216 * d) / 256 = b + 256 * c + 65536 * d := by
    omega
  have q2 : (b + 256 * c + 65536 * d) / 256 = c + 256 * d := by omega
  have q3 : (c + 256 * d) / 256 = d := by omega
  rw [q1, q2, q3]
  have r0 : (a + 256 * b + 65536 * c + 16777216 * d) % 256 = a := by omega
  have r1 : (b + 256 * c + 65536 * d) % 256 = b := by omega
  have r2 : (c + 256 * d) % 256 = c := by omega
  have r3 : d % 256 = d := by omega
  rw [r0, r1, r2, r3]
  omega

theorem bytes_of_uint32 (x : Nat) (h : x < 2 ^ 32) :
    ∃ a b c d, a < 256 ∧ b < 256 ∧ c < 256 ∧ d < 256
      ∧ x = a + 256 * b + 65536 * c + 16777216 * d := by
  have h' : x < 4294967296 := h
  refine ⟨x % 256, x / 256 % 256, x / 256 / 256 % 256, x / 256 / 256 / 256, ?_, ?_, ?_, ?_, ?_⟩
  all_goals omega

theorem bswap32_bswap32 (x : Nat) (h : x < 2 ^ 32) : bswap32 (bswap32 x) = x := by
  obtain ⟨a, b, c, d, ha, hb, hc, hd, rfl⟩ := bytes_of_uint32 x h
  rw [bswap32_bytes a b c d ha hb hc hd, bswap32_bytes d c b a hd hc hb ha]

theorem digitChar_toNat (d : Nat) (h : d < 10) : (Nat.digitChar d).toNat - 48 = d := by
  interval_cases d <;> rfl

theorem foldl_toDigitsCore (fuel n : Nat) (ds : List Char) (h : n < fuel) :
    (Nat.toDigitsCore 10 fuel n ds).foldl (fun a c => a * 10 + (c.toNat - 48)) 0
      = ds.foldl (fun a c => a * 10 + (c.toNat - 48)) n := by
  induction fuel generalizing n ds with
  | zero => omega
  | succ fuel ih =>
    simp only [Nat.toDigitsCore]
    have hd := digitChar_toNat (n % 10) (Nat.mod_lt _ (by decide))
    split
    · rename_i h0
      simp only [List.foldl_cons, hd]
      congr 1
      omega
    · rename_i h0
      rw [ih (n / 10) _ (by omega)]
      simp only [List.foldl_cons, hd]
      congr 1
      omega

theorem INTEGER_of_str_sprintf_u (ui : Nat) : INTEGER_of_str (sprintf_u ui) = (ui : Int) := by
  unfold INTEGER_of_str sprintf_u Nat.toDigits
  rw [foldl_toDigitsCore (ui + 1) ui [] (by omega)]
  rfl

theorem received_of_bswap32 (x : Nat) (h : x < 2 ^ 32) :
    received_sinfo_ppid true (htonl true x) = (x : Int) := by
  unfold received_sinfo_ppid ntohl htonl
  simp only [if_true, bswap32_bswap32 x h]
  split
  · rfl
  · exact INTEGER_of_str_sprintf_u x

/-- C4: on a little-endian host, for every payload protocol id `p` with `0 ≤ p < 2^32`
the send path stores a word in `sinfo_ppid` (directly for `0 < p < 2^31`, through the
4-octet `int2oct` fallback otherwise) from which the receive path (`ntohl`, then the
native integer if `≤ INT_MAX`, else the decimal-string fallback) rebuilds exactly `p`. -/
theorem C4_ppid_round_trip (p : Int) (st : PortState) (h0 : 0 ≤ p) (h1 : p < 2 ^ 32) :
    ∃ w, outgoing_send_sinfo_ppid true p st = (Outcome.ok w, st)
      ∧ received_sinfo_ppid true w = p := by
  obtain ⟨n, rfl⟩ := Int.eq_ofNat_of_zero_le h0
  have hn : n < 2 ^ 32 := by exact_mod_cast h1
  refine ⟨htonl true n, ?_, received_of_bswap32 n hn⟩
  have hn' : n < 4294967296 := hn
  unfold outgoing_send_sinfo_ppid
  by_cases hnat : (is_native (n : Int) && decide ((n : Int) > 0)) = true
  · have h2 : is_native (n : Int) = true ∧ 0 < n := by simpa using hnat
    have : ((n : Int) % 4294967296).toNat = n := by omega
    simp [h2, this]
  · have hlt : ¬ (256 ^ 4 ≤ n) := by
      have : (256 : Nat) ^ 4 = 4294967296 := by norm_num
      omega
    have hos : int2oct (n : Int) 4
        = some [n / 256 ^ 3 % 256, n / 256 ^ 2 % 256, n / 256 ^ 1 % 256, n / 256 ^ 0 % 256] := by
      simp [int2oct, hn', List.range_succ]
    have hui : uint32_of_bytes true (n / 256 ^ 0 % 256) (n / 256 ^ 1 % 256)
        (n / 256 ^ 2 % 256) (n / 256 ^ 3 % 256) = n := by
      obtain ⟨a, b, c, d, ha, hb, hc, hd, rfl⟩ := bytes_of_uint32 n hn
      have q1 : (a + 256 * b + 65536 * c + 16777216 * d) / 256 ^ 1
          = b + 256 * c + 65536 * d := by omega
      have q2 : (a + 256 * b + 65536 * c + 16777216 * d) / 256 ^ 2
          = c + 256 * d := by
        have : (256 : Nat) ^ 2 = 65536 := by norm_num
        omega
      have q3 : (a + 256 * b + 65536 * c + 16777216 * d) / 256 ^ 3 = d := by
        have : (256 : Nat) ^ 3 = 16777216 := by norm_num
        omega
      rw [q1, q2, q3]
      unfold uint32_of_bytes
      norm_num
      omega
    simp only [hnat, Bool.false_eq_true, if_false, hos, bind_run, pure_run, hui]

theorem C4_ppid_round_trip_witness :
    ∃ w, outgoing_send_sinfo_ppid true 4000000000 initial_state
        = (Outcome.ok w, initial_state)
      ∧ received_sinfo_ppid true w = 4000000000 :=
  C4_ppid_round_trip 4000000000 initial_state (by decide) (by decide)

/-! ## Reconnect -/

theorem fill_addr_struct_run (env : Env) (name : String) (port : Int) (saLen0 : Nat)
    (st : PortState) :
    (fill_addr_struct env name port saLen0 st).2
        = { st with trace := st.trace ++ resolve_calls env name }
      ∧ (resolves env name = true →
          ∃ v, (fill_addr_struct env name port saLen0 st).1 = Outcome.ok v)
      ∧ (resolves env name = false →
          (fill_addr_struct env name port saLen0 st).1
            = Outcome.fatal Fatal.cant_resolve_host) := by
  unfold fill_addr_struct resolves resolve_calls
  cases h4 : env.inet_pton AF_INET name with
  | some a => simp
  | none =>
    cases h6 : env.inet_pton AF_INET6 name with
    | some a => simp
    | none =>
      cases hg : env.getaddrinfo name with
      | none => simp
      | some res =>
        by_cases hf4 : res.ss_family = AF_INET
        · simp [hf4]
        · have hne : AF_INET6 ≠ AF_INET := by decide
          by_cases hf6 : res.ss_family = AF_INET6
          · simp [hf6, hne]
          · simp [hf4, hf6]

theorem create_socket_run (env : Env) (k : Nat) (addr_family : Int) (st : PortState) :
    create_socket env k addr_family st
      = if env.socket k = -1 then
          (Outcome.fatal Fatal.socket_error,
            { st with trace := st.trace
                ++ [Effect.usleep 200000, Effect.socket addr_family] })
        else
          (Outcome.ok (env.socket k),
            { st with trace := st.trace
                ++ [Effect.usleep 200000, Effect.socket addr_family,
                    Effect.setsockopt (env.socket k) Sockopt.SCTP_INITMSG,
                    Effect.setsockopt (env.socket k) Sockopt.SCTP_EVENTS] }) := by
  unfold create_socket
  by_cases h : env.socket k = -1 <;> simp [h]

theorem setNonBlocking_run (env : Env) (fd : Int) (st : PortState) :
    setNonBlocking env fd st
      = (if env.fcntl fd = -1 then Outcome.fatal Fatal.fcntl_error else Outcome.ok (),
          { st with trace := st.trace ++ [Effect.fcntl_GETFL fd, Effect.fcntl_SETFL fd] }) := by
  unfold setNonBlocking
  by_cases h : env.fcntl fd = -1 <;> simp [h]

theorem loop_fail_step (env : Env) (sock_type : Int) (sa : sockaddr_storage) (saLen : Nat)
    (attempts : Int) (fuel k s : Nat) (st : PortState) (hk : (k : Int) < attempts)
    (hf : attempt_fails env k = true) :
    forced_reconnect_loop env sock_type sa saLen attempts (fuel + 1) k s st
      = forced_reconnect_loop env sock_type sa saLen attempts fuel ((k + 1 : Nat) : Int)
          (next_interval k s)
          { st with fd := -1
                    trace := st.trace
                      ++ failed_attempt_calls env sock_type sa saLen k (next_interval k s) } := by
  simp only [attempt_fails, Bool.and_eq_true, bne_iff_ne, ne_eq, beq_iff_eq] at hf
  have hi : ((k : Int) % 2 == 0 && (k : Int) != 0) = (k % 2 == 0 && k != 0) := by
    have h1 : ((k : Int) % 2 == 0) = (k % 2 == 0) := by
      rw [Bool.eq_iff_iff]; simp only [beq_iff_eq]; omega
    have h2 : ((k : Int) != 0) = (k != 0) := by
      rw [Bool.eq_iff_iff]; simp only [bne_iff_ne, ne_eq]; omega
    rw [h1, h2]
  rw [forced_reconnect_loop]
  simp only [hk, if_true, bind_run, Int.toNat_ofNat, create_socket_run, hf.1, if_false,
    modifyState_run, emit_run, hf.2, beq_self_eq_true, hi]
  simp [next_interval, failed_attempt_calls]

theorem loop_failures (env : Env) (sock_type : Int) (sa : sockaddr_storage) (saLen : Nat)
    (attempts : Int) (m fuel k s : Nat) (st : PortState)
    (h : ∀ j, k ≤ j → j < k + m → attempt_fails env j = true)
    (hle : ((k + m : Nat) : Int) ≤ attempts) :
    forced_reconnect_loop env sock_type sa saLen attempts (fuel + m) k s st
      = forced_reconnect_loop env sock_type sa saLen attempts fuel ((k + m : Nat) : Int)
          (interval_after m k s)
          { st with fd := if m = 0 then st.fd else -1
                    trace := st.trace ++ failure_calls env sock_type sa saLen m k s } := by
  induction m generalizing k s st with
  | zero => simp [interval_after, failure_calls]
  | succ m ih =>
    have hk : (k : Int) < attempts := by omega
    rw [show fuel + (m + 1) = (fuel + m) + 1 by omega,
      loop_fail_step env sock_type sa saLen attempts (fuel + m) k s st hk
        (h k (Nat.le_refl _) (by omega)),
      ih (k + 1) (next_interval k s) _ (fun j h1 h2 => h j (by omega) (by omega))
        (by rw [show k + 1 + m = k + (m + 1) by omega]; exact hle)]
    simp only [interval_after, failure_calls, List.append_assoc, ite_self]
    rw [show k + 1 + m = k + (m + 1) by omega]
    simp

theorem loop_success_step (env : Env) (sock_type : Int) (sa : sockaddr_storage)
    (saLen : Nat) (attempts : Int) (fuel k s : Nat) (st : PortState)
    (hk : (k : Int) < attempts) (hs : attempt_succeeds env k = true) :
    forced_reconnect_loop env sock_type sa saLen attempts (fuel + 1) k s st
      = (Outcome.ok (k : Int),
          { st with fd := env.socket k
                    fd_map := table_put (env.socket k) st.fd_map
                    trace := st.trace
                      ++ successful_attempt_calls env sock_type sa saLen k }) := by
  simp only [attempt_succeeds, Bool.and_eq_true, bne_iff_ne, ne_eq] at hs
  obtain ⟨⟨h1, h2⟩, h3⟩ := hs
  rw [forced_reconnect_loop]
  simp only [hk, if_true, bind_run, Int.toNat_ofNat, create_socket_run, h1, if_false,
    modifyState_run, emit_run, beq_iff_eq, h2, map_put_item_run, setNonBlocking_run, h3,
    pure_run]
  simp [successful_attempt_calls]

theorem events_of_append (a b : List Effect) :
    events_of (a ++ b) = events_of a ++ events_of b := by
  simp [events_of]

/-- Whatever the operating system answers, the loop of `forced_reconnect` only adds calls
to the trace, and none of them is `incoming_message`. -/
theorem loop_trace (env : Env) (sock_type : Int) (sa : sockaddr_storage) (saLen : Nat)
    (attempts : Int) (fuel k s : Nat) (st : PortState) :
    ∃ rest, (forced_reconnect_loop env sock_type sa saLen attempts fuel k s st).2.trace
        = st.trace ++ rest ∧ events_of rest = [] := by
  induction fuel generalizing k s st with
  | zero => exact ⟨[], by simp [forced_reconnect_loop], rfl⟩
  | succ fuel ih =>
    by_cases hi : (k : Int) < attempts
    · by_cases hs : env.socket k = -1
      · refine ⟨[Effect.usleep 200000, Effect.socket sock_type], ?_, rfl⟩
        rw [forced_reconnect_loop]
        simp [hi, create_socket_run, hs]
      · by_cases hc : (env.connect k).ret = -1
        · have hf : attempt_fails env k = true := by simp [attempt_fails, hs, hc]
          rw [loop_fail_step env sock_type sa saLen attempts fuel k s st hi hf]
          obtain ⟨rest, h1, h2⟩ := ih (k + 1) (next_interval k s)
            { st with fd := -1
                      trace := st.trace ++ failed_attempt_calls env sock_type sa saLen k
                        (next_interval k s) }
          refine ⟨failed_attempt_calls env sock_type sa saLen k (next_interval k s) ++ rest,
            ?_, ?_⟩
          · rw [h1]
            simp only [List.append_assoc]
          · rw [events_of_append, h2]
            rfl
        · by_cases hf : env.fcntl (env.socket k) = -1
          · refine ⟨[Effect.usleep 200000, Effect.socket sock_type,
              Effect.setsockopt (env.socket k) Sockopt.SCTP_INITMSG,
              Effect.setsockopt (env.socket k) Sockopt.SCTP_EVENTS,
              Effect.connect (env.socket k) sa saLen,
              Effect.fcntl_GETFL (env.socket k), Effect.fcntl_SETFL (env.socket k)], ?_, rfl⟩
            rw [forced_reconnect_loop]
            simp [hi, create_socket_run, hs, hc, map_put_item_run, setNonBlocking_run, hf]
          · have hok : attempt_succeeds env k = true := by
              simp [attempt_succeeds, hs, hc, hf]
            rw [loop_success_step env sock_type sa saLen attempts fuel k s st hi hok]
            exact ⟨_, rfl, rfl⟩
    · refine ⟨[], ?_, rfl⟩
      rw [forced_reconnect_loop]
      simp [hi]

theorem forced_reconnect_run (env : Env) (attempts : Int) (st : PortState)
    (hres : resolves env st.peer_IP_address = true) :
    ∃ sock_type sa saLen,
      forced_reconnect env attempts st
        = match forced_reconnect_loop env sock_type sa saLen attempts attempts.toNat 0 1
            { st with trace := st.trace ++ resolve_calls env st.peer_IP_address } with
          | (Outcome.ok i, st2) =>
            if i = attempts then (Outcome.fatal Fatal.reconnect_failed, st2)
            else (Outcome.ok (), st2)
          | (Outcome.fatal e, st2) => (Outcome.fatal e, st2) := by
  obtain ⟨h2, h1, -⟩ := fill_addr_struct_run env st.peer_IP_address st.peer_port 0 st
  obtain ⟨⟨sock_type, sa, saLen⟩, hv⟩ := h1 hres
  have hfill : fill_addr_struct env st.peer_IP_address st.peer_port 0 st
      = (Outcome.ok (sock_type, sa, saLen),
          { st with trace := st.trace ++ resolve_calls env st.peer_IP_address }) :=
    Prod.ext hv h2
  refine ⟨sock_type, sa, saLen, ?_⟩
  unfold forced_reconnect
  simp only [bind_run, getState_run, hfill]
  cases hl : forced_reconnect_loop env sock_type sa saLen attempts attempts.toNat 0 1
      { st with trace := st.trace ++ resolve_calls env st.peer_IP_address } with
  | mk o st2 =>
    cases o with
    | ok i => by_cases hi : i = attempts <;> simp [hi]
    | fatal e => rfl

theorem forced_reconnect_unresolved (env : Env) (attempts : Int) (st : PortState)
    (hres : resolves env st.peer_IP_address = false) :
    forced_reconnect env attempts st
      = (Outcome.fatal Fatal.cant_resolve_host,
          { st with trace := st.trace ++ resolve_calls env st.peer_IP_address }) := by
  obtain ⟨h2, -, h1⟩ := fill_addr_struct_run env st.peer_IP_address st.peer_port 0 st
  have hfill : fill_addr_struct env st.peer_IP_address st.peer_port 0 st
      = (Outcome.fatal Fatal.cant_resolve_host,
          { st with trace := st.trace ++ resolve_calls env st.peer_IP_address }) :=
    Prod.ext (h1 hres) h2
  unfold forced_reconnect
  simp only [bind_run, getState_run, hfill]

theorem loop_done (env : Env) (sock_type : Int) (sa : sockaddr_storage) (saLen : Nat)
    (attempts : Int) (i : Int) (s : Nat) (st : PortState) :
    forced_reconnect_loop env sock_type sa saLen attempts 0 i s st = (Outcome.ok i, st) := by
  rw [forced_reconnect_loop]
  rfl

/-- All `n` attempts fail. -/
theorem forced_reconnect_all_fail (env : Env) (n : Nat) (st : PortState)
    (hres : resolves env st.peer_IP_address = true)
    (hall : ∀ k, k < n → attempt_fails env k = true) :
    ∃ sock_type sa saLen,
      forced_reconnect env n st
        = (Outcome.fatal Fatal.reconnect_failed,
            { st with fd := if n = 0 then st.fd else -1
                      trace := st.trace ++ resolve_calls env st.peer_IP_address
                        ++ failure_calls env sock_type sa saLen n 0 1 }) := by
  obtain ⟨sock_type, sa, saLen, h⟩ := forced_reconnect_run env n st hres
  refine ⟨sock_type, sa, saLen, ?_⟩
  have hl := loop_failures env sock_type sa saLen n n 0 0 1
    { st with trace := st.trace ++ resolve_calls env st.peer_IP_address }
    (fun j _ h2 => hall j (by omega)) (by simp)
  simp only [Nat.zero_add, Nat.cast_zero, loop_done] at hl
  rw [h, Int.toNat_ofNat, hl]
  simp

/-- The first `j` attempts fail and attempt `j` succeeds. -/
theorem forced_reconnect_first_success (env : Env) (n j : Nat) (st : PortState)
    (hres : resolves env st.peer_IP_address = true) (hj : j < n)
    (hfail : ∀ k, k < j → attempt_fails env k = true)
    (hs : attempt_succeeds env j = true) :
    ∃ sock_type sa saLen,
      forced_reconnect env n st
        = (Outcome.ok (),
            { st with fd := env.socket j
                      fd_map := table_put (env.socket j) st.fd_map
                      trace := st.trace ++ resolve_calls env st.peer_IP_address
                        ++ failure_calls env sock_type sa saLen j 0 1
                        ++ successful_attempt_calls env sock_type sa saLen j }) := by
  obtain ⟨sock_type, sa, saLen, h⟩ := forced_reconnect_run env n st hres
  refine ⟨sock_type, sa, saLen, ?_⟩
  have hl := loop_failures env sock_type sa saLen n j (n - j) 0 1
    { st with trace := st.trace ++ resolve_calls env st.peer_IP_address }
    (fun k _ h2 => hfail k (by omega)) (by simp; omega)
  rw [show n - j + j = n by omega] at hl
  rw [show n - j = (n - j - 1) + 1 by omega, Nat.zero_add,
    loop_success_step env sock_type sa saLen n (n - j - 1) j _ _ (by exact_mod_cast hj) hs]
    at hl
  simp only [Nat.cast_zero] at hl
  rw [h, Int.toNat_ofNat, hl]
  have hne : ¬ ((j : Int) = (n : Int)) := by omega
  simp [hne]

theorem loop_stop_step (env : Env) (sock_type : Int) (sa : sockaddr_storage) (saLen : Nat)
    (attempts : Int) (fuel k s : Nat) (st : PortState) (hk : (k : Int) < attempts)
    (hnf : attempt_fails env k = false) :
    (forced_reconnect_loop env sock_type sa saLen attempts (fuel + 1) k s st).1
      = if env.socket k = -1 then Outcome.fatal Fatal.socket_error
        else if env.fcntl (env.socket k) = -1 then Outcome.fatal Fatal.fcntl_error
        else Outcome.ok (k : Int) := by
  rw [forced_reconnect_loop]
  by_cases hs : env.socket k = -1
  · simp [hk, create_socket_run, hs]
  · have hc : ¬ (env.connect k).ret = -1 := by
      intro hc
      simp [attempt_fails, hs, hc] at hnf
    by_cases hf : env.fcntl (env.socket k) = -1
    · simp [hk, create_socket_run, hs, hc, map_put_item_run, setNonBlocking_run, hf]
    · simp [hk, create_socket_run, hs, hc, map_put_item_run, setNonBlocking_run, hf]

theorem exists_first_not_failing (env : Env) (n : Nat)
    (h : ¬ ∀ k, k < n → attempt_fails env k = true) :
    ∃ j, j < n ∧ (∀ k, k < j → attempt_fails env k = true) ∧ attempt_fails env j = false := by
  induction n with
  | zero => exact absurd (fun k hk => absurd hk (Nat.not_lt_zero k)) h
  | succ n ih =>
    by_cases hn : ∀ k, k < n → attempt_fails env k = true
    · refine ⟨n, Nat.lt_succ_self n, hn, ?_⟩
      cases hf : attempt_fails env n
      · rfl
      · exfalso
        apply h
        intro k hk
        rcases Nat.lt_succ_iff_lt_or_eq.mp hk with h1 | h1
        · exact hn k h1
        · rw [h1]; exact hf
    · obtain ⟨j, hj, h1, h2⟩ := ih hn
      exact ⟨j, Nat.lt_succ_of_lt hj, h1, h2⟩

/-- The first `j` attempts fail and attempt `j` does not end in a failed `connect`: the
reconnect does not end in its own fatal error. -/
theorem forced_reconnect_not_exhausted (env : Env) (n j : Nat) (st : PortState)
    (hres : resolves env st.peer_IP_address = true) (hj : j < n)
    (hfail : ∀ k, k < j → attempt_fails env k = true)
    (hnf : attempt_fails env j = false) :
    (forced_reconnect env n st).1 ≠ Outcome.fatal Fatal.reconnect_failed := by
  obtain ⟨sock_type, sa, saLen, h⟩ := forced_reconnect_run env n st hres
  have hl := loop_failures env sock_type sa saLen n j (n - j) 0 1
    { st with trace := st.trace ++ resolve_calls env st.peer_IP_address }
    (fun k _ h2 => hfail k (by omega)) (by simp; omega)
  rw [show n - j + j = n by omega, Nat.zero_add, Nat.cast_zero] at hl
  have hstep := loop_stop_step env sock_type sa saLen n (n - j - 1) j (interval_after j 0 1)
    { st with fd := if j = 0 then st.fd else -1
              trace := st.trace ++ resolve_calls env st.peer_IP_address
                ++ failure_calls env sock_type sa saLen j 0 1 }
    (by exact_mod_cast hj) hnf
  rw [show n - j - 1 + 1 = n - j by omega] at hstep
  rw [h, Int.toNat_ofNat, hl]
  have hne : ¬ ((j : Int) = (n : Int)) := by omega
  revert hstep
  cases forced_reconnect_loop env sock_type sa saLen n (n - j) j (interval_after j 0 1)
      { st with fd := if j = 0 then st.fd else -1
                trace := st.trace ++ resolve_calls env st.peer_IP_address
                  ++ failure_calls env sock_type sa saLen j 0 1 } with
  | mk o st2 =>
    intro hstep
    simp only at hstep
    subst hstep
    by_cases hs : env.socket j = -1
    · simp [hs]
    · by_cases hf : env.fcntl (env.socket j) = -1
      · simp [hs, hf]
      · simp [hs, hf, hne]

/-! ## Backoff intervals -/

theorem next_interval_pow (k : Nat) (hk : k < 64) :
    next_interval k (2 ^ ((k - 1) / 2)) = 2 ^ (k / 2) := by
  unfold next_interval
  by_cases h : (k % 2 == 0 && k != 0) = true
  · simp only [Bool.and_eq_true, beq_iff_eq, bne_iff_ne, ne_eq] at h
    rw [if_pos (by simp [h.1, h.2])]
    have e : (k - 1) / 2 + 1 = k / 2 := by omega
    rw [← pow_succ, e]
    exact Nat.mod_eq_of_lt (Nat.pow_lt_pow_right (by decide) (by omega))
  · rw [if_neg h]
    simp only [Bool.and_eq_true, beq_iff_eq, bne_iff_ne, ne_eq, not_and, not_not] at h
    have e : (k - 1) / 2 = k / 2 := by
      by_cases h0 : k % 2 = 0
      · have := h h0
        subst this
        rfl
      · omega
    rw [e]

theorem sleeps_append (a b : List Effect) : sleeps (a ++ b) = sleeps a ++ sleeps b := by
  simp [sleeps]

theorem sleeps_failure_calls (env : Env) (sock_type : Int) (sa : sockaddr_storage)
    (saLen : Nat) (m k : Nat) (hb : k + m ≤ 64) :
    sleeps (failure_calls env sock_type sa saLen m k (2 ^ ((k - 1) / 2)))
      = (List.range' k m).map fun i => 2 ^ (i / 2) := by
  induction m generalizing k with
  | zero => rfl
  | succ m ih =>
    rw [failure_calls, sleeps_append, next_interval_pow k (by omega)]
    have := ih (k + 1) (by omega)
    simp only [Nat.add_sub_cancel] at this
    rw [this]
    simp [failed_attempt_calls, sleeps, List.range'_succ]

theorem sleeps_resolve_calls (env : Env) (name : String) :
    sleeps (resolve_calls env name) = [] := by
  unfold resolve_calls
  split <;> rfl

/-- The first `n` attempts fail: the calls they make open the reconnect's part of the
trace, and what follows holds no event. -/
theorem forced_reconnect_trace_prefix (env : Env) (attempts : Int) (n : Nat)
    (st : PortState) (hres : resolves env st.peer_IP_address = true)
    (hle : (n : Int) ≤ attempts) (hfail : ∀ k, k < n → attempt_fails env k = true) :
    ∃ sock_type sa saLen rest,
      (forced_reconnect env attempts st).2.trace
        = st.trace ++ resolve_calls env st.peer_IP_address
          ++ failure_calls env sock_type sa saLen n 0 1 ++ rest
      ∧ events_of rest = [] := by
  obtain ⟨sock_type, sa, saLen, h⟩ := forced_reconnect_run env attempts st hres
  have hl := loop_failures env sock_type sa saLen attempts n (attempts.toNat - n) 0 1
    { st with trace := st.trace ++ resolve_calls env st.peer_IP_address }
    (fun k _ h2 => hfail k (by omega)) (by simp; omega)
  rw [show attempts.toNat - n + n = attempts.toNat by omega, Nat.zero_add, Nat.cast_zero]
    at hl
  obtain ⟨rest, h1, h2⟩ := loop_trace env sock_type sa saLen attempts (attempts.toNat - n) n
    (interval_after n 0 1)
    { st with fd := if n = 0 then st.fd else -1
              trace := st.trace ++ resolve_calls env st.peer_IP_address
                ++ failure_calls env sock_type sa saLen n 0 1 }
  refine ⟨sock_type, sa, saLen, rest, ?_, h2⟩
  rw [h, hl, ← h1]
  cases forced_reconnect_loop env sock_type sa saLen attempts (attempts.toNat - n) n
      (interval_after n 0 1)
      { st with fd := if n = 0 then st.fd else -1
                trace := st.trace ++ resolve_calls env st.peer_IP_address
                  ++ failure_calls env sock_type sa saLen n 0 1 } with
  | mk o st2 =>
    cases o with
    | ok i => by_cases hi : i = attempts <;> simp [hi]
    | fatal e => rfl

/-- C5: when the peer address resolves and the first `n` attempts of
`forced_reconnect(attempts)` fail (`1 ≤ n ≤ 64`, `n ≤ attempts`), the `i`-th `sleep` of
the call (`i = 1..n`) is for exactly `2^⌊(i-1)/2⌋` seconds, the 32-bit interval never
wrapping; with `attempts = 6` and all six attempts failing the sleeps are exactly
1, 1, 2, 2, 4, 4. -/
theorem C5_backoff_intervals (env : Env) (attempts : Int) (n : Nat) (st : PortState)
    (hres : resolves env st.peer_IP_address = true)
    (h1 : 1 ≤ n) (h64 : n ≤ 64) (hle : (n : Int) ≤ attempts)
    (hfail : ∀ k, k < n → attempt_fails env k = true) :
    (∀ i, 1 ≤ i → i ≤ n →
        (sleeps ((forced_reconnect env attempts st).2.trace.drop st.trace.length))[i - 1]?
          = some (2 ^ ((i - 1) / 2)))
    ∧ (attempts = 6 → n = 6 →
        sleeps ((forced_reconnect env attempts st).2.trace.drop st.trace.length)
          = [1, 1, 2, 2, 4, 4]) := by
  have hsl : ∀ sock_type sa saLen,
      sleeps (failure_calls env sock_type sa saLen n 0 1)
        = (List.range n).map fun i => 2 ^ (i / 2) := by
    intro sock_type sa saLen
    have := sleeps_failure_calls env sock_type sa saLen n 0 (by omega)
    rw [List.range_eq_range']
    exact this
  constructor
  · intro i hi1 hi2
    obtain ⟨sock_type, sa, saLen, rest, ht, -⟩ :=
      forced_reconnect_trace_prefix env attempts n st hres hle hfail
    rw [ht]
    simp only [List.append_assoc, List.drop_left, sleeps_append, sleeps_resolve_calls,
      List.nil_append, hsl]
    rw [List.getElem?_append_left (by simp; omega)]
    simp only [List.getElem?_map, List.getElem?_range (show i - 1 < n by omega),
      Option.map_some']
  · intro ha hn
    subst ha
    subst hn
    obtain ⟨sock_type, sa, saLen, hr⟩ :=
      forced_reconnect_all_fail env 6 st hres hfail
    have hr' : forced_reconnect env (6 : Int) st = forced_reconnect env ((6 : Nat) : Int) st :=
      rfl
    rw [hr', hr]
    simp only [List.append_assoc, List.drop_left, sleeps_append, sleeps_resolve_calls,
      List.nil_append, hsl]
    rfl

theorem C5_backoff_intervals_witness :
    (∀ i, 1 ≤ i → i ≤ 6 →
        (sleeps ((forced_reconnect (example_env (fragment [] false) fun _ => true) 6
            example_state).2.trace.drop example_state.trace.length))[i - 1]?
          = some (2 ^ ((i - 1) / 2)))
    ∧ ((6 : Int) = 6 → 6 = 6 →
        sleeps ((forced_reconnect (example_env (fragment [] false) fun _ => true) 6
            example_state).2.trace.drop example_state.trace.length)
          = [1, 1, 2, 2, 4, 4]) :=
  C5_backoff_intervals (example_env (fragment [] false) fun _ => true) 6 6 example_state
    (by decide) (by decide) (by decide) (by decide)
    (fun k _ => by simp [attempt_fails, example_env]; omega)

/-! ## Outcome of a reconnect -/

theorem socket_count_append (a b : List Effect) :
    socket_count (a ++ b) = socket_count a + socket_count b := by
  simp [socket_count]

theorem connect_count_append (a b : List Effect) :
    connect_count (a ++ b) = connect_count a + connect_count b := by
  simp [connect_count]

theorem closes_append (a b : List Effect) : closes (a ++ b) = closes a ++ closes b := by
  simp [closes]

theorem counts_resolve_calls (env : Env) (name : String) :
    socket_count (resolve_calls env name) = 0 ∧ connect_count (resolve_calls env name) = 0
      ∧ closes (resolve_calls env name) = [] := by
  unfold resolve_calls
  split <;> exact ⟨rfl, rfl, rfl⟩

theorem counts_failure_calls (env : Env) (sock_type : Int) (sa : sockaddr_storage)
    (saLen : Nat) (m k s : Nat) :
    socket_count (failure_calls env sock_type sa saLen m k s) = m
      ∧ connect_count (failure_calls env sock_type sa saLen m k s) = m
      ∧ closes (failure_calls env sock_type sa saLen m k s)
        = (List.range' k m).map env.socket := by
  induction m generalizing k s with
  | zero => exact ⟨rfl, rfl, rfl⟩
  | succ m ih =>
    obtain ⟨h1, h2, h3⟩ := ih (k + 1) (next_interval k s)
    rw [failure_calls, socket_count_append, connect_count_append, closes_append, h1, h2, h3]
    refine ⟨?_, ?_, ?_⟩
    · simp [failed_attempt_calls, socket_count]; omega
    · simp [failed_attempt_calls, connect_count]; omega
    · simp [failed_attempt_calls, closes, List.range'_succ]

theorem counts_successful_attempt_calls (env : Env) (sock_type : Int)
    (sa : sockaddr_storage) (saLen : Nat) (k : Nat) :
    socket_count (successful_attempt_calls env sock_type sa saLen k) = 1
      ∧ connect_count (successful_attempt_calls env sock_type sa saLen k) = 1
      ∧ closes (successful_attempt_calls env sock_type sa saLen k) = [] := by
  simp [successful_attempt_calls, socket_count, connect_count, closes]

/-- C6: when the peer address resolves, `forced_reconnect(n)` ends in its fatal error
"Forced reconnect failed" if and only if each of its `n` attempts creates its socket and
fails to connect (for `n = 0` no socket is created); in that case it has created `n`
sockets, issued `n` connects and closed each socket.  If attempt `j + 1` is the first
not to fail and it succeeds, the call returns without error after exactly `j + 1` socket
creations and `j + 1` connects, has closed the `j` failed sockets in order, has put the
connected fd into the connection table with `map_put_item`, and its last call registers
that fd for read readiness. -/
theorem C6_reconnect_outcome (env : Env) (n : Nat) (st : PortState)
    (hres : resolves env st.peer_IP_address = true) :
    ((forced_reconnect env n st).1 = Outcome.fatal Fatal.reconnect_failed
        ↔ ∀ k, k < n → attempt_fails env k = true)
    ∧ ((∀ k, k < n → attempt_fails env k = true) →
        socket_count ((forced_reconnect env n st).2.trace.drop st.trace.length) = n
        ∧ connect_count ((forced_reconnect env n st).2.trace.drop st.trace.length) = n
        ∧ closes ((forced_reconnect env n st).2.trace.drop st.trace.length)
          = (List.range n).map env.socket)
    ∧ (∀ j, j < n → (∀ k, k < j → attempt_fails env k = true) →
        attempt_succeeds env j = true →
        (forced_reconnect env n st).1 = Outcome.ok ()
        ∧ socket_count ((forced_reconnect env n st).2.trace.drop st.trace.length) = j + 1
        ∧ connect_count ((forced_reconnect env n st).2.trace.drop st.trace.length) = j + 1
        ∧ closes ((forced_reconnect env n st).2.trace.drop st.trace.length)
          = (List.range j).map env.socket
        ∧ (forced_reconnect env n st).2.fd_map = (map_put_item (env.socket j) st).2.fd_map
        ∧ ((forced_reconnect env n st).2.trace.drop st.trace.length).getLast?
          = some (Effect.Handler_Add_Fd_Read (env.socket j))) := by
  refine ⟨⟨?_, ?_⟩, ?_, ?_⟩
  · intro hfatal
    by_contra hnot
    obtain ⟨j, hj, h1, h2⟩ := exists_first_not_failing env n hnot
    exact forced_reconnect_not_exhausted env n j st hres hj h1 h2 hfatal
  · intro hall
    obtain ⟨sock_type, sa, saLen, hr⟩ := forced_reconnect_all_fail env n st hres hall
    rw [hr]
  · intro hall
    obtain ⟨sock_type, sa, saLen, hr⟩ := forced_reconnect_all_fail env n st hres hall
    obtain ⟨r1, r2, r3⟩ := counts_resolve_calls env st.peer_IP_address
    obtain ⟨f1, f2, f3⟩ := counts_failure_calls env sock_type sa saLen n 0 1
    rw [hr]
    simp only [List.append_assoc, List.drop_left, socket_count_append, connect_count_append,
      closes_append, r1, r2, r3, f1, f2, f3, List.range_eq_range']
    simp
  · intro j hj hfail hs
    obtain ⟨sock_type, sa, saLen, hr⟩ :=
      forced_reconnect_first_success env n j st hres hj hfail hs
    obtain ⟨r1, r2, r3⟩ := counts_resolve_calls env st.peer_IP_address
    obtain ⟨f1, f2, f3⟩ := counts_failure_calls env sock_type sa saLen j 0 1
    obtain ⟨s1, s2, s3⟩ := counts_successful_attempt_calls env sock_type sa saLen j
    rw [hr]
    simp only [List.append_assoc, List.drop_left, socket_count_append, connect_count_append,
      closes_append, r1, r2, r3, f1, f2, f3, s1, s2, s3, List.range_eq_range',
      map_put_item_run]
    refine ⟨trivial, by omega, by omega, by simp, trivial, ?_⟩
    rw [← List.append_assoc, List.getLast?_append]
    simp [successful_attempt_calls]

theorem C6_reconnect_outcome_witness :
    ((forced_reconnect (example_env (fragment [] false) fun k => decide (k < 2)) (3 : Nat)
          example_state).1 = Outcome.fatal Fatal.reconnect_failed
        ↔ ∀ k, k < 3 →
          attempt_fails (example_env (fragment [] false) fun k => decide (k < 2)) k = true)
    ∧ ((∀ k, k < 3 →
          attempt_fails (example_env (fragment [] false) fun k => decide (k < 2)) k = true) →
        socket_count ((forced_reconnect
            (example_env (fragment [] false) fun k => decide (k < 2)) (3 : Nat)
            example_state).2.trace.drop example_state.trace.length) = 3
        ∧ connect_count ((forced_reconnect
            (example_env (fragment [] false) fun k => decide (k < 2)) (3 : Nat)
            example_state).2.trace.drop example_state.trace.length) = 3
        ∧ closes ((forced_reconnect
            (example_env (fragment [] false) fun k => decide (k < 2)) (3 : Nat)
            example_state).2.trace.drop example_state.trace.length)
          = (List.range 3).map
              (example_env (fragment [] false) fun k => decide (k < 2)).socket)
    ∧ (∀ j, j < 3 →
        (∀ k, k < j →
          attempt_fails (example_env (fragment [] false) fun k => decide (k < 2)) k = true) →
        attempt_succeeds (example_env (fragment [] false) fun k => decide (k < 2)) j = true →
        (forced_reconnect (example_env (fragment [] false) fun k => decide (k < 2)) (3 : Nat)
          example_state).1 = Outcome.ok ()
        ∧ socket_count ((forced_reconnect
            (example_env (fragment [] false) fun k => decide (k < 2)) (3 : Nat)
            example_state).2.trace.drop example_state.trace.length) = j + 1
        ∧ connect_count ((forced_reconnect
            (example_env (fragment [] false) fun k => decide (k < 2)) (3 : Nat)
            example_state).2.trace.drop example_state.trace.length) = j + 1
        ∧ closes ((forced_reconnect
            (example_env (fragment [] false) fun k => decide (k < 2)) (3 : Nat)
            example_state).2.trace.drop example_state.trace.length)
          = (List.range j).map
              (example_env (fragment [] false) fun k => decide (k < 2)).socket
        ∧ (forced_reconnect (example_env (fragment [] false) fun k => decide (k < 2))
            (3 : Nat) example_state).2.fd_map
          = (map_put_item
              ((example_env (fragment [] false) fun k => decide (k < 2)).socket j)
              example_state).2.fd_map
        ∧ ((forced_reconnect (example_env (fragment [] false) fun k => decide (k < 2))
            (3 : Nat) example_state).2.trace.drop example_state.trace.length).getLast?
          = some (Effect.Handler_Add_Fd_Read
              ((example_env (fragment [] false) fun k => decide (k < 2)).socket j))) :=
  C6_reconnect_outcome (example_env (fragment [] false) fun k => decide (k < 2)) 3
    example_state (by decide)

/-! ## End of stream on a connection -/

theorem events_of_resolve_calls (env : Env) (name : String) :
    events_of (resolve_calls env name) = [] := by
  unfold resolve_calls
  split <;> rfl

/-- Whatever the operating system answers, `forced_reconnect` only adds calls to the
trace, and none of them is `incoming_message`. -/
theorem forced_reconnect_trace (env : Env) (attempts : Int) (st : PortState) :
    ∃ rest, (forced_reconnect env attempts st).2.trace = st.trace ++ rest
      ∧ events_of rest = [] := by
  cases hres : resolves env st.peer_IP_address
  · rw [forced_reconnect_unresolved env attempts st hres]
    exact ⟨_, rfl, events_of_resolve_calls env _⟩
  · obtain ⟨sock_type, sa, saLen, h⟩ := forced_reconnect_run env attempts st hres
    obtain ⟨rest, h1, h2⟩ := loop_trace env sock_type sa saLen attempts attempts.toNat 0 1
      { st with trace := st.trace ++ resolve_calls env st.peer_IP_address }
    refine ⟨resolve_calls env st.peer_IP_address ++ rest, ?_, ?_⟩
    · rw [h, ← List.append_assoc, ← h1]
      simp only [Nat.cast_zero]
      cases forced_reconnect_loop env sock_type sa saLen attempts attempts.toNat 0 1
          { st with trace := st.trace ++ resolve_calls env st.peer_IP_address } with
      | mk o st2 =>
        cases o with
        | ok i => by_cases hi : i = attempts <;> simp [hi]
        | fatal e => rfl
    · rw [events_of_append, events_of_resolve_calls, h2]
      rfl

theorem countP_set_of_true {p : fd_map_item → Bool} (l : List fd_map_item) (i : Nat)
    (a x : fd_map_item) (ha : l[i]? = some a) (hp : p a = true) (hx : p x = false) :
    (l.set i x).countP p + 1 = l.countP p := by
  induction l generalizing i with
  | nil => simp at ha
  | cons b bs ih =>
    cases i with
    | zero =>
      simp only [List.getElem?_cons_zero, Option.some.injEq] at ha
      subst ha
      simp [List.countP_cons, hp, hx]
    | succ n =>
      simp only [List.getElem?_cons_succ] at ha
      simp only [List.set_cons_succ, List.countP_cons]
      have := ih n ha
      omega

theorem Handle_Fd_Event_Readable_eof (env : Env) (f : Int) (st : PortState) (i : Nat)
    (it : fd_map_item) (hidx : map_get_item f st = (i : Int))
    (hit : st.fd_map[i]? = some it) (hnl : not_listening f st = true)
    (hv : env.recvmsg.value ≤ 0) :
    it.fd = f ∧ it.erased = false
      ∧ Handle_Fd_Event_Readable env f st
        = if st.reconnect then
            forced_reconnect env st.reconnect_max_attempts (state_before_reconnect st i it)
          else (Outcome.ok (), state_before_reconnect st i it) := by
  obtain ⟨it1, hit1, her, hfd⟩ := map_get_item_found f st i hidx
  rw [hit] at hit1
  cases hit1
  subst hfd
  exact ⟨rfl, her, by
    rw [Handle_Fd_Event_Readable_eq env it.fd st hnl, receive_data_eof env st i it hidx hit hv]⟩

theorem calls_recv_counts (it : fd_map_item) :
    (calls_recv it).count Effect.Free = 0 ∧ closes (calls_recv it) = []
      ∧ events_of (calls_recv it) = [] ∧ socket_count (calls_recv it) = 0 := by
  unfold calls_recv
  split <;> simp [closes, events_of, socket_count]

/-- C7: for a live connection record with fd `f` (a descriptor, so not `-1`; the table
holds at most one live slot per fd and a slot with a message in progress owns a buffer),
when the receive of the readable handler returns a count `≤ 0`, the handler reaches the
line `if (reconnect) forced_reconnect(...)` in a state in which no live slot is keyed by
`f`, the record's slot is erased with a null buffer, and the handler has so far called
`Free` exactly once and `close(f)` exactly once. -/
theorem C7_eof_removes_connection (env : Env) (f : Int) (st : PortState) (i : Nat)
    (it : fd_map_item) (hidx : map_get_item f st = (i : Int))
    (hit : st.fd_map[i]? = some it) (hnl : not_listening f st = true)
    (huniq : live_count f st.fd_map ≤ 1) (hf : f ≠ -1)
    (hbuf : it.processing_message = true → it.buf.isSome = true)
    (hv : env.recvmsg.value ≤ 0) :
    ∃ st1,
      Handle_Fd_Event_Readable env f st
        = (if st.reconnect then forced_reconnect env st.reconnect_max_attempts st1
           else (Outcome.ok (), st1))
      ∧ map_get_item f st1 = -1
      ∧ st1.fd_map[i]? = some erased_item
      ∧ erased_item.buf = none
      ∧ (st1.trace.drop st.trace.length).count Effect.Free = 1
      ∧ (closes (st1.trace.drop st.trace.length)).count f = 1 := by
  obtain ⟨hfd, her, hrun⟩ := Handle_Fd_Event_Readable_eof env f st i it hidx hit hnl hv
  have hi : i < st.fd_map.length := (List.getElem?_eq_some_iff.mp hit).1
  refine ⟨state_before_reconnect st i it, hrun, ?_, ?_, rfl, ?_, ?_⟩
  · rw [map_get_item_neg_one]
    have h1 := @countP_set_of_true (live_with_fd f) st.fd_map i it erased_item hit
      (by simp [live_with_fd, her, hfd]) (by simp [live_with_fd, erased_item])
    simp only [live_count, state_before_reconnect] at huniq ⊢
    omega
  · simp [state_before_reconnect, List.getElem?_set_self hi]
  · obtain ⟨c1, -, -, -⟩ := calls_recv_counts it
    have hsome : (slot_prepared it).buf.isSome = true := by
      unfold slot_prepared
      cases hpm : it.processing_message
      · simp
      · simpa [hpm] using hbuf hpm
    cases he : st.events.sctp_association_event <;>
      simp [state_before_reconnect, List.count_append, c1, delete_calls, hsome, hfd, hf, he]
  · obtain ⟨-, c2, -, -⟩ := calls_recv_counts it
    simp only [state_before_reconnect, List.append_assoc, List.drop_left, closes_append, c2,
      List.nil_append]
    cases he : st.events.sctp_association_event <;>
      cases hb : (slot_prepared it).buf.isSome <;>
      simp [delete_calls, hfd, hf, closes, he, hb]

theorem C7_eof_removes_connection_witness :
    ∃ st1,
      Handle_Fd_Event_Readable (example_env (fragment [] false) fun _ => true) 5
          { example_state with reconnect := true }
        = (if ({ example_state with reconnect := true } : PortState).reconnect then
            forced_reconnect (example_env (fragment [] false) fun _ => true)
              ({ example_state with reconnect := true } : PortState).reconnect_max_attempts
              st1
           else (Outcome.ok (), st1))
      ∧ map_get_item 5 st1 = -1
      ∧ st1.fd_map[0]? = some erased_item
      ∧ erased_item.buf = none
      ∧ (st1.trace.drop
          ({ example_state with reconnect := true } : PortState).trace.length).count
            Effect.Free = 1
      ∧ (closes (st1.trace.drop
          ({ example_state with reconnect := true } : PortState).trace.length)).count 5
            = 1 :=
  C7_eof_removes_connection (example_env (fragment [] false) fun _ => true) 5
    { example_state with reconnect := true } 0
    { erased_item with fd := 5, erased := false } (by decide) (by decide) (by decide)
    (by decide) (by decide) (by decide) (by decide)

/-- C8: for a live connection record with fd `f`, when the receive of the readable
handler returns a count `≤ 0`: if association-change events are subscribed, the events
the handler emits are exactly one association-change event with client id `f` and state
communication-lost, no socket is created before it, and the calls after it (those of the
reconnect, if any) emit nothing; if they are not subscribed, the handler emits no
event. -/
theorem C8_eof_comm_lost_event (env : Env) (f : Int) (st : PortState) (i : Nat)
    (it : fd_map_item) (hidx : map_get_item f st = (i : Int))
    (hit : st.fd_map[i]? = some it) (hnl : not_listening f st = true)
    (hv : env.recvmsg.value ≤ 0) :
    (st.events.sctp_association_event = true →
      events_of ((Handle_Fd_Event_Readable env f st).2.trace.drop st.trace.length)
          = [Message.ASP_SCTP_ASSOC_CHANGE f SAC_STATE.SCTP_COMM_LOST]
        ∧ ∃ before after,
            (Handle_Fd_Event_Readable env f st).2.trace.drop st.trace.length
              = before
                ++ [Effect.incoming_message
                      (Message.ASP_SCTP_ASSOC_CHANGE f SAC_STATE.SCTP_COMM_LOST)]
                ++ after
            ∧ socket_count before = 0 ∧ events_of before = [] ∧ events_of after = [])
    ∧ (st.events.sctp_association_event = false →
        events_of ((Handle_Fd_Event_Readable env f st).2.trace.drop st.trace.length) = []) := by
  obtain ⟨hfd, her, hrun⟩ := Handle_Fd_Event_Readable_eof env f st i it hidx hit hnl hv
  obtain ⟨c1, c2, c3, c4⟩ := calls_recv_counts it
  have hd : events_of (delete_calls it.fd (slot_prepared it).buf) = []
      ∧ socket_count (delete_calls it.fd (slot_prepared it).buf) = 0 := by
    unfold delete_calls
    split <;> split <;> exact ⟨rfl, rfl⟩
  obtain ⟨rest, hrest, hev⟩ := forced_reconnect_trace env st.reconnect_max_attempts
    (state_before_reconnect st i it)
  have htr : ∃ after, (Handle_Fd_Event_Readable env f st).2.trace
      = (state_before_reconnect st i it).trace ++ after ∧ events_of after = [] := by
    rw [hrun]
    cases st.reconnect
    · exact ⟨[], by simp, rfl⟩
    · exact ⟨rest, by simpa using hrest, hev⟩
  obtain ⟨after, hafter, hev2⟩ := htr
  constructor
  · intro he
    have hsplit : (Handle_Fd_Event_Readable env f st).2.trace.drop st.trace.length
        = (calls_recv it ++ delete_calls it.fd (slot_prepared it).buf)
          ++ [Effect.incoming_message
                (Message.ASP_SCTP_ASSOC_CHANGE f SAC_STATE.SCTP_COMM_LOST)]
          ++ after := by
      rw [hafter]
      simp [state_before_reconnect, he, hfd]
    refine ⟨?_, _, after, hsplit, ?_, ?_, hev2⟩
    · rw [hsplit]
      simp only [events_of_append, c3, hd.1, hev2, List.nil_append, List.append_nil]
      rfl
    · rw [socket_count_append, c4, hd.2]
    · rw [events_of_append, c3, hd.1]
      rfl
  · intro he
    rw [hafter]
    simp only [state_before_reconnect, he, Bool.false_eq_true, if_false, List.append_nil,
      List.append_assoc, List.drop_left, events_of_append, c3, hd.1, hev2, List.nil_append]

theorem C8_eof_comm_lost_event_witness :
    (({ example_state with reconnect := true } : PortState).events.sctp_association_event
        = true →
      events_of ((Handle_Fd_Event_Readable
          (example_env (fragment [] false) fun k => decide (k < 2)) 5
          { example_state with reconnect := true }).2.trace.drop
            ({ example_state with reconnect := true } : PortState).trace.length)
          = [Message.ASP_SCTP_ASSOC_CHANGE 5 SAC_STATE.SCTP_COMM_LOST]
        ∧ ∃ before after,
            (Handle_Fd_Event_Readable
                (example_env (fragment [] false) fun k => decide (k < 2)) 5
                { example_state with reconnect := true }).2.trace.drop
              ({ example_state with reconnect := true } : PortState).trace.length
              = before
                ++ [Effect.incoming_message
                      (Message.ASP_SCTP_ASSOC_CHANGE 5 SAC_STATE.SCTP_COMM_LOST)]
                ++ after
            ∧ socket_count before = 0 ∧ events_of before = [] ∧ events_of after = [])
    ∧ (({ example_state with reconnect := true } : PortState).events.sctp_association_event
          = false →
        events_of ((Handle_Fd_Event_Readable
          (example_env (fragment [] false) fun k => decide (k < 2)) 5
          { example_state with reconnect := true }).2.trace.drop
            ({ example_state with reconnect := true } : PortState).trace.length) = []) :=
  C8_eof_comm_lost_event (example_env (fragment [] false) fun k => decide (k < 2)) 5
    { example_state with reconnect := true } 0
    { erased_item with fd := 5, erased := false } (by decide) (by decide) (by decide)
    (by decide)

/-! ## Properties of slots that the port functions maintain -/

theorem all_slots_set {P : Nat → fd_map_item → Prop} {m : List fd_map_item} (i : Nat)
    (x : fd_map_item) (h : all_slots P m) (hx : P i x) : all_slots P (m.set i x) := by
  intro j it hj
  by_cases hij : i = j
  · subst hij
    have hi : i < m.length := by
      have := (List.getElem?_eq_some_iff.mp hj).1
      simpa using this
    rw [List.getElem?_set_self hi] at hj
    cases hj
    exact hx
  · rw [List.getElem?_set_ne hij] at hj
    exact h j it hj

theorem all_slots_grown {P : Nat → fd_map_item → Prop} {m : List fd_map_item}
    (hfresh : ∀ j, P j erased_item) (h : all_slots P m) : all_slots P (grown m) := by
  unfold grown
  split
  · intro j it hj
    by_cases hlt : j < m.length
    · rw [List.getElem?_append_left hlt] at hj
      exact h j it hj
    · rw [List.getElem?_append_right (by omega)] at hj
      have := List.getElem?_eq_some_iff.mp hj
      obtain ⟨h1, h2⟩ := this
      simp only [List.getElem_replicate] at h2
      subst h2
      exact hfresh j
  · exact h

theorem all_slots_table_put {P : Nat → fd_map_item → Prop} {m : List fd_map_item}
    (fd : Int) (hfresh : ∀ j, P j erased_item)
    (hput : ∀ j it, it.erased = true → P j it → P j { it with fd := fd, erased := false })
    (h : all_slots P m) : all_slots P (table_put fd m) := by
  obtain ⟨it, hit, her⟩ := grown_first_erased m
  have hg := all_slots_grown hfresh h
  unfold table_put
  apply all_slots_set _ _ hg
  rw [List.getD_eq_getElem?_getD, hit]
  exact hput _ it her (hg _ it hit)

theorem keeps_pure {T : List fd_map_item → Prop} {α : Type} (a : α) :
    keeps T (pure a : M α) := fun _ h => h

theorem keeps_error {T : List fd_map_item → Prop} {α : Type} (e : Fatal) :
    keeps T (error e : M α) := fun _ h => h

theorem keeps_getState {T : List fd_map_item → Prop} : keeps T getState := fun _ h => h

theorem keeps_emit {T : List fd_map_item → Prop} (e : Effect) : keeps T (emit e) :=
  fun _ h => h

theorem keeps_incoming_message {T : List fd_map_item → Prop} (m : Message) :
    keeps T (incoming_message m) := fun _ h => h

theorem keeps_modifyState {T : List fd_map_item → Prop} (f : PortState → PortState)
    (hf : ∀ s, (f s).fd_map = s.fd_map) : keeps T (modifyState f) := by
  intro st h
  simpa [hf st] using h

theorem keeps_bind {T : List fd_map_item → Prop} {α β : Type} {x : M α} {f : α → M β}
    (hx : keeps T x) (hf : ∀ a, keeps T (f a)) : keeps T (x >>= f) := by
  intro st h
  have h1 := hx st h
  rw [bind_run]
  cases hr : x st with
  | mk o st1 =>
    rw [hr] at h1
    cases o with
    | ok a => exact hf a st1 h1
    | fatal e => exact h1

/-- Sequencing when the rest of the function depends on what the first part returns. -/
theorem keeps_bind_of {T : List fd_map_item → Prop} {α β : Type} {x : M α}
    {f : α → M β} (R : α → Prop) (hres : ∀ st a st1, x st = (Outcome.ok a, st1) → R a)
    (hx : keeps T x) (hf : ∀ a, R a → keeps T (f a)) : keeps T (x >>= f) := by
  intro st h
  have h1 := hx st h
  rw [bind_run]
  cases hr : x st with
  | mk o st1 =>
    rw [hr] at h1
    cases o with
    | ok a => exact hf a (hres st a st1 hr) st1 h1
    | fatal e => exact h1

theorem keeps_ite {T : List fd_map_item → Prop} {α : Type} (c : Prop) [Decidable c]
    {x y : M α} (hx : keeps T x) (hy : keeps T y) : keeps T (if c then x else y) := by
  split
  · exact hx
  · exact hy

theorem keeps_map_put_item {T : List fd_map_item → Prop} (fd : Int)
    (hput : ∀ m, T m → T (table_put fd m)) : keeps T (map_put_item fd) := by
  intro st h
  rw [map_put_item_run]
  exact hput _ h

theorem keeps_map_delete_item {T : List fd_map_item → Prop} (index : Int)
    (hdel : ∀ m i, i < m.length → T m → T (m.set i erased_item)) :
    keeps T (map_delete_item index) := by
  intro st h
  by_cases hr : (st.fd_map.length : Int) ≤ index ∨ index < 0
  · rw [map_delete_item_fatal hr]
    exact h
  · have h0 : 0 ≤ index := by omega
    obtain ⟨i, rfl⟩ := Int.eq_ofNat_of_zero_le h0
    rw [map_delete_item_natCast]
    cases hi : st.fd_map[i]? with
    | none => exact h
    | some it => exact hdel _ i (List.getElem?_eq_some_iff.mp hi).1 h

theorem keeps_map_delete_item_fd {T : List fd_map_item → Prop} (fd : Int)
    (hdel : ∀ m i, i < m.length → T m → T (m.set i erased_item)) :
    keeps T (map_delete_item_fd fd) := by
  unfold map_delete_item_fd
  refine keeps_ite _ (keeps_bind keeps_getState fun st => ?_) (keeps_pure _)
  split
  · exact keeps_map_delete_item _ hdel
  · exact keeps_pure _

/-- A port function that leaves the connection table as it is maintains every property
of the table. -/
theorem keeps_of_same_table {T : List fd_map_item → Prop} {α : Type} {x : M α}
    (hx : ∀ st, (x st).2.fd_map = st.fd_map) : keeps T x := by
  intro st h
  rw [hx st]
  exact h

theorem all_slots_erase {P : Nat → fd_map_item → Prop} (hfresh : ∀ j, P j erased_item)
    (m : List fd_map_item) (i : Nat) (_ : i < m.length) (h : all_slots P m) :
    all_slots P (m.set i erased_item) :=
  all_slots_set i erased_item h (hfresh i)

/-- A property of every slot that holds of a fresh or deleted slot, and goes on holding
when a descriptor is stored in an erased slot, is a stable property of the table. -/
theorem stable_all_slots {P : Nat → fd_map_item → Prop} (hfresh : ∀ j, P j erased_item)
    (hput : ∀ j it fd, fd ≠ -1 → it.erased = true → P j it →
      P j { it with fd := fd, erased := false }) : stable (all_slots P) :=
  ⟨fun _ fd hfd h => all_slots_table_put fd hfresh (fun j it => hput j it fd hfd) h,
    all_slots_erase hfresh⟩

theorem fill_addr_struct_table (env : Env) (name : String) (port : Int) (saLen0 : Nat)
    (st : PortState) : (fill_addr_struct env name port saLen0 st).2.fd_map = st.fd_map := by
  rw [(fill_addr_struct_run env name port saLen0 st).1]

theorem create_socket_table (env : Env) (k : Nat) (addr_family : Int) (st : PortState) :
    (create_socket env k addr_family st).2.fd_map = st.fd_map := by
  rw [create_socket_run]
  split <;> rfl

theorem create_socket_descriptor (env : Env) (k : Nat) (addr_family : Int)
    (st : PortState) (a : Int) (st1 : PortState)
    (h : create_socket env k addr_family st = (Outcome.ok a, st1)) : a ≠ -1 := by
  rw [create_socket_run] at h
  split at h
  · cases h
  · rename_i hs
    cases h
    exact hs

theorem setNonBlocking_table (env : Env) (fd : Int) (st : PortState) :
    (setNonBlocking env fd st).2.fd_map = st.fd_map := by
  rw [setNonBlocking_run]

theorem keeps_forced_reconnect_loop {T : List fd_map_item → Prop} (hT : stable T)
    (env : Env) (sock_type : Int) (sa : sockaddr_storage) (saLen : Nat) (attempts : Int)
    (fuel : Nat) (i : Int) (s : Nat) :
    keeps T (forced_reconnect_loop env sock_type sa saLen attempts fuel i s) := by
  induction fuel generalizing i s with
  | zero => exact keeps_pure _
  | succ fuel ih =>
    rw [forced_reconnect_loop]
    refine keeps_ite _ ?_ (keeps_pure _)
    refine keeps_bind_of (fun a => a ≠ -1) (create_socket_descriptor env _ _)
      (keeps_of_same_table (create_socket_table env _ _)) fun fd hfd => ?_
    refine keeps_bind (keeps_modifyState _ fun _ => rfl) fun _ => ?_
    refine keeps_bind (keeps_emit _) fun _ => ?_
    refine keeps_ite _ ?_ ?_
    · refine keeps_bind (keeps_emit _) fun _ => ?_
      refine keeps_bind (keeps_modifyState _ fun _ => rfl) fun _ => ?_
      refine keeps_bind (keeps_emit _) fun _ => ?_
      exact ih _ _
    · refine keeps_bind (keeps_map_put_item fd fun m => hT.1 m fd hfd)
        fun _ => ?_
      refine keeps_bind (keeps_of_same_table (setNonBlocking_table env fd)) fun _ => ?_
      exact keeps_bind (keeps_emit _) fun _ => keeps_pure _

theorem keeps_forced_reconnect {T : List fd_map_item → Prop} (hT : stable T) (env : Env)
    (attempts : Int) : keeps T (forced_reconnect env attempts) := by
  unfold forced_reconnect
  refine keeps_bind keeps_getState fun st => ?_
  refine keeps_bind (keeps_of_same_table (fill_addr_struct_table env _ _ _)) fun r => ?_
  refine keeps_bind (keeps_forced_reconnect_loop hT env _ _ _ _ _ _ _) fun i => ?_
  exact keeps_ite _ (keeps_error _) (keeps_pure _)

theorem map_delete_item_server_table (index : Int) (st : PortState) :
    (map_delete_item_server index st).2.fd_map = st.fd_map := by
  unfold map_delete_item_server
  simp only [bind_run, getState_run]
  by_cases hr : (index ≥ (st.fd_map_server.length : Int) || index < 0) = true
  · simp [hr]
  · simp only [hr, if_false, pure_run]
    cases hit : st.fd_map_server[index.toNat]? with
    | none => rfl
    | some it => cases hfd : it.fd != -1 <;> simp [hfd]

theorem map_delete_item_fd_server_table (fd : Int) (st : PortState) :
    (map_delete_item_fd_server fd st).2.fd_map = st.fd_map := by
  unfold map_delete_item_fd_server
  split
  · simp only [bind_run, getState_run]
    cases first_with_fd_server fd st.fd_map_server 0 with
    | none => rfl
    | some i => exact map_delete_item_server_table _ st
  · rfl

theorem reread_sac_state_state (i : Int) (sac_state : Int) (st : PortState) :
    (reread_sac_state i sac_state st).2 = st := by
  unfold reread_sac_state item
  simp only [bind_run]
  by_cases hneg : i < 0
  · simp [hneg]
  · cases hit : st.fd_map[i.toNat]? with
    | none => simp [hneg, hit]
    | some it => cases hb : it.buf <;> simp [hneg, hit, hb, error, pure_run]

theorem keeps_case_SCTP_ASSOC_CHANGE {T : List fd_map_item → Prop} (hT : stable T)
    (env : Env) (i : Int) (sac_state : Int) :
    keeps T (case_SCTP_ASSOC_CHANGE env i sac_state) := by
  unfold case_SCTP_ASSOC_CHANGE
  refine keeps_bind ?_ fun _ => ?_
  · refine keeps_ite _ (keeps_bind keeps_getState fun st => ?_) (keeps_pure _)
    refine keeps_ite _ ?_ ?_
    · refine keeps_bind ?_ fun _ => keeps_map_delete_item_fd _ hT.2
      exact keeps_ite _ (keeps_modifyState _ fun _ => rfl) (keeps_pure _)
    · refine keeps_bind (keeps_map_delete_item_fd _ hT.2) fun _ => ?_
      exact keeps_of_same_table (map_delete_item_fd_server_table _)
  · refine keeps_bind keeps_getState fun st => ?_
    refine keeps_bind ?_ fun _ => ?_
    · exact keeps_ite _ (keeps_incoming_message _) (keeps_pure _)
    · refine keeps_ite _ ?_ (keeps_pure _)
      refine keeps_ite _ ?_ (keeps_pure _)
      refine keeps_bind (keeps_of_same_table fun s => ?_) fun _ => ?_
      · rw [reread_sac_state_state]
      · exact keeps_ite _ (keeps_forced_reconnect hT env _) (keeps_pure _)

theorem keeps_handle_event {T : List fd_map_item → Prop} (hT : stable T) (env : Env)
    (i : Int) (buf : List Nat) : keeps T (handle_event env i buf) := by
  unfold handle_event
  refine keeps_bind keeps_getState fun st => ?_
  refine keeps_ite _ (keeps_case_SCTP_ASSOC_CHANGE hT env _ _) ?_
  refine keeps_ite _ (keeps_ite _ (keeps_incoming_message _) (keeps_pure _)) ?_
  refine keeps_ite _ (keeps_ite _ (keeps_incoming_message _) (keeps_pure _)) ?_
  refine keeps_ite _ (keeps_ite _ (keeps_incoming_message _) (keeps_pure _)) ?_
  refine keeps_ite _ (keeps_ite _ (keeps_incoming_message _) (keeps_pure _)) ?_
  refine keeps_ite _ (keeps_ite _ (keeps_incoming_message _) (keeps_pure _)) ?_
  exact keeps_ite _ (keeps_ite _ (keeps_incoming_message _) (keeps_pure _)) (keeps_pure _)

theorem keeps_accept_loop {T : List fd_map_item → Prop} (hT : stable T) (env : Env)
    (my_fd : Int) (l : List fd_map_server_item) (k : Nat) :
    keeps T (accept_loop env my_fd l k) := by
  induction l generalizing k with
  | nil => exact keeps_pure _
  | cons s rest ih =>
    rw [accept_loop]
    refine keeps_bind ?_ fun _ => ih _
    refine keeps_ite _ ?_ (keeps_pure _)
    refine keeps_bind (keeps_emit _) fun _ => ?_
    by_cases ha : (env.accept k).newclient_fd = -1
    · simp only [ha, beq_self_eq_true, if_true]
      exact keeps_error _
    · have hb : ((env.accept k).newclient_fd == -1) = false := by simpa using ha
      simp only [hb, Bool.false_eq_true, if_false]
      refine keeps_bind (keeps_map_put_item _ fun m => hT.1 m _ ha) fun _ => ?_
      refine keeps_bind (keeps_of_same_table (setNonBlocking_table env _)) fun _ => ?_
      refine keeps_bind (keeps_emit _) fun _ => ?_
      split
      · exact keeps_error _
      · exact keeps_incoming_message _

theorem keeps_accept_new_client {T : List fd_map_item → Prop} (hT : stable T) (env : Env)
    (my_fd : Int) : keeps T (accept_new_client env my_fd) := by
  unfold accept_new_client
  refine keeps_bind keeps_getState fun st => ?_
  refine keeps_ite _ (keeps_accept_loop hT env my_fd _ _) ?_
  refine keeps_ite _ ?_ (keeps_pure _)
  refine keeps_bind (keeps_emit _) fun _ => ?_
  by_cases ha : (env.accept 0).newclient_fd = -1
  · simp only [ha, beq_self_eq_true, if_true]
    exact keeps_error _
  · have hb : ((env.accept 0).newclient_fd == -1) = false := by simpa using ha
    simp only [hb, Bool.false_eq_true, if_false]
    refine keeps_bind (keeps_map_put_item _ fun m => hT.1 m _ ha) fun _ => ?_
    refine keeps_bind (keeps_of_same_table (setNonBlocking_table env _)) fun _ => ?_
    exact keeps_emit _

theorem map_get_item_cases (fd : Int) (st : PortState) :
    map_get_item fd st = -1
      ∨ ∃ (i : Nat) (it : fd_map_item), map_get_item fd st = (i : Int)
          ∧ st.fd_map[i]? = some it ∧ it.erased = false ∧ it.fd = fd := by
  by_cases h : map_get_item fd st = -1
  · exact Or.inl h
  · obtain ⟨j, it, h1, h2, h3, h4⟩ :=
      map_get_item_from_found fd st.fd_map 0 (map_get_item fd st) rfl h
    exact Or.inr ⟨j, it, by rw [h1]; congr 1; omega, h2, h3, h4⟩

theorem keeps_delete_items_from {T : List fd_map_item → Prop}
    (hdel : ∀ m i, i < m.length → T m → T (m.set i erased_item)) (fuel : Nat) (i : Int) :
    keeps T (delete_items_from fuel i) := by
  induction fuel generalizing i with
  | zero => exact keeps_pure _
  | succ fuel ih =>
    rw [delete_items_from]
    refine keeps_bind keeps_getState fun st => ?_
    refine keeps_ite _ ?_ (keeps_pure _)
    exact keeps_bind (keeps_map_delete_item _ hdel) fun _ => ih _

theorem delete_server_items_from_table (fuel : Nat) (i : Int) (st : PortState) :
    (delete_server_items_from fuel i st).2.fd_map = st.fd_map := by
  induction fuel generalizing i st with
  | zero => rfl
  | succ fuel ih =>
    rw [delete_server_items_from]
    simp only [bind_run, getState_run]
    split
    · have h1 := map_delete_item_server_table i st
      rw [bind_run]
      cases hr : map_delete_item_server i st with
      | mk o st1 =>
        rw [hr] at h1
        cases o with
        | ok a => exact (ih _ _).trans h1
        | fatal e => exact h1
    · rfl

theorem keeps_outgoing_send_ASP_SCTP_Close {T : List fd_map_item → Prop}
    (hdel : ∀ m i, i < m.length → T m → T (m.set i erased_item))
    (client_id : Option Int) : keeps T (outgoing_send_ASP_SCTP_Close client_id) := by
  unfold outgoing_send_ASP_SCTP_Close
  refine keeps_bind keeps_getState fun st => ?_
  refine keeps_ite _ ?_ (keeps_ite _ ?_ ?_)
  · cases client_id with
    | some local_fd =>
      exact keeps_bind (keeps_map_delete_item_fd _ hdel) fun _ =>
        keeps_of_same_table (map_delete_item_fd_server_table _)
    | none =>
      exact keeps_bind (keeps_delete_items_from hdel _ _) fun _ =>
        keeps_of_same_table (delete_server_items_from_table _ _)
  · cases client_id with
    | some local_fd => exact keeps_map_delete_item_fd _ hdel
    | none => exact keeps_delete_items_from hdel _ _
  · refine keeps_bind (keeps_ite _ (keeps_error _) (keeps_pure _)) fun _ => ?_
    exact keeps_bind (keeps_map_delete_item_fd _ hdel) fun _ =>
      keeps_modifyState _ fun _ => rfl

theorem keeps_Handle_Fd_Event_Writable {Q : fd_map_item → Prop} (hfresh : Q erased_item)
    (hconn : ∀ it, it.erased = false → Q it → Q { it with einprogress := false })
    (env : Env) (my_fd : Int) :
    keeps (all_slots fun _ => Q) (Handle_Fd_Event_Writable env my_fd) := by
  intro st h
  unfold Handle_Fd_Event_Writable
  simp only [bind_run, getState_run]
  rcases map_get_item_cases my_fd st with hnone | ⟨i, it, hidx, hit, her, hfd⟩
  · simpa [hnone] using h
  · have hne : ((i : Int) != -1) = true := by simp
    rw [hidx]
    cases hs : st.simple_mode
    · simp only [hne, Bool.not_false, Bool.and_self, if_true, bind_run, item_natCast, hit]
      by_cases hcond : (!it.erased && it.einprogress) = true
      · by_cases hret : (env.connect 0).ret = -1
        · by_cases herr : (env.connect 0).errno = EISCONN
          · simp only [hcond, if_true, emit_run,
              hret, beq_self_eq_true, herr, incoming_message, modify_item_natCast, hit,
              pure_run, bind_run]
            exact all_slots_set i _ h (hconn it her (h i it hit))
          · have hk := @keeps_map_delete_item_fd (all_slots fun _ => Q) it.fd
              (all_slots_erase fun _ => hfresh)
            simp only [hcond, if_true, emit_run,
              hret, beq_self_eq_true, beq_iff_eq, herr, if_false, incoming_message,
              modifyState_run, bind_run]
            exact hk _ h
        · simpa [hcond, hret] using h
      · simpa [hcond] using h
    · simpa using h

/-! ## The readable handler, part by part -/

theorem bind_assoc_run {α β γ : Type} (x : M α) (f : α → M β) (g : β → M γ) :
    (x >>= f) >>= g = x >>= fun a => f a >>= g := by
  funext st
  simp only [bind_run]
  cases x st with
  | mk o st1 => cases o <;> rfl

theorem case_SCTP_ASSOC_CHANGE_eq (env : Env) (i : Int) (sac_state : Int) :
    case_SCTP_ASSOC_CHANGE env i sac_state
      = remove_on_comm_lost sac_state >>= fun _ => emit_assoc_change env i sac_state := rfl

theorem case_WHOLE_MESSAGE_RECEIVED_eq (env : Env) (i : Int) :
    case_WHOLE_MESSAGE_RECEIVED env i
      = deliver_whole_message env i >>= fun _ => release_buffer i := by
  unfold case_WHOLE_MESSAGE_RECEIVED deliver_whole_message release_buffer
  rw [bind_assoc_run]

theorem receive_data_none (env : Env) (my_fd : Int) (st : PortState)
    (h : map_get_item my_fd st = -1) : receive_data env my_fd st = (Outcome.ok (), st) := by
  unfold receive_data
  simp [h]

/-- The state in which a complete message is delivered. -/
theorem receive_data_complete (env : Env) (st : PortState) (i : Nat) (it : fd_map_item)
    (hidx : map_get_item it.fd st = (i : Int)) (hit : st.fd_map[i]? = some it)
    (hpos : 0 < env.recvmsg.value) (heor : env.recvmsg.MSG_EOR = true) :
    call_getmsg env i st
        = (Outcome.ok return_value_t.WHOLE_MESSAGE_RECEIVED,
            { st with receiving_fd := it.fd
                      fd_map := st.fd_map.set i (recv_store it env.recvmsg)
                      trace := st.trace ++ calls_recv it })
      ∧ receive_data env it.fd st
        = case_WHOLE_MESSAGE_RECEIVED env i
            { st with receiving_fd := it.fd
                      fd_map := st.fd_map.set i (recv_store it env.recvmsg)
                      trace := st.trace ++ calls_recv it } := by
  have hi : i < st.fd_map.length := (List.getElem?_eq_some_iff.mp hit).1
  obtain ⟨st0, hst0, hidx0, hit0, hrun0⟩ := call_getmsg_run env st i it hidx hit
  obtain ⟨st1, hst1, hidx1, hit1, hrun⟩ := receive_data_to_getmsg env st i it hidx hit
  constructor
  · rw [hrun0, getmsg_pos _ _ hidx0 hit0 hpos]
    subst hst0
    simp [heor, recv_store, calls_recv]
  · rw [hrun, getmsg_pos _ _ hidx1 hit1 hpos]
    subst hst1
    simp [heor, recv_store, calls_recv]

theorem release_buffer_run {st : PortState} {i : Nat} {x : fd_map_item}
    (hx : st.fd_map[i]? = some x) :
    release_buffer (i : Int) st
      = (Outcome.ok (),
          { st with fd_map := st.fd_map.set i { x with buf := none }
                    trace := st.trace ++ if x.buf.isSome then [Effect.Free] else [] }) := by
  unfold release_buffer
  cases hb : x.buf.isSome <;> simp [hx, Free, hb]

theorem release_buffer_fatal {st : PortState} {i : Nat} (hx : st.fd_map[i]? = none) :
    release_buffer (i : Int) st = (Outcome.fatal Fatal.undefined_behaviour, st) := by
  unfold release_buffer
  simp [hx]

/-- The delivery of a complete notification: the decoder runs on the bytes received, in
the state in which the message in progress has been marked complete. -/
theorem deliver_notification_run {env : Env} {st : PortState} {i : Nat} {x : fd_map_item}
    (y : fd_map_item) (hy : y = { x with processing_message := false })
    (hx : st.fd_map[i]? = some x) (hn : env.recvmsg.MSG_NOTIFICATION = true) :
    deliver_whole_message env i st
      = match x.buf with
        | none =>
          (Outcome.fatal Fatal.undefined_behaviour,
            { st with fd_map := st.fd_map.set i y })
        | some bs => handle_event env i bs { st with fd_map := st.fd_map.set i y } := by
  have hi : i < st.fd_map.length := (List.getElem?_eq_some_iff.mp hx).1
  subst hy
  unfold deliver_whole_message
  cases hb : x.buf <;> simp [hx, hn, List.getElem?_set_self hi, hb]

theorem all_slots_set_other {P : Nat → fd_map_item → Prop} {m : List fd_map_item}
    {i : Nat} {x : fd_map_item} (h : ∀ j it, j ≠ i → m[j]? = some it → P j it)
    (hx : P i x) : all_slots P (m.set i x) := by
  intro j it hj
  by_cases hij : i = j
  · subst hij
    have hi : i < m.length := by
      have := (List.getElem?_eq_some_iff.mp hj).1
      simpa using this
    rw [List.getElem?_set_self hi] at hj
    cases hj
    exact hx
  · rw [List.getElem?_set_ne hij] at hj
    exact h j it (fun hji => hij hji.symm) hj

theorem stable_of_slot_invariant {Q : fd_map_item → Prop} {okfd : Int → Prop}
    (hQ : slot_invariant Q okfd) : stable (all_slots fun _ => Q) :=
  stable_all_slots (fun _ => hQ.fresh)
    fun _ it fd hfd her h => hQ.put it fd (hQ.descriptors fd hfd) her h

theorem stable_released {Q : fd_map_item → Prop} {okfd : Int → Prop}
    (hQ : slot_invariant Q okfd) (i : Nat) :
    stable (all_slots fun j x => if j = i then Q { x with buf := none } else Q x) := by
  apply stable_all_slots
  · intro j
    split
    · exact hQ.fresh
    · exact hQ.fresh
  · intro j it fd hfd her h
    split
    · rename_i hj
      simp only [hj, if_true] at h
      exact hQ.put { it with buf := none } fd (hQ.descriptors fd hfd) her h
    · rename_i hj
      simp only [hj, if_false] at h
      exact hQ.put it fd (hQ.descriptors fd hfd) her h

theorem receive_data_returning {Q : fd_map_item → Prop} {okfd : Int → Prop}
    (hQ : slot_invariant Q okfd) (env : Env) (my_fd : Int) (st st1 : PortState)
    (h : all_slots (fun _ => Q) st.fd_map)
    (hrun : receive_data env my_fd st = (Outcome.ok (), st1)) :
    all_slots (fun _ => Q) st1.fd_map := by
  rcases map_get_item_cases my_fd st with hnone | ⟨i, it, hidx, hit, her, hfd⟩
  · rw [receive_data_none env my_fd st hnone] at hrun
    cases hrun
    exact h
  · subst hfd
    have hi : i < st.fd_map.length := (List.getElem?_eq_some_iff.mp hit).1
    by_cases hv : env.recvmsg.value ≤ 0
    · rw [receive_data_eof env st i it hidx hit hv] at hrun
      have h0 : all_slots (fun _ => Q) (state_before_reconnect st i it).fd_map :=
        all_slots_set i erased_item h hQ.fresh
      cases hr : st.reconnect
      · simp only [hr, Bool.false_eq_true, if_false] at hrun
        cases hrun
        exact h0
      · simp only [hr, if_true] at hrun
        have hk := keeps_forced_reconnect (stable_of_slot_invariant hQ) env
          st.reconnect_max_attempts _ h0
        rw [hrun] at hk
        exact hk
    · have hpos : 0 < env.recvmsg.value := by omega
      cases heor : env.recvmsg.MSG_EOR
      · rw [receive_data_part env st i it hidx hit hpos heor] at hrun
        cases hrun
        exact all_slots_set i _ h (hQ.part it _ her (h i it hit))
      · cases hn : env.recvmsg.MSG_NOTIFICATION
        · rw [receive_data_whole env st i it hidx hit hpos heor hn] at hrun
          cases hrun
          exact all_slots_set i _ h (hQ.whole it _ her (h i it hit))
        · rw [(receive_data_complete env st i it hidx hit hpos heor).2,
            case_WHOLE_MESSAGE_RECEIVED_eq, bind_run,
            @deliver_notification_run env _ i (recv_store it env.recvmsg)
              (slot_complete it env.recvmsg) rfl (by simp [List.getElem?_set_self hi]) hn]
            at hrun
          cases hb : (recv_store it env.recvmsg).buf with
          | none => simp [hb] at hrun
          | some bs =>
            simp only [hb, List.set_set] at hrun
            have h2 : all_slots (fun j x => if j = i then Q { x with buf := none } else Q x)
                (st.fd_map.set i (slot_complete it env.recvmsg)) := by
              apply all_slots_set_other
              · intro j x hj hx
                simp only [hj, if_false]
                exact h j x hx
              · simp only [if_true]
                exact hQ.whole it _ her (h i it hit)
            have h3 := keeps_handle_event (stable_released hQ i) env i bs
              { st with receiving_fd := it.fd
                        fd_map := st.fd_map.set i (slot_complete it env.recvmsg)
                        trace := st.trace ++ calls_recv it } h2
            cases hd : handle_event env i bs
              { st with receiving_fd := it.fd
                        fd_map := st.fd_map.set i (slot_complete it env.recvmsg)
                        trace := st.trace ++ calls_recv it } with
            | mk o st4 =>
              rw [hd] at h3 hrun
              cases o with
              | fatal e => cases hrun
              | ok u =>
                simp only [] at hrun h3
                cases hx : st4.fd_map[i]? with
                | none =>
                  rw [release_buffer_fatal hx] at hrun
                  cases hrun
                | some x =>
                  rw [release_buffer_run hx] at hrun
                  cases hrun
                  apply all_slots_set_other
                  · intro j y hj hy
                    have := h3 j y hy
                    simpa [hj] using this
                  · have := h3 i x hx
                    simpa using this

/-! ## The state between two calls -/

theorem Handle_Fd_Event_Readable_returning {Q : fd_map_item → Prop} {okfd : Int → Prop}
    (hQ : slot_invariant Q okfd) (env : Env) (my_fd : Int) (st st1 : PortState)
    (h : all_slots (fun _ => Q) st.fd_map)
    (hrun : Handle_Fd_Event_Readable env my_fd st = (Outcome.ok (), st1)) :
    all_slots (fun _ => Q) st1.fd_map := by
  have h1 := keeps_accept_new_client (stable_of_slot_invariant hQ) env my_fd st h
  unfold Handle_Fd_Event_Readable at hrun
  rw [bind_run] at hrun
  cases ha : accept_new_client env my_fd st with
  | mk o st2 =>
    rw [ha] at h1 hrun
    cases o with
    | fatal e => cases hrun
    | ok u => exact receive_data_returning hQ env my_fd st2 st1 h1 hrun

/-- A call that returns leaves every slot in a state that satisfies `Q`, when `Q` is a
slot invariant and a `put` takes its fd from `okfd`. -/
theorem call_returning {Q : fd_map_item → Prop} {okfd : Int → Prop}
    (hQ : slot_invariant Q okfd) (c : Call) (hc : ∀ fd, c = Call.put fd → okfd fd)
    (st st1 : PortState) (h : all_slots (fun _ => Q) st.fd_map)
    (hrun : c.run st = (Outcome.ok (), st1)) : all_slots (fun _ => Q) st1.fd_map := by
  have hdel : ∀ (m : List fd_map_item) (i : Nat), i < m.length →
      all_slots (fun _ => Q) m → all_slots (fun _ => Q) (m.set i erased_item) :=
    all_slots_erase fun _ => hQ.fresh
  cases c with
  | put fd =>
    have hk := @keeps_map_put_item (all_slots fun _ => Q) fd
      (fun _ hm => all_slots_table_put fd (fun _ => hQ.fresh)
        (fun _ it her hq => hQ.put it fd (hc fd rfl) her hq) hm) st h
    rw [show map_put_item fd st = (Outcome.ok (), st1) from hrun] at hk
    exact hk
  | remove index =>
    have hk := keeps_map_delete_item index hdel st h
    rw [show map_delete_item index st = (Outcome.ok (), st1) from hrun] at hk
    exact hk
  | remove_by_fd fd =>
    have hk := keeps_map_delete_item_fd fd hdel st h
    rw [show map_delete_item_fd fd st = (Outcome.ok (), st1) from hrun] at hk
    exact hk
  | close_request client_id =>
    have hk := keeps_outgoing_send_ASP_SCTP_Close hdel client_id st h
    rw [show outgoing_send_ASP_SCTP_Close client_id st = (Outcome.ok (), st1) from hrun]
      at hk
    exact hk
  | readable env my_fd => exact Handle_Fd_Event_Readable_returning hQ env my_fd st st1 h hrun
  | writable env my_fd =>
    have hk := keeps_Handle_Fd_Event_Writable hQ.fresh hQ.connected env my_fd st h
    rw [show Handle_Fd_Event_Writable env my_fd st = (Outcome.ok (), st1) from hrun] at hk
    exact hk

theorem run_calls_invariant {Q : fd_map_item → Prop} {okfd : Int → Prop}
    (hQ : slot_invariant Q okfd) (calls : List Call)
    (hc : ∀ fd, Call.put fd ∈ calls → okfd fd) (st st1 : PortState)
    (h : all_slots (fun _ => Q) st.fd_map) (hrun : run_calls calls st = some st1) :
    all_slots (fun _ => Q) st1.fd_map := by
  induction calls generalizing st with
  | nil =>
    simp only [run_calls, Option.some.injEq] at hrun
    subst hrun
    exact h
  | cons c cs ih =>
    rw [run_calls] at hrun
    cases hr : c.run st with
    | mk o st2 =>
      rw [hr] at hrun
      cases o with
      | fatal e => cases hrun
      | ok u =>
        exact ih (fun fd hfd => hc fd (List.mem_cons_of_mem _ hfd)) st2
          (call_returning hQ c (fun fd hfd => hc fd (by rw [hfd]; exact List.mem_cons_self _ _))
            st st2 h hr) hrun

theorem all_slots_nil (P : Nat → fd_map_item → Prop) : all_slots P [] := by
  intro j it hj
  simp at hj

theorem slot_prepared_buf (it : fd_map_item) (h : buffer_iff_processing it = true) :
    (slot_prepared it).buf.isSome = true := by
  unfold slot_prepared
  simp only [buffer_iff_processing, beq_iff_eq] at h
  cases hpm : it.processing_message
  · simp
  · simpa [hpm] using h

theorem recv_grow_buf (it : fd_map_item) (h : it.buf.isSome = true) :
    (recv_grow it).buf.isSome = true := by
  unfold recv_grow
  split
  · rfl
  · exact h

/-- The receive buffer is non-null exactly when a message is in progress: a slot
invariant, whatever fd a `put` is given. -/
theorem buffer_iff_processing_invariant :
    slot_invariant (fun it => buffer_iff_processing it = true) fun _ => True := by
  refine ⟨fun _ _ => trivial, rfl, fun it fd _ _ h => h, ?_, ?_, fun it _ h => h⟩
  · intro it r _ h
    have h1 : (recv_store it r).buf.isSome = true := by
      have := slot_prepared_buf it h
      simpa [recv_store, slot_received] using this
    have h2 := recv_grow_buf _ h1
    simpa [buffer_iff_processing, slot_after_part] using h2
  · intro it r _ _
    simp [buffer_iff_processing, slot_after_whole]

/-- An erased slot holds the values `map_delete_item` gives it: a slot invariant, whatever
fd a `put` is given. -/
theorem erased_reset_invariant :
    slot_invariant (fun it => it.erased = true → it = erased_item) fun _ => True := by
  refine ⟨fun _ _ => trivial, fun _ => rfl, ?_, ?_, ?_, ?_⟩
  · intro it fd _ _ _ h
    simp at h
  · intro it r her _ h
    rw [slot_after_part_erased, her] at h
    cases h
  · intro it r her _ h
    have : (slot_after_whole it r).erased = it.erased := slot_prepared_erased it
    rw [this, her] at h
    cases h
  · intro it her _ h
    simp only [her] at h
    cases h

/-- C11: in every state reached from an empty connection table by `put`, `remove`,
`remove_by_fd`, close requests and calls of the readable and of the writable handler, each
of which returned, every slot of the table has a non-null receive buffer if and only if
its `processing_message` flag is set. -/
theorem C11_buffer_iff_processing (calls : List Call) (st0 st : PortState)
    (h0 : st0.fd_map = []) (hrun : run_calls calls st0 = some st) :
    ∀ it ∈ st.fd_map, (it.buf ≠ none ↔ it.processing_message = true) := by
  have h := run_calls_invariant buffer_iff_processing_invariant calls (fun _ _ => trivial)
    st0 st (by rw [h0]; exact all_slots_nil _) hrun
  intro it hit
  obtain ⟨j, hj⟩ := List.getElem?_of_mem hit
  have := h j it hj
  simp only [buffer_iff_processing, beq_iff_eq] at this
  rw [← this, Option.isSome_iff_ne_none]
theorem example_calls_run : run_calls example_calls initial_state = some example_between :=
  rfl

theorem C11_buffer_iff_processing_witness :
    initial_state.fd_map = []
      ∧ run_calls example_calls initial_state = some example_between
      ∧ ∀ it ∈ example_between.fd_map, (it.buf ≠ none ↔ it.processing_message = true) :=
  ⟨rfl, rfl, C11_buffer_iff_processing example_calls initial_state example_between rfl rfl⟩

/-! ## The table operations on a reachable table -/

theorem first_erased_min (m : List fd_map_item) (j : Nat) (hj : j < first_erased m) :
    ∃ it, m[j]? = some it ∧ it.erased = false := by
  induction m generalizing j with
  | nil => simp [first_erased] at hj
  | cons x xs ih =>
    simp only [first_erased] at hj
    split at hj
    · rename_i hx
      cases j with
      | zero => exact ⟨x, by simp, by simpa using hx⟩
      | succ n =>
        obtain ⟨it, h1, h2⟩ := ih n (by omega)
        exact ⟨it, by simpa using h1, h2⟩
    · omega

/-- In a state between two calls every erased slot holds the values `map_delete_item`
gives it. -/
theorem erased_reset_between (calls : List Call) (st0 st : PortState)
    (h0 : st0.fd_map = []) (hrun : run_calls calls st0 = some st) (j : Nat)
    (it : fd_map_item) (hit : st.fd_map[j]? = some it) (her : it.erased = true) :
    it = erased_item :=
  run_calls_invariant erased_reset_invariant calls (fun _ _ => trivial) st0 st
    (by rw [h0]; exact all_slots_nil _) hrun j it hit her

/-- C12: on every connection table reached from the empty table by calls that returned,
`map_put_item(fd)` returns and stores the record at the index `i` of the first erased
slot: every slot below `i` is live, and either slot `i` is erased and the table keeps its
length, or `i` is the old length and the table has grown by exactly 10 slots.  Slot `i`
is then live and keyed by `fd`, with `einprogress` and `processing_message` false, a null
buffer, `buflen` and `nr` zero; every other slot the table had is unchanged, the slots
added besides `i` are erased, and nothing else in the port changes. -/
theorem C12_put_postcondition (calls : List Call) (st0 st : PortState) (fd : Int)
    (h0 : st0.fd_map = []) (hrun : run_calls calls st0 = some st) :
    ∃ (st1 : PortState) (i : Nat),
      map_put_item fd st = (Outcome.ok (), st1)
      ∧ (∀ j, j < i → ∃ it, st.fd_map[j]? = some it ∧ it.erased = false)
      ∧ ((∃ it, st.fd_map[i]? = some it ∧ it.erased = true
            ∧ st1.fd_map.length = st.fd_map.length)
          ∨ (i = st.fd_map.length ∧ st1.fd_map.length = st.fd_map.length + 10))
      ∧ st1.fd_map[i]?
          = some { fd := fd, erased := false, processing_message := false,
                   einprogress := false, buf := none, buflen := 0, nr := 0,
                   sin := sockaddr_storage.zero, saLen := 0 }
      ∧ (∀ j, j < st.fd_map.length → j ≠ i → st1.fd_map[j]? = st.fd_map[j]?)
      ∧ (∀ j, st.fd_map.length ≤ j → j < st1.fd_map.length → j ≠ i →
          st1.fd_map[j]? = some erased_item)
      ∧ st1 = { st with fd_map := st1.fd_map } := by
  have hinv := erased_reset_between calls st0 st h0 hrun
  have hle := first_erased_le st.fd_map
  have hlt := first_erased_lt_grown st.fd_map
  refine ⟨{ st with fd_map := table_put fd st.fd_map }, first_erased st.fd_map,
    map_put_item_run fd st, first_erased_min st.fd_map, ?_, ?_, ?_, ?_, rfl⟩
  · by_cases h : first_erased st.fd_map = st.fd_map.length
    · right
      refine ⟨h, ?_⟩
      simp [table_put, grown, h, MAP_LENGTH]
    · left
      obtain ⟨it, h1, h2⟩ := first_erased_spec st.fd_map (by omega)
      refine ⟨it, h1, h2, ?_⟩
      simp [table_put, grown, h]
  · have hslot : (grown st.fd_map)[first_erased st.fd_map]? = some erased_item := by
      by_cases h : first_erased st.fd_map = st.fd_map.length
      · rw [grown, if_pos h, h, List.getElem?_append_right (Nat.le_refl _)]
        simp [MAP_LENGTH]
      · obtain ⟨it, h1, h2⟩ := first_erased_spec st.fd_map (by omega)
        rw [grown, if_neg h, h1, hinv _ it h1 h2]
    simp only [table_put]
    rw [List.getElem?_set_self hlt, List.getD_eq_getElem?_getD, hslot]
    rfl
  · intro j hj hji
    simp only [table_put]
    rw [List.getElem?_set_ne (fun h => hji h.symm)]
    unfold grown
    split
    · rw [List.getElem?_append_left hj]
    · rfl
  · intro j hj1 hj2 hji
    simp only [table_put] at hj2 ⊢
    rw [List.length_set] at hj2
    rw [List.getElem?_set_ne (fun h => hji h.symm)]
    unfold grown at hj2 ⊢
    split
    · rename_i h
      simp only [h, if_true, List.length_append, List.length_replicate] at hj2
      rw [List.getElem?_append_right hj1, List.getElem?_replicate]
      simp only [ite_eq_left_iff, not_lt]
      intro hc
      omega
    · rename_i h
      simp only [h, if_false] at hj2
      omega

theorem C12_put_postcondition_witness :
    initial_state.fd_map = [] ∧ run_calls example_calls initial_state = some example_between
      ∧ ∃ (st1 : PortState) (i : Nat),
        map_put_item 8 example_between = (Outcome.ok (), st1)
        ∧ (∀ j, j < i → ∃ it, example_between.fd_map[j]? = some it ∧ it.erased = false)
        ∧ ((∃ it, example_between.fd_map[i]? = some it ∧ it.erased = true
              ∧ st1.fd_map.length = example_between.fd_map.length)
            ∨ (i = example_between.fd_map.length
                ∧ st1.fd_map.length = example_between.fd_map.length + 10))
        ∧ st1.fd_map[i]?
            = some { fd := 8, erased := false, processing_message := false,
                     einprogress := false, buf := none, buflen := 0, nr := 0,
                     sin := sockaddr_storage.zero, saLen := 0 }
        ∧ (∀ j, j < example_between.fd_map.length → j ≠ i →
            st1.fd_map[j]? = example_between.fd_map[j]?)
        ∧ (∀ j, example_between.fd_map.length ≤ j → j < st1.fd_map.length → j ≠ i →
            st1.fd_map[j]? = some erased_item)
        ∧ st1 = { example_between with fd_map := st1.fd_map } :=
  ⟨rfl, rfl, C12_put_postcondition example_calls initial_state example_between 8 rfl rfl⟩

/-- C14: `map_delete_item(index)` ends in the fatal error if and only if `index < 0` or
`index >= list_len`, and then leaves the port as it is; for every index in range it
returns; and on a slot that is erased, in a table reached from the empty table by calls
that returned, it returns and leaves the port as it is: no `close`, no other call, the
table unchanged. -/
theorem C14_remove_fatal_iff_out_of_range (index : Int) (st : PortState) :
    ((∃ e, (map_delete_item index st).1 = Outcome.fatal e)
        ↔ (index < 0 ∨ (st.fd_map.length : Int) ≤ index))
      ∧ ((index < 0 ∨ (st.fd_map.length : Int) ≤ index) →
          map_delete_item index st = (Outcome.fatal Fatal.index_out_of_range, st))
      ∧ ((0 ≤ index ∧ index < (st.fd_map.length : Int)) →
          (map_delete_item index st).1 = Outcome.ok ())
      ∧ ∀ (calls : List Call) (st0 : PortState), st0.fd_map = [] →
          run_calls calls st0 = some st →
          ∀ it, 0 ≤ index → st.fd_map[index.toNat]? = some it → it.erased = true →
            map_delete_item index st = (Outcome.ok (), st) := by
  have hfatal : (index < 0 ∨ (st.fd_map.length : Int) ≤ index) →
      map_delete_item index st = (Outcome.fatal Fatal.index_out_of_range, st) :=
    fun h => map_delete_item_fatal (h.symm)
  have hok : (0 ≤ index ∧ index < (st.fd_map.length : Int)) →
      (map_delete_item index st).1 = Outcome.ok () := by
    intro ⟨h1, h2⟩
    obtain ⟨i, rfl⟩ := Int.eq_ofNat_of_zero_le h1
    have hi : i < st.fd_map.length := by omega
    rw [map_delete_item_run (List.getElem?_eq_getElem hi)]
  refine ⟨⟨?_, fun h => ⟨_, by rw [hfatal h]⟩⟩, hfatal, hok, ?_⟩
  · intro ⟨e, he⟩
    by_contra hc
    rw [hok (by omega)] at he
    cases he
  · intro calls st0 h0 hrun it h1 hit her
    obtain ⟨i, rfl⟩ := Int.eq_ofNat_of_zero_le h1
    simp only [Int.toNat_ofNat] at hit
    have := erased_reset_between calls st0 st h0 hrun i it hit her
    subst this
    rw [map_delete_item_run hit, set_eq_self hit]
    simp [delete_calls, erased_item]

theorem C14_remove_fatal_iff_out_of_range_witness :
    map_delete_item 10 example_between
        = (Outcome.fatal Fatal.index_out_of_range, example_between)
      ∧ (map_delete_item 0 example_between).1 = Outcome.ok ()
      ∧ map_delete_item 1 example_between = (Outcome.ok (), example_between) :=
  ⟨(C14_remove_fatal_iff_out_of_range 10 example_between).2.1 (Or.inr (by decide)),
    (C14_remove_fatal_iff_out_of_range 0 example_between).2.2.1 ⟨by decide, by decide⟩,
    (C14_remove_fatal_iff_out_of_range 1 example_between).2.2.2 example_calls initial_state
      rfl rfl erased_item (by decide) rfl rfl⟩

/-! ## The notification decoder -/

theorem first_with_fd_some (fd : Int) (m : List fd_map_item) (k i : Nat)
    (h : first_with_fd fd m k = some i) :
    k ≤ i ∧ ∃ it, m[i - k]? = some it ∧ it.fd = fd := by
  induction m generalizing k with
  | nil => simp [first_with_fd] at h
  | cons x xs ih =>
    unfold first_with_fd at h
    split at h
    · rename_i hx
      simp only [Option.some.injEq] at h
      subst h
      exact ⟨Nat.le_refl _, x, by simp, by simpa using hx⟩
    · obtain ⟨h1, it, h2, h3⟩ := ih (k + 1) h
      refine ⟨by omega, it, ?_, h3⟩
      rw [show i - k = (i - (k + 1)) + 1 by omega]
      simpa using h2

theorem first_with_fd_none (fd : Int) (m : List fd_map_item) (k : Nat)
    (h : first_with_fd fd m k = none) : live_count fd m = 0 := by
  induction m generalizing k with
  | nil => rfl
  | cons x xs ih =>
    unfold first_with_fd at h
    split at h
    · cases h
    · rename_i hx
      have hx1 : (x.fd == fd) = false := by simpa using hx
      simp [live_count, List.countP_cons, live_with_fd, hx1]
      have := ih (k + 1) h
      simpa [live_count, live_with_fd] using this

/-- What `map_delete_item_fd` does, in every state: it returns, changes nothing but the
table and the trace, and the calls it adds create no socket and emit no event. -/
theorem map_delete_item_fd_run (fd : Int) (st : PortState) :
    ∃ calls,
      map_delete_item_fd fd st
        = (Outcome.ok (),
            { st with fd_map := table_remove_fd fd st.fd_map, trace := st.trace ++ calls })
      ∧ events_of calls = [] ∧ socket_count calls = 0 ∧ connect_count calls = 0
      ∧ sleeps calls = [] := by
  unfold map_delete_item_fd table_remove_fd
  by_cases hfd : fd = -1
  · exact ⟨[], by simp [hfd], rfl, rfl, rfl, rfl⟩
  · have hne : (fd != -1) = true := by simpa using hfd
    simp only [hne, if_true, bind_run, getState_run, hfd, if_false]
    cases hw : first_with_fd fd st.fd_map 0 with
    | none => exact ⟨[], by simp, rfl, rfl, rfl, rfl⟩
    | some i =>
      obtain ⟨-, it, hit, -⟩ := first_with_fd_some fd st.fd_map 0 i hw
      simp only [Nat.sub_zero] at hit
      refine ⟨delete_calls it.fd it.buf, by simp [map_delete_item_run hit], ?_⟩
      unfold delete_calls
      split <;> split <;> exact ⟨rfl, rfl, rfl, rfl⟩

/-- The calls `map_delete_item_server` makes for a slot with the given `fd`. -/
theorem map_delete_item_server_run {st : PortState} {i : Nat} {s : fd_map_server_item}
    (h : st.fd_map_server[i]? = some s) :
    map_delete_item_server (i : Int) st
      = (Outcome.ok (),
          { st with fd_map_server := st.fd_map_server.set i erased_server_item
                    trace := st.trace
                      ++ if s.fd != -1 then [Effect.close s.fd, Effect.Handler_Remove_Fd s.fd]
                         else [] }) := by
  have hi : i < st.fd_map_server.length := (List.getElem?_eq_some_iff.mp h).1
  unfold map_delete_item_server
  have hr : ¬ ((st.fd_map_server.length : Int) ≤ i) := by omega
  simp only [bind_run, getState_run, ge_iff_le, Bool.or_eq_true, decide_eq_true_eq, hr,
    false_or, Int.natCast_nonneg, not_lt.mpr, if_false, pure_run, Int.toNat_ofNat, h]
  cases hfd : s.fd != -1 <;> simp [hfd]

theorem first_with_fd_server_some (fd : Int) (m : List fd_map_server_item) (k i : Nat)
    (h : first_with_fd_server fd m k = some i) :
    k ≤ i ∧ ∃ s, m[i - k]? = some s ∧ s.fd = fd := by
  induction m generalizing k with
  | nil => simp [first_with_fd_server] at h
  | cons x xs ih =>
    unfold first_with_fd_server at h
    split at h
    · rename_i hx
      simp only [Option.some.injEq] at h
      subst h
      exact ⟨Nat.le_refl _, x, by simp, by simpa using hx⟩
    · obtain ⟨h1, s, h2, h3⟩ := ih (k + 1) h
      refine ⟨by omega, s, ?_, h3⟩
      rw [show i - k = (i - (k + 1)) + 1 by omega]
      simpa using h2

/-- What `map_delete_item_fd_server` does, in every state: it returns, changes nothing
but the listener table and the trace, and the calls it adds create no socket and emit no
event. -/
theorem map_delete_item_fd_server_run (fd : Int) (st : PortState) :
    ∃ calls,
      map_delete_item_fd_server fd st
        = (Outcome.ok (),
            { st with fd_map_server := server_table_remove_fd fd st.fd_map_server
                      trace := st.trace ++ calls })
      ∧ events_of calls = [] ∧ socket_count calls = 0 ∧ connect_count calls = 0
      ∧ sleeps calls = [] := by
  unfold map_delete_item_fd_server server_table_remove_fd
  by_cases hfd : fd = -1
  · exact ⟨[], by simp [hfd], rfl, rfl, rfl, rfl⟩
  · have hne : (fd != -1) = true := by simpa using hfd
    simp only [hne, if_true, bind_run, getState_run, hfd, if_false]
    cases hw : first_with_fd_server fd st.fd_map_server 0 with
    | none => exact ⟨[], by simp, rfl, rfl, rfl, rfl⟩
    | some i =>
      obtain ⟨-, s, hs, -⟩ := first_with_fd_server_some fd st.fd_map_server 0 i hw
      simp only [Nat.sub_zero] at hs
      refine ⟨if s.fd != -1 then [Effect.close s.fd, Effect.Handler_Remove_Fd s.fd] else [],
        by simp [map_delete_item_server_run hs], ?_⟩
      split <;> exact ⟨rfl, rfl, rfl, rfl⟩

theorem live_count_pos_of_live (fd : Int) (m : List fd_map_item) (j : Nat)
    (it : fd_map_item) (hit : m[j]? = some it) (hlive : live_with_fd fd it = true) :
    0 < live_count fd m := by
  unfold live_count
  rw [List.countP_pos_iff]
  exact ⟨it, List.getElem?_mem hit, hlive⟩

/-- With at most one live slot per fd and erased slots that hold fd `-1`, the slot
`map_delete_item_fd` erases for a descriptor is the live slot keyed by it. -/
theorem first_with_fd_of_unique (fd : Int) (m : List fd_map_item) (k j : Nat)
    (it : fd_map_item) (hit : m[j]? = some it) (hlive : it.erased = false)
    (hfd : it.fd = fd) (hf : fd ≠ -1) (huniq : live_count fd m ≤ 1)
    (her : ∀ x ∈ m, x.erased = true → x.fd = -1) :
    first_with_fd fd m k = some (k + j) := by
  induction m generalizing k j with
  | nil => simp at hit
  | cons x xs ih =>
    unfold first_with_fd
    cases j with
    | zero =>
      simp only [List.getElem?_cons_zero, Option.some.injEq] at hit
      subst hit
      simp [hfd]
    | succ n =>
      simp only [List.getElem?_cons_succ] at hit
      have hpos : 0 < live_count fd xs :=
        live_count_pos_of_live fd xs n it hit (by simp [live_with_fd, hlive, hfd])
      have hx : (x.fd == fd) = false := by
        cases hxe : x.erased
        · cases hc : x.fd == fd
          · rfl
          · have hl : live_with_fd fd x = true := by simp [live_with_fd, hxe, hc]
            simp only [live_count, List.countP_cons, hl, if_true] at huniq
            simp only [live_count] at hpos
            omega
        · have := her x (List.mem_cons_self _ _) hxe
          simp only [beq_eq_false_iff_ne, ne_eq]
          intro hc
          exact hf (hc ▸ this)
      have huniq1 : live_count fd xs ≤ 1 := by
        simp only [live_count, List.countP_cons] at huniq
        simp only [live_count]
        omega
      have her1 : ∀ y ∈ xs, y.erased = true → y.fd = -1 :=
        fun y hy => her y (List.mem_cons_of_mem _ hy)
      simp only [hx, Bool.false_eq_true, if_false, ih (k + 1) n hit huniq1 her1]
      congr 1
      omega

/-- What lines 1189-1201 of `handle_event` do, in every state: they return, change
nothing but the two tables, the member `fd` and the trace, and the calls they add
create no socket and emit no event; for a state other than `SCTP_COMM_LOST` they do
nothing. -/
theorem remove_on_comm_lost_run (sac_state : Int) (st : PortState) :
    ∃ calls fd1,
      remove_on_comm_lost sac_state st
        = (Outcome.ok (),
            { st with
              fd := fd1
              fd_map :=
                if sac_state = SCTP_COMM_LOST then table_remove_fd st.receiving_fd st.fd_map
                else st.fd_map
              fd_map_server :=
                if sac_state = SCTP_COMM_LOST ∧ st.simple_mode = false then
                  server_table_remove_fd st.receiving_fd st.fd_map_server
                else st.fd_map_server
              trace := st.trace ++ calls })
      ∧ events_of calls = [] ∧ socket_count calls = 0 ∧ connect_count calls = 0
      ∧ sleeps calls = []
      ∧ (sac_state ≠ SCTP_COMM_LOST →
          remove_on_comm_lost sac_state st = (Outcome.ok (), st)) := by
  unfold remove_on_comm_lost
  by_cases hs : sac_state = SCTP_COMM_LOST
  · subst hs
    simp only [beq_self_eq_true, if_true, bind_run, getState_run, true_and]
    cases hm : st.simple_mode
    · obtain ⟨c1, h1, e1, s1, k1, z1⟩ := map_delete_item_fd_run st.receiving_fd st
      obtain ⟨c2, h2, e2, s2, k2, z2⟩ := map_delete_item_fd_server_run st.receiving_fd
        { st with fd_map := table_remove_fd st.receiving_fd st.fd_map
                  trace := st.trace ++ c1 }
      refine ⟨c1 ++ c2, st.fd, ?_, ?_, ?_, ?_, ?_, fun h => absurd rfl h⟩
      · simp only [Bool.false_eq_true, if_false, bind_run]
        rw [h1]
        simp only []
        rw [h2]
        simp [hm]
      · rw [events_of_append, e1, e2]; rfl
      · rw [socket_count_append, s1, s2]
      · rw [connect_count_append, k1, k2]
      · rw [sleeps_append, z1, z2]; rfl
    · cases hv : st.server_mode
      · obtain ⟨c1, h1, e1, s1, k1, z1⟩ := map_delete_item_fd_run st.receiving_fd
          { st with fd := -1 }
        refine ⟨c1, -1, ?_, e1, s1, k1, z1, fun h => absurd rfl h⟩
        simp only [if_true, Bool.not_false, bind_run, modifyState_run]
        rw [h1]
        simp [hm, hv]
      · obtain ⟨c1, h1, e1, s1, k1, z1⟩ := map_delete_item_fd_run st.receiving_fd st
        refine ⟨c1, st.fd, ?_, e1, s1, k1, z1, fun h => absurd rfl h⟩
        simp only [if_true, Bool.not_true, Bool.false_eq_true, if_false, bind_run, pure_run]
        rw [h1]
        simp [hm, hv]
  · have hb : (sac_state == SCTP_COMM_LOST) = false := by simpa using hs
    exact ⟨[], st.fd, by simp [hb, hs], rfl, rfl, rfl, rfl, fun _ => by simp [hb]⟩

theorem socket_count_singleton_event (m : Message) :
    socket_count [Effect.incoming_message m] = 0 ∧ connect_count [Effect.incoming_message m] = 0
      ∧ sleeps [Effect.incoming_message m] = []
      ∧ events_of [Effect.incoming_message m] = [m] :=
  ⟨rfl, rfl, rfl, rfl⟩

theorem reread_sac_state_run (i : Nat) (sac_state : Int) (st : PortState) :
    reread_sac_state (i : Int) sac_state st
      = match st.fd_map[i]? with
        | some it =>
          if it.buf.isSome then (Outcome.ok sac_state, st)
          else (Outcome.fatal Fatal.undefined_behaviour, st)
        | none => (Outcome.fatal Fatal.undefined_behaviour, st) := by
  unfold reread_sac_state
  simp only [bind_run, item_natCast]
  cases hit : st.fd_map[i]? with
  | none => rfl
  | some it => cases hb : it.buf <;> simp [hb, error, pure_run]

/-- Line 1209 when the slot has released the buffer the decoder was given: the read of
`sac->sac_state` is a read of freed memory. -/
theorem reconnect_on_reread_freed (env : Env) (i : Nat) (sac_state : Int) (st : PortState)
    (it : fd_map_item) (hit : st.fd_map[i]? = some it) (hb : it.buf = none) :
    reconnect_on_reread env (i : Int) sac_state st
      = (Outcome.fatal Fatal.undefined_behaviour, st) := by
  unfold reconnect_on_reread
  simp [bind_run, getState_run, reread_sac_state_run, hit, hb]

/-- Line 1209 when the slot still holds the buffer the decoder was given. -/
theorem reconnect_on_reread_held (env : Env) (i : Nat) (sac_state : Int) (st : PortState)
    (it : fd_map_item) (bs : List Nat) (hit : st.fd_map[i]? = some it)
    (hb : it.buf = some bs) :
    reconnect_on_reread env (i : Int) sac_state st
      = if sac_state = SCTP_COMM_LOST then forced_reconnect env st.reconnect_max_attempts st
        else (Outcome.ok (), st) := by
  unfold reconnect_on_reread
  by_cases hs : sac_state = SCTP_COMM_LOST
  · simp [bind_run, getState_run, reread_sac_state_run, hit, hb, hs]
  · have hs2 : (sac_state == SCTP_COMM_LOST) = false := by simpa using hs
    simp [bind_run, getState_run, reread_sac_state_run, hit, hb, hs, hs2, pure_run]

/-- Whatever the read at line 1209 finds, what follows it only adds calls to the trace,
none of them `incoming_message`, and changes neither the trace nor the tables unless it
reconnects. -/
theorem reconnect_on_reread_trace (env : Env) (i : Int) (sac_state : Int)
    (st : PortState) :
    ∃ rest, (reconnect_on_reread env i sac_state st).2.trace = st.trace ++ rest
      ∧ events_of rest = []
      ∧ (sac_state ≠ SCTP_COMM_LOST → (reconnect_on_reread env i sac_state st).2 = st) := by
  unfold reconnect_on_reread
  simp only [bind_run, getState_run]
  have hst := reread_sac_state_state i sac_state st
  cases hr : reread_sac_state i sac_state st with
  | mk o st1 =>
    rw [hr] at hst
    simp only [] at hst
    subst hst
    cases o with
    | fatal e => exact ⟨[], by simp, rfl, fun _ => rfl⟩
    | ok v =>
      have hv : v = sac_state := by
        unfold reread_sac_state item at hr
        simp only [bind_run] at hr
        by_cases hneg : i < 0
        · simp [hneg] at hr
        · simp only [hneg, if_false] at hr
          cases hit : st1.fd_map[i.toNat]? with
          | none => simp [hit] at hr
          | some it =>
            cases hb : it.buf with
            | none => simp [hit, hb, error] at hr
            | some bs =>
              simp only [hit, hb, pure_run, Prod.mk.injEq, Outcome.ok.injEq, and_true] at hr
              exact hr.symm
      subst hv
      by_cases hs : v = SCTP_COMM_LOST
      · obtain ⟨rest, h1, h2⟩ := forced_reconnect_trace env st1.reconnect_max_attempts st1
        refine ⟨rest, ?_, h2, fun h => absurd hs h⟩
        simpa [hs] using h1
      · have hs2 : (v == SCTP_COMM_LOST) = false := by simpa using hs
        exact ⟨[], by simp [hs2, pure_run], rfl, fun _ => by simp [hs2, pure_run]⟩

/-- What lines 1202-1210 of `handle_event` do: the event is appended to the trace when
association-change events are subscribed, and then, in simple mode with `reconnect` set,
line 1209 reads `sac->sac_state` again. -/
theorem emit_assoc_change_run (env : Env) (i : Int) (sac_state : Int) (st : PortState) :
    emit_assoc_change env i sac_state st
      = if (st.simple_mode && st.reconnect) = true then
          reconnect_on_reread env i sac_state
            { st with trace := st.trace
                ++ if st.events.sctp_association_event then
                     [Effect.incoming_message
                       (Message.ASP_SCTP_ASSOC_CHANGE st.receiving_fd
                         (sac_state_ttcn sac_state))]
                   else [] }
        else
          (Outcome.ok (),
            { st with trace := st.trace
                ++ if st.events.sctp_association_event then
                     [Effect.incoming_message
                       (Message.ASP_SCTP_ASSOC_CHANGE st.receiving_fd
                         (sac_state_ttcn sac_state))]
                   else [] }) := by
  unfold emit_assoc_change reconnect_on_reread
  obtain ⟨sm, rc, rma, sv, sb, lip, lp, pip, pp, im, ⟨e1, e2, e3, e4, e5, e6, e7, e8⟩, fd0,
    rfd, m, ms, tr, lpp, pipp, ppp⟩ := st
  cases e2 <;> cases sm <;> cases rc <;> simp [incoming_message, bind_run, getState_run]

theorem counts_of_events (l : List Message) :
    socket_count (l.map Effect.incoming_message) = 0
      ∧ connect_count (l.map Effect.incoming_message) = 0
      ∧ sleeps (l.map Effect.incoming_message) = []
      ∧ events_of (l.map Effect.incoming_message) = l := by
  induction l with
  | nil => exact ⟨rfl, rfl, rfl, rfl⟩
  | cons a l ih =>
    obtain ⟨h1, h2, h3, h4⟩ := ih
    refine ⟨?_, ?_, ?_, ?_⟩
    · simp [socket_count]
    · simp [connect_count]
    · simp [sleeps]
    · simpa [events_of] using h4

/-- An emission under a subscription flag. -/
theorem flag_event_run (flag : Bool) (ev : Message) (st : PortState) :
    (if flag = true then incoming_message ev else pure PUnit.unit) st
      = (Outcome.ok (),
          { st with fd := st.fd, fd_map := st.fd_map, fd_map_server := st.fd_map_server,
                    trace := st.trace
                      ++ List.map Effect.incoming_message (if flag = true then [ev] else []) }) := by
  cases flag <;> simp [incoming_message]

/-- What the decoder does, in every state and for every notification: up to line 1209 it
returns, changes nothing but the two tables, the member `fd` and the trace, creates no
socket, and emits exactly `decoded_events`; then, for an association change in simple
mode with `reconnect` set, it reads `sac->sac_state` again and reconnects on
`SCTP_COMM_LOST`. -/
theorem handle_event_run (env : Env) (i : Int) (buf : List Nat) (st : PortState) :
    ∃ calls fd1 m ms,
      socket_count calls = 0 ∧ connect_count calls = 0 ∧ sleeps calls = []
      ∧ events_of calls = decoded_events st (env.sn buf)
      ∧ handle_event env i buf st
        = (if reread_due st (env.sn buf) = true then
            reconnect_on_reread env i (env.sn buf).sac_state
              { st with fd := fd1, fd_map := m, fd_map_server := ms,
                        trace := st.trace ++ calls }
          else
            (Outcome.ok (),
              { st with fd := fd1, fd_map := m, fd_map_server := ms,
                        trace := st.trace ++ calls }))
      ∧ (¬ ((env.sn buf).sn_type = SCTP_ASSOC_CHANGE
            ∧ (env.sn buf).sac_state = SCTP_COMM_LOST) →
          fd1 = st.fd ∧ m = st.fd_map ∧ ms = st.fd_map_server)
      ∧ ((env.sn buf).sn_type = SCTP_ASSOC_CHANGE
            ∧ (env.sn buf).sac_state = SCTP_COMM_LOST →
          m = table_remove_fd st.receiving_fd st.fd_map) := by
  by_cases h1 : (env.sn buf).sn_type = SCTP_ASSOC_CHANGE
  · obtain ⟨c, fd1, hrun, e1, s1, k1, z1, hother⟩ :=
      remove_on_comm_lost_run (env.sn buf).sac_state st
    obtain ⟨m, hm⟩ : ∃ m, (if (env.sn buf).sac_state = SCTP_COMM_LOST then
        table_remove_fd st.receiving_fd st.fd_map else st.fd_map) = m := ⟨_, rfl⟩
    rw [hm] at hrun
    generalize hms : (if (env.sn buf).sac_state = SCTP_COMM_LOST ∧ st.simple_mode = false then
        server_table_remove_fd st.receiving_fd st.fd_map_server
      else st.fd_map_server) = ms at hrun
    have hh : handle_event env i buf st
        = emit_assoc_change env i (env.sn buf).sac_state
            { st with fd := fd1, fd_map := m, fd_map_server := ms,
                      trace := st.trace ++ c } := by
      unfold handle_event
      simp only [bind_run, getState_run, h1, beq_self_eq_true, if_true,
        case_SCTP_ASSOC_CHANGE_eq, hrun]
    by_cases hl : (env.sn buf).sac_state = SCTP_COMM_LOST
    · refine ⟨c ++ (if st.events.sctp_association_event then
          [Effect.incoming_message (Message.ASP_SCTP_ASSOC_CHANGE st.receiving_fd
            (sac_state_ttcn (env.sn buf).sac_state))] else []), fd1, m, ms, ?_, ?_, ?_, ?_, ?_,
        fun h => absurd ⟨h1, hl⟩ h, fun _ => by rw [← hm, if_pos hl]⟩
      · rw [socket_count_append, s1]; split <;> rfl
      · rw [connect_count_append, k1]; split <;> rfl
      · rw [sleeps_append, z1]; split <;> rfl
      · rw [events_of_append, e1]
        simp only [decoded_events, h1, if_true, List.nil_append]
        split <;> rfl
      · rw [hh, emit_assoc_change_run]
        cases hsm : st.simple_mode <;> cases hr : st.reconnect <;>
          simp [reread_due, h1, hsm, hr, List.append_assoc]
    · have hst := hother hl
      rw [hst] at hrun
      have hh2 : handle_event env i buf st
          = emit_assoc_change env i (env.sn buf).sac_state st := by
        unfold handle_event
        simp only [bind_run, getState_run, h1, beq_self_eq_true, if_true,
          case_SCTP_ASSOC_CHANGE_eq, hst]
      refine ⟨(if st.events.sctp_association_event then
          [Effect.incoming_message (Message.ASP_SCTP_ASSOC_CHANGE st.receiving_fd
            (sac_state_ttcn (env.sn buf).sac_state))] else []), st.fd, st.fd_map,
        st.fd_map_server, ?_, ?_, ?_, ?_, ?_, fun _ => ⟨rfl, rfl, rfl⟩,
        fun h => absurd h.2 hl⟩
      · split <;> rfl
      · split <;> rfl
      · split <;> rfl
      · simp only [decoded_events, h1, if_true]
        split <;> rfl
      · rw [hh2, emit_assoc_change_run]
        cases hsm : st.simple_mode <;> cases hr : st.reconnect <;>
          simp [reread_due, h1, hsm, hr]
  · have hnot : reread_due st (env.sn buf) = false := by simp [reread_due, h1]
    obtain ⟨c1, c2, c3, c4⟩ := counts_of_events (decoded_events st (env.sn buf))
    refine ⟨List.map Effect.incoming_message (decoded_events st (env.sn buf)), st.fd,
      st.fd_map, st.fd_map_server, c1, c2, c3, c4, ?_, fun _ => ⟨rfl, rfl, rfl⟩,
      fun h => absurd h.1 h1⟩
    simp only [hnot, Bool.false_eq_true, if_false]
    unfold handle_event decoded_events
    simp only [bind_run, getState_run, beq_iff_eq, h1, if_false]
    by_cases h2 : (env.sn buf).sn_type = SCTP_PEER_ADDR_CHANGE
    · simp only [h2, if_true]
      exact flag_event_run _ _ st
    simp only [h2, if_false]
    by_cases h3 : (env.sn buf).sn_type = SCTP_REMOTE_ERROR
    · simp only [h3, if_true]
      exact flag_event_run _ _ st
    simp only [h3, if_false]
    by_cases h4 : (env.sn buf).sn_type = SCTP_SEND_FAILED
    · simp only [h4, if_true]
      exact flag_event_run _ _ st
    simp only [h4, if_false]
    by_cases h5 : (env.sn buf).sn_type = SCTP_SHUTDOWN_EVENT
    · simp only [h5, if_true]
      exact flag_event_run _ _ st
    simp only [h5, if_false]
    by_cases h6 : (env.sn buf).sn_type = SCTP_ADAPTATION_INDICATION
    · simp only [h6, if_true]
      exact flag_event_run _ _ st
    simp only [h6, if_false]
    by_cases h7 : (env.sn buf).sn_type = SCTP_PARTIAL_DELIVERY_EVENT
    · simp only [h7, if_true]
      exact flag_event_run _ _ st
    simp [h7]

/-- The events of one run of the decoder, reconnect included, are `decoded_events`. -/
theorem handle_event_events (env : Env) (i : Int) (buf : List Nat) (st : PortState) :
    events_of ((handle_event env i buf st).2.trace.drop st.trace.length)
      = decoded_events st (env.sn buf) := by
  obtain ⟨calls, fd1, m, ms, -, -, -, hev, hrun, -, -⟩ := handle_event_run env i buf st
  obtain ⟨rest, hrest, hnone, -⟩ := reconnect_on_reread_trace env i (env.sn buf).sac_state
    { st with fd := fd1, fd_map := m, fd_map_server := ms, trace := st.trace ++ calls }
  rw [hrun]
  split
  · rw [hrest]
    simp only [List.append_assoc, List.drop_left, events_of_append, hev, hnone,
      List.append_nil]
  · simp only [List.drop_left, hev]

/-- C16: for an association-change notification, held in the buffer of any slot `i`,
the decoder maps the kernel state code through `sac_state_ttcn`, a total function
that sends `SCTP_COMM_UP`, `SCTP_COMM_LOST`,
`SCTP_RESTART`, `SCTP_SHUTDOWN_COMP` and `SCTP_CANT_STR_ASSOC` to the value of the same
name and every other code to `SCTP_UNKNOWN_SAC_STATE`; when association-change events are
subscribed, the events of the decoder are exactly one association-change event, which
carries `receiving_fd` as client id and the mapped state. -/
theorem C16_assoc_change_state (env : Env) (i : Int) (buf : List Nat) (st : PortState)
    (hty : (env.sn buf).sn_type = SCTP_ASSOC_CHANGE)
    (hsub : st.events.sctp_association_event = true) :
    sac_state_ttcn SCTP_COMM_UP = SAC_STATE.SCTP_COMM_UP
      ∧ sac_state_ttcn SCTP_COMM_LOST = SAC_STATE.SCTP_COMM_LOST
      ∧ sac_state_ttcn SCTP_RESTART = SAC_STATE.SCTP_RESTART
      ∧ sac_state_ttcn SCTP_SHUTDOWN_COMP = SAC_STATE.SCTP_SHUTDOWN_COMP
      ∧ sac_state_ttcn SCTP_CANT_STR_ASSOC = SAC_STATE.SCTP_CANT_STR_ASSOC
      ∧ (∀ code : Int, code ≠ SCTP_COMM_UP → code ≠ SCTP_COMM_LOST → code ≠ SCTP_RESTART →
          code ≠ SCTP_SHUTDOWN_COMP → code ≠ SCTP_CANT_STR_ASSOC →
          sac_state_ttcn code = SAC_STATE.SCTP_UNKNOWN_SAC_STATE)
      ∧ events_of ((handle_event env i buf st).2.trace.drop st.trace.length)
        = [Message.ASP_SCTP_ASSOC_CHANGE st.receiving_fd
            (sac_state_ttcn (env.sn buf).sac_state)] := by
  refine ⟨by decide, by decide, by decide, by decide, by decide, ?_, ?_⟩
  · intro code h0 h1 h2 h3 h4
    simp [sac_state_ttcn, h0, h1, h2, h3, h4]
  · rw [handle_event_events]
    simp [decoded_events, hty, hsub]

theorem C16_assoc_change_state_witness :
    sac_state_ttcn SCTP_COMM_LOST = SAC_STATE.SCTP_COMM_LOST
      ∧ sac_state_ttcn 77 = SAC_STATE.SCTP_UNKNOWN_SAC_STATE
      ∧ events_of ((handle_event comm_lost_env 0 [] receiving_state).2.trace.drop
          receiving_state.trace.length)
        = [Message.ASP_SCTP_ASSOC_CHANGE 5 SAC_STATE.SCTP_COMM_LOST] :=
  ⟨(C16_assoc_change_state comm_lost_env 0 [] receiving_state rfl rfl).2.1,
    (C16_assoc_change_state comm_lost_env 0 [] receiving_state rfl rfl).2.2.2.2.2.1 77
      (by decide) (by decide) (by decide) (by decide) (by decide),
    (C16_assoc_change_state comm_lost_env 0 [] receiving_state rfl rfl).2.2.2.2.2.2⟩

/-- C17: for every notification, held in the buffer of any slot `i`, and every setting
of the port, the decoder emits at most one event: for a notification of a recognized
category, exactly the event of that
category when the subscription flag of the category is on and none when it is off
(association change: `sctp_association_event`; peer address change:
`sctp_address_event`; remote error: `sctp_peer_error_event`; send failed:
`sctp_send_failure_event`; shutdown: `sctp_shutdown_event`; adaptation indication:
`sctp_adaptation_layer_event`; partial delivery: `sctp_partial_delivery_event`), and
none for a notification of any other type. -/
theorem C17_one_event_per_notification (env : Env) (i : Int) (buf : List Nat)
    (st : PortState) :
    (events_of ((handle_event env i buf st).2.trace.drop st.trace.length)).length ≤ 1
      ∧ ((env.sn buf).sn_type = SCTP_ASSOC_CHANGE →
          events_of ((handle_event env i buf st).2.trace.drop st.trace.length)
            = if st.events.sctp_association_event then
                [Message.ASP_SCTP_ASSOC_CHANGE st.receiving_fd
                  (sac_state_ttcn (env.sn buf).sac_state)]
              else [])
      ∧ ((env.sn buf).sn_type = SCTP_PEER_ADDR_CHANGE →
          events_of ((handle_event env i buf st).2.trace.drop st.trace.length)
            = if st.events.sctp_address_event then
                [Message.ASP_SCTP_PEER_ADDR_CHANGE st.receiving_fd
                  (spc_state_ttcn (env.sn buf).spc_state)]
              else [])
      ∧ ((env.sn buf).sn_type = SCTP_REMOTE_ERROR →
          events_of ((handle_event env i buf st).2.trace.drop st.trace.length)
            = if st.events.sctp_peer_error_event then
                [Message.ASP_SCTP_REMOTE_ERROR st.receiving_fd]
              else [])
      ∧ ((env.sn buf).sn_type = SCTP_SEND_FAILED →
          events_of ((handle_event env i buf st).2.trace.drop st.trace.length)
            = if st.events.sctp_send_failure_event then
                [Message.ASP_SCTP_SEND_FAILED st.receiving_fd]
              else [])
      ∧ ((env.sn buf).sn_type = SCTP_SHUTDOWN_EVENT →
          events_of ((handle_event env i buf st).2.trace.drop st.trace.length)
            = if st.events.sctp_shutdown_event then
                [Message.ASP_SCTP_SHUTDOWN_EVENT st.receiving_fd]
              else [])
      ∧ ((env.sn buf).sn_type = SCTP_ADAPTATION_INDICATION →
          events_of ((handle_event env i buf st).2.trace.drop st.trace.length)
            = if st.events.sctp_adaptation_layer_event then
                [Message.ASP_SCTP_ADAPTION_INDICATION st.receiving_fd]
              else [])
      ∧ ((env.sn buf).sn_type = SCTP_PARTIAL_DELIVERY_EVENT →
          events_of ((handle_event env i buf st).2.trace.drop st.trace.length)
            = if st.events.sctp_partial_delivery_event then
                [Message.ASP_SCTP_PARTIAL_DELIVERY_EVENT st.receiving_fd]
              else [])
      ∧ ((env.sn buf).sn_type ≠ SCTP_ASSOC_CHANGE →
          (env.sn buf).sn_type ≠ SCTP_PEER_ADDR_CHANGE →
          (env.sn buf).sn_type ≠ SCTP_REMOTE_ERROR →
          (env.sn buf).sn_type ≠ SCTP_SEND_FAILED →
          (env.sn buf).sn_type ≠ SCTP_SHUTDOWN_EVENT →
          (env.sn buf).sn_type ≠ SCTP_ADAPTATION_INDICATION →
          (env.sn buf).sn_type ≠ SCTP_PARTIAL_DELIVERY_EVENT →
          events_of ((handle_event env i buf st).2.trace.drop st.trace.length) = []) := by
  rw [handle_event_events]
  refine ⟨?_, ?_, ?_, ?_, ?_, ?_, ?_, ?_, ?_⟩
  · unfold decoded_events
    split_ifs <;> simp
  · intro h
    simp [decoded_events, h]
  · intro h
    have h1 : SCTP_PEER_ADDR_CHANGE ≠ SCTP_ASSOC_CHANGE := by decide
    simp [decoded_events, h, h1]
  · intro h
    have h1 : SCTP_REMOTE_ERROR ≠ SCTP_ASSOC_CHANGE := by decide
    have h2 : SCTP_REMOTE_ERROR ≠ SCTP_PEER_ADDR_CHANGE := by decide
    simp [decoded_events, h, h1, h2]
  · intro h
    have h1 : SCTP_SEND_FAILED ≠ SCTP_ASSOC_CHANGE := by decide
    have h2 : SCTP_SEND_FAILED ≠ SCTP_PEER_ADDR_CHANGE := by decide
    have h3 : SCTP_SEND_FAILED ≠ SCTP_REMOTE_ERROR := by decide
    simp [decoded_events, h, h1, h2, h3]
  · intro h
    have h1 : SCTP_SHUTDOWN_EVENT ≠ SCTP_ASSOC_CHANGE := by decide
    have h2 : SCTP_SHUTDOWN_EVENT ≠ SCTP_PEER_ADDR_CHANGE := by decide
    have h3 : SCTP_SHUTDOWN_EVENT ≠ SCTP_REMOTE_ERROR := by decide
    have h4 : SCTP_SHUTDOWN_EVENT ≠ SCTP_SEND_FAILED := by decide
    simp [decoded_events, h, h1, h2, h3, h4]
  · intro h
    have h1 : SCTP_ADAPTATION_INDICATION ≠ SCTP_ASSOC_CHANGE := by decide
    have h2 : SCTP_ADAPTATION_INDICATION ≠ SCTP_PEER_ADDR_CHANGE := by decide
    have h3 : SCTP_ADAPTATION_INDICATION ≠ SCTP_REMOTE_ERROR := by decide
    have h4 : SCTP_ADAPTATION_INDICATION ≠ SCTP_SEND_FAILED := by decide
    have h5 : SCTP_ADAPTATION_INDICATION ≠ SCTP_SHUTDOWN_EVENT := by decide
    simp [decoded_events, h, h1, h2, h3, h4, h5]
  · intro h
    have h1 : SCTP_PARTIAL_DELIVERY_EVENT ≠ SCTP_ASSOC_CHANGE := by decide
    have h2 : SCTP_PARTIAL_DELIVERY_EVENT ≠ SCTP_PEER_ADDR_CHANGE := by decide
    have h3 : SCTP_PARTIAL_DELIVERY_EVENT ≠ SCTP_REMOTE_ERROR := by decide
    have h4 : SCTP_PARTIAL_DELIVERY_EVENT ≠ SCTP_SEND_FAILED := by decide
    have h5 : SCTP_PARTIAL_DELIVERY_EVENT ≠ SCTP_SHUTDOWN_EVENT := by decide
    have h6 : SCTP_PARTIAL_DELIVERY_EVENT ≠ SCTP_ADAPTATION_INDICATION := by decide
    simp [decoded_events, h, h1, h2, h3, h4, h5, h6]
  · intro h1 h2 h3 h4 h5 h6 h7
    simp [decoded_events, h1, h2, h3, h4, h5, h6, h7]

theorem C17_one_event_per_notification_witness :
    events_of ((handle_event (notification_env SCTP_SHUTDOWN_EVENT 0 fun _ => true) 0 []
        receiving_state).2.trace.drop receiving_state.trace.length)
      = [Message.ASP_SCTP_SHUTDOWN_EVENT 5] :=
  (C17_one_event_per_notification (notification_env SCTP_SHUTDOWN_EVENT 0 fun _ => true) 0 []
    receiving_state).2.2.2.2.2.1 rfl

/-- C19: the decoder calls `forced_reconnect` in no case but an association change with
state `SCTP_COMM_LOST`, with `reconnect` set, in simple mode; in that case it does not
get to the call in a defined way.  The decoder is given the notification in the buffer
of slot `i`, the live slot of the receiving fd (a descriptor, at most one live slot keyed
by it, erased slots with fd `-1`).  Whatever the notification, it first reaches a state
`st1`, having created no socket, called no `connect` and no `sleep`, and having emitted
every event it emits.  Outside the condition it returns in `st1`.  Under the condition
lines 1194 and 1422 have erased slot `i` and freed its buffer, and the test of line 1209,
which decides on the reconnect, reads `sac->sac_state` from that freed buffer. -/
theorem C19_reconnect_invocation (env : Env) (i : Nat) (buf : List Nat) (st : PortState)
    (it : fd_map_item) (hit : st.fd_map[i]? = some it) (hbuf : it.buf = some buf)
    (hlive : it.erased = false) (hfd : it.fd = st.receiving_fd)
    (hf : st.receiving_fd ≠ -1) (huniq : live_count st.receiving_fd st.fd_map ≤ 1)
    (her : ∀ x ∈ st.fd_map, x.erased = true → x.fd = -1) :
    ∃ (calls : List Effect) (st1 : PortState),
      st1.trace = st.trace ++ calls
      ∧ socket_count calls = 0 ∧ connect_count calls = 0 ∧ sleeps calls = []
      ∧ events_of calls = decoded_events st (env.sn buf)
      ∧ (reconnect_due st (env.sn buf) = false →
          handle_event env (i : Int) buf st = (Outcome.ok (), st1))
      ∧ (reconnect_due st (env.sn buf) = true →
          st1.fd_map[i]? = some erased_item
          ∧ handle_event env (i : Int) buf st
            = (Outcome.fatal Fatal.undefined_behaviour, st1)) := by
  have hi : i < st.fd_map.length := (List.getElem?_eq_some_iff.mp hit).1
  obtain ⟨calls, fd1, m, ms, h1, h2, h3, hev, hrun, hsame, hlost⟩ :=
    handle_event_run env (i : Int) buf st
  refine ⟨calls, ({ st with fd := fd1, fd_map := m, fd_map_server := ms,
                            trace := st.trace ++ calls } : PortState),
    rfl, h1, h2, h3, hev, ?_, ?_⟩
  · intro hdue
    rw [hrun]
    split
    · rename_i hre
      simp only [reread_due, Bool.and_eq_true, beq_iff_eq] at hre
      obtain ⟨⟨hty, hrc⟩, hsm⟩ := hre
      have hl : (env.sn buf).sac_state ≠ SCTP_COMM_LOST := by
        intro hl
        simp [reconnect_due, hty, hl, hrc, hsm] at hdue
      obtain ⟨-, hm, -⟩ := hsame (fun hc => hl hc.2)
      subst hm
      rw [reconnect_on_reread_held env i _
        ({ st with fd := fd1, fd_map := st.fd_map, fd_map_server := ms,
                   trace := st.trace ++ calls } : PortState) it buf hit hbuf]
      simp [hl]
    · rfl
  · intro hdue
    simp only [reconnect_due, Bool.and_eq_true, beq_iff_eq] at hdue
    obtain ⟨⟨⟨hty, hl⟩, hrc⟩, hsm⟩ := hdue
    have hm := hlost ⟨hty, hl⟩
    have hfirst : first_with_fd st.receiving_fd st.fd_map 0 = some i := by
      simpa using first_with_fd_of_unique st.receiving_fd st.fd_map 0 i it hit hlive hfd hf
        huniq her
    have hm2 : m = st.fd_map.set i erased_item := by
      rw [hm]
      simp [table_remove_fd, hf, hfirst]
    subst hm2
    have hslot : (st.fd_map.set i erased_item)[i]? = some erased_item :=
      List.getElem?_set_self hi
    refine ⟨hslot, ?_⟩
    rw [hrun]
    have hre : reread_due st (env.sn buf) = true := by simp [reread_due, hty, hrc, hsm]
    simp only [hre, if_true]
    exact reconnect_on_reread_freed env i _
      ({ st with fd := fd1, fd_map := st.fd_map.set i erased_item, fd_map_server := ms,
                 trace := st.trace ++ calls } : PortState) erased_item hslot rfl

theorem C19_reconnect_invocation_witness :
    reconnect_due (decoding_state true) (comm_lost_env.sn (List.replicate 1024 0)) = true
      ∧ ∃ (calls : List Effect) (st1 : PortState),
          st1.trace = (decoding_state true).trace ++ calls
          ∧ socket_count calls = 0 ∧ connect_count calls = 0 ∧ sleeps calls = []
          ∧ events_of calls
            = decoded_events (decoding_state true)
                (comm_lost_env.sn (List.replicate 1024 0))
          ∧ (reconnect_due (decoding_state true)
                (comm_lost_env.sn (List.replicate 1024 0)) = false →
              handle_event comm_lost_env ((0 : Nat) : Int) (List.replicate 1024 0)
                  (decoding_state true)
                = (Outcome.ok (), st1))
          ∧ (reconnect_due (decoding_state true)
                (comm_lost_env.sn (List.replicate 1024 0)) = true →
              st1.fd_map[0]? = some erased_item
              ∧ handle_event comm_lost_env ((0 : Nat) : Int) (List.replicate 1024 0)
                  (decoding_state true)
                = (Outcome.fatal Fatal.undefined_behaviour, st1)) :=
  ⟨rfl, C19_reconnect_invocation comm_lost_env 0 (List.replicate 1024 0) (decoding_state true)
    { erased_item with fd := 5, erased := false, buf := some (List.replicate 1024 0),
                       buflen := 1024, nr := 20 }
    rfl rfl rfl rfl (by decide) (by decide) (by decide)⟩

/-! ## Removal on communication lost -/

theorem countP_set_true_false {α : Type} {p : α → Bool} (l : List α) (i : Nat) (a x : α)
    (ha : l[i]? = some a) (hp : p a = true) (hx : p x = false) :
    (l.set i x).countP p + 1 = l.countP p := by
  induction l generalizing i with
  | nil => simp at ha
  | cons b bs ih =>
    cases i with
    | zero =>
      simp only [List.getElem?_cons_zero, Option.some.injEq] at ha
      subst ha
      simp [List.countP_cons, hp, hx]
    | succ n =>
      simp only [List.getElem?_cons_succ] at ha
      simp only [List.set_cons_succ, List.countP_cons]
      have := ih n ha
      omega

/-- After `map_delete_item_fd(fd)` no live slot is keyed by `fd`, when `fd` is a
descriptor, at most one live slot was keyed by it and the erased slots hold fd `-1`. -/
theorem table_remove_fd_removes (fd : Int) (m : List fd_map_item) (hf : fd ≠ -1)
    (huniq : live_count fd m ≤ 1) (her : ∀ it ∈ m, it.erased = true → it.fd = -1) :
    live_count fd (table_remove_fd fd m) = 0 := by
  unfold table_remove_fd
  simp only [hf, if_false]
  cases hw : first_with_fd fd m 0 with
  | none => simpa using first_with_fd_none fd m 0 hw
  | some i =>
    obtain ⟨-, it, hit, hfd⟩ := first_with_fd_some fd m 0 i hw
    simp only [Nat.sub_zero] at hit
    have hlive : live_with_fd fd it = true := by
      have hmem : it ∈ m := List.getElem?_mem hit
      cases he : it.erased
      · simp [live_with_fd, he, hfd]
      · exact absurd (hfd ▸ her it hmem he) hf
    have h1 := @countP_set_true_false _ (live_with_fd fd) m i it erased_item hit
      hlive (by simp [live_with_fd, erased_item])
    simp only [live_count] at huniq ⊢
    omega

theorem map_get_item_server_from_neg_one (fd : Int) (m : List fd_map_server_item)
    (k : Nat) : map_get_item_server_from fd m k = -1 ↔ live_server_count fd m = 0 := by
  induction m generalizing k with
  | nil => simp [map_get_item_server_from, live_server_count]
  | cons x xs ih =>
    unfold map_get_item_server_from
    by_cases h : (!x.erased && x.fd == fd) = true
    · simp only [h, if_true]
      constructor
      · intro hk; omega
      · intro hc; simp [live_server_count, List.countP_cons, h] at hc
    · have h1 : (!x.erased && x.fd == fd) = false := by simpa using h
      simp only [h1, Bool.false_eq_true, if_false, ih (k + 1)]
      simp [live_server_count, List.countP_cons, h1]

theorem first_with_fd_server_none (fd : Int) (m : List fd_map_server_item) (k : Nat)
    (h : first_with_fd_server fd m k = none) : live_server_count fd m = 0 := by
  induction m generalizing k with
  | nil => rfl
  | cons x xs ih =>
    unfold first_with_fd_server at h
    split at h
    · cases h
    · rename_i hx
      have hx1 : (x.fd == fd) = false := by simpa using hx
      have := ih (k + 1) h
      simp only [live_server_count] at this
      simp [live_server_count, List.countP_cons, hx1, this]

/-- After `map_delete_item_fd_server(fd)` no live slot of the listener table is keyed by
`fd`, under the same conditions on the listener table. -/
theorem server_table_remove_fd_removes (fd : Int) (m : List fd_map_server_item)
    (hf : fd ≠ -1) (huniq : live_server_count fd m ≤ 1)
    (her : ∀ s ∈ m, s.erased = true → s.fd = -1) :
    live_server_count fd (server_table_remove_fd fd m) = 0 := by
  unfold server_table_remove_fd
  simp only [hf, if_false]
  cases hw : first_with_fd_server fd m 0 with
  | none => simpa using first_with_fd_server_none fd m 0 hw
  | some i =>
    obtain ⟨-, s, hs, hfd⟩ := first_with_fd_server_some fd m 0 i hw
    simp only [Nat.sub_zero] at hs
    have hlive : (!s.erased && s.fd == fd) = true := by
      have hmem : s ∈ m := List.getElem?_mem hs
      cases he : s.erased
      · simp [hfd]
      · exact absurd (hfd ▸ her s hmem he) hf
    have h1 := @countP_set_true_false _ (fun s => !s.erased && s.fd == fd)
      m i s erased_server_item hs hlive (by simp [erased_server_item])
    simp only [live_server_count] at huniq ⊢
    omega

/-- C18: when the decoder processes an association-change notification, held in the
buffer of any slot `i`, for the receiving fd `f` (a descriptor; each table holds at
most one live slot keyed by `f`, and
erased slots hold fd `-1`), it first runs lines 1189-1201 and reaches a state `st1`, and
what is left of it is the emission and the reconnect run from `st1`.  When the state is
`SCTP_COMM_LOST`, no live slot of the connection table is keyed by `f` in `st1` and, in
multiplexed mode, no live slot of the listener table either, whatever the subscription
flag; for every other state `st1` is the state before and the decoder leaves both tables
as they were. -/
theorem C18_comm_lost_removes_records (env : Env) (i : Int) (buf : List Nat)
    (st : PortState)
    (hty : (env.sn buf).sn_type = SCTP_ASSOC_CHANGE) (hf : st.receiving_fd ≠ -1)
    (huniq : live_count st.receiving_fd st.fd_map ≤ 1)
    (her : ∀ it ∈ st.fd_map, it.erased = true → it.fd = -1)
    (huniq_s : live_server_count st.receiving_fd st.fd_map_server ≤ 1)
    (her_s : ∀ s ∈ st.fd_map_server, s.erased = true → s.fd = -1) :
    ∃ st1,
      remove_on_comm_lost (env.sn buf).sac_state st = (Outcome.ok (), st1)
      ∧ handle_event env i buf st = emit_assoc_change env i (env.sn buf).sac_state st1
      ∧ st1.events = st.events ∧ st1.receiving_fd = st.receiving_fd
      ∧ ((env.sn buf).sac_state = SCTP_COMM_LOST →
          map_get_item st.receiving_fd st1 = -1
            ∧ (st.simple_mode = false → map_get_item_server st.receiving_fd st1 = -1))
      ∧ ((env.sn buf).sac_state ≠ SCTP_COMM_LOST →
          st1 = st ∧ (handle_event env i buf st).2.fd_map = st.fd_map
            ∧ (handle_event env i buf st).2.fd_map_server = st.fd_map_server) := by
  obtain ⟨c, fd1, hrun, -, -, -, -, hother⟩ :=
    remove_on_comm_lost_run (env.sn buf).sac_state st
  have hh : handle_event env i buf st
      = emit_assoc_change env i (env.sn buf).sac_state
          { st with
            fd := fd1
            fd_map :=
              if (env.sn buf).sac_state = SCTP_COMM_LOST then
                table_remove_fd st.receiving_fd st.fd_map
              else st.fd_map
            fd_map_server :=
              if (env.sn buf).sac_state = SCTP_COMM_LOST ∧ st.simple_mode = false then
                server_table_remove_fd st.receiving_fd st.fd_map_server
              else st.fd_map_server
            trace := st.trace ++ c } := by
    unfold handle_event
    simp only [bind_run, getState_run, hty, beq_self_eq_true, if_true,
      case_SCTP_ASSOC_CHANGE_eq, hrun]
  refine ⟨_, hrun, hh, rfl, rfl, ?_, ?_⟩
  · intro hl
    constructor
    · rw [map_get_item_neg_one]
      simp only [hl, if_true]
      exact table_remove_fd_removes st.receiving_fd st.fd_map hf huniq her
    · intro hm
      show map_get_item_server_from st.receiving_fd _ 0 = -1
      rw [map_get_item_server_from_neg_one]
      simp only [hl, hm, and_self, if_true]
      exact server_table_remove_fd_removes st.receiving_fd st.fd_map_server hf huniq_s her_s
  · intro hl
    have hst := hother hl
    rw [hrun] at hst
    refine ⟨by simpa using hst, ?_, ?_⟩
    all_goals
      obtain ⟨calls, fd2, m2, ms2, -, -, -, -, hrun2, hsame, -⟩ :=
        handle_event_run env i buf st
      obtain ⟨-, hm2, hms2⟩ := hsame (fun hc => hl hc.2)
      obtain ⟨-, -, -, hkeep⟩ := reconnect_on_reread_trace env i (env.sn buf).sac_state
        { st with fd := fd2, fd_map := m2, fd_map_server := ms2, trace := st.trace ++ calls }
      rw [hrun2]
      split
      · rw [hkeep hl]
        simp [hm2, hms2]
      · simp [hm2, hms2]

theorem C18_comm_lost_removes_records_witness :
    ∃ st1,
      remove_on_comm_lost SCTP_COMM_LOST receiving_state = (Outcome.ok (), st1)
      ∧ handle_event comm_lost_env 0 [] receiving_state
        = emit_assoc_change comm_lost_env 0 SCTP_COMM_LOST st1
      ∧ map_get_item 5 st1 = -1 :=
  (C18_comm_lost_removes_records comm_lost_env 0 [] receiving_state rfl (by decide) (by decide)
    (by decide) (by decide) (by decide)).imp
    fun _ h => ⟨h.1, h.2.1, (h.2.2.2.2.1 rfl).1⟩

/-! ## Deferred connect completion -/

/-- With at most one live slot per fd, `map_get_item` returns the index of the live slot
keyed by the fd. -/
theorem map_get_item_from_unique (fd : Int) (m : List fd_map_item) (k j : Nat)
    (it : fd_map_item) (hit : m[j]? = some it) (hlive : live_with_fd fd it = true)
    (huniq : live_count fd m ≤ 1) :
    map_get_item_from fd m k = ((k + j : Nat) : Int) := by
  induction m generalizing k j with
  | nil => simp at hit
  | cons x xs ih =>
    unfold map_get_item_from
    cases j with
    | zero =>
      simp only [List.getElem?_cons_zero, Option.some.injEq] at hit
      subst hit
      have h1 : (!x.erased && x.fd == fd) = true := hlive
      simp [h1]
    | succ n =>
      simp only [List.getElem?_cons_succ] at hit
      have hpos := live_count_pos_of_live fd xs n it hit hlive
      have hx : live_with_fd fd x = false := by
        cases hc : live_with_fd fd x
        · rfl
        · simp only [live_count, List.countP_cons, hc, if_true] at huniq
          simp only [live_count] at hpos
          omega
      have h1 : (!x.erased && x.fd == fd) = false := hx
      have huniq1 : live_count fd xs ≤ 1 := by
        simp only [live_count, List.countP_cons, hx] at huniq
        simpa [live_count] using huniq
      simp only [h1, Bool.false_eq_true, if_false, ih (k + 1) n hit huniq1]
      congr 1
      omega

/-- C20: for every live record with fd `f` whose `einprogress` flag is set, in
multiplexed mode and with at most one live record per fd, when the `connect` the writable
handler issues again returns `-1` with `errno == EISCONN`, the handler returns after
exactly these calls, in this order: the `connect` on `f` with the stored address,
`Handler_Remove_Fd_Write(f)`, one connect-result event with client id `f`, error status
false and no error message, and `Handler_Add_Fd_Read(f)`; it clears `einprogress` in the
record, which stays live and keyed by `f`, and changes no other record and nothing else
in the port. -/
theorem C20_deferred_connect_success (env : Env) (f : Int) (st : PortState) (j : Nat)
    (it : fd_map_item) (hmux : st.simple_mode = false) (hit : st.fd_map[j]? = some it)
    (hlive : it.erased = false) (hfd : it.fd = f) (hprog : it.einprogress = true)
    (huniq : live_count f st.fd_map ≤ 1) (hret : (env.connect 0).ret = -1)
    (herrno : (env.connect 0).errno = EISCONN) :
    Handle_Fd_Event_Writable env f st
        = (Outcome.ok (),
            { st with
              fd_map := st.fd_map.set j { it with einprogress := false }
              trace := st.trace
                ++ [Effect.connect f it.sin it.saLen, Effect.Handler_Remove_Fd_Write f,
                    Effect.incoming_message (Message.ASP_SCTP_RESULT (some f) false none),
                    Effect.Handler_Add_Fd_Read f] })
      ∧ ∃ it1, (Handle_Fd_Event_Writable env f st).2.fd_map[j]? = some it1
          ∧ it1.erased = false ∧ it1.fd = f ∧ it1.einprogress = false
          ∧ ∀ k, k ≠ j → (Handle_Fd_Event_Writable env f st).2.fd_map[k]? = st.fd_map[k]? := by
  have hj : j < st.fd_map.length := (List.getElem?_eq_some_iff.mp hit).1
  have hidx : map_get_item f st = (j : Int) := by
    have := map_get_item_from_unique f st.fd_map 0 j it hit
      (by simp [live_with_fd, hlive, hfd]) huniq
    simpa [map_get_item] using this
  have hrun : Handle_Fd_Event_Writable env f st
      = (Outcome.ok (),
          { st with
            fd_map := st.fd_map.set j { it with einprogress := false }
            trace := st.trace
              ++ [Effect.connect f it.sin it.saLen, Effect.Handler_Remove_Fd_Write f,
                  Effect.incoming_message (Message.ASP_SCTP_RESULT (some f) false none),
                  Effect.Handler_Add_Fd_Read f] }) := by
    have hne : ((j : Int) != -1) = true := by simp
    have hcond : (!it.erased && it.einprogress) = true := by simp [hlive, hprog]
    unfold Handle_Fd_Event_Writable
    simp only [bind_run, getState_run, hidx, hne, hmux, Bool.not_false, Bool.and_self,
      if_true, item_natCast, hit, hcond, emit_run, hret, beq_self_eq_true, herrno,
      incoming_message, modify_item_natCast, pure_run]
    simp [hfd]
  refine ⟨hrun, { it with einprogress := false }, ?_, hlive, hfd, rfl, ?_⟩
  · rw [hrun]
    exact List.getElem?_set_self hj
  · intro k hk
    rw [hrun]
    exact List.getElem?_set_ne (fun h => hk h.symm)

theorem C20_deferred_connect_success_witness :
    Handle_Fd_Event_Writable connected_env 5 connecting_state
        = (Outcome.ok (),
            { connecting_state with
              fd_map := connecting_state.fd_map.set 0
                { erased_item with fd := 5, erased := false, einprogress := false,
                                   sin := ⟨AF_INET, 9000, [10, 0, 0, 1]⟩, saLen := 16 }
              trace := connecting_state.trace
                ++ [Effect.connect 5 ⟨AF_INET, 9000, [10, 0, 0, 1]⟩ 16,
                    Effect.Handler_Remove_Fd_Write 5,
                    Effect.incoming_message (Message.ASP_SCTP_RESULT (some 5) false none),
                    Effect.Handler_Add_Fd_Read 5] })
      ∧ ∃ it1, (Handle_Fd_Event_Writable connected_env 5 connecting_state).2.fd_map[0]?
            = some it1
          ∧ it1.erased = false ∧ it1.fd = 5 ∧ it1.einprogress = false
          ∧ ∀ k, k ≠ 0 →
              (Handle_Fd_Event_Writable connected_env 5 connecting_state).2.fd_map[k]?
                = connecting_state.fd_map[k]? :=
  C20_deferred_connect_success connected_env 5 connecting_state 0
    { erased_item with fd := 5, erased := false, einprogress := true,
                       sin := ⟨AF_INET, 9000, [10, 0, 0, 1]⟩, saLen := 16 }
    rfl rfl rfl rfl rfl (by decide) rfl rfl

/-! ## The slot index of the readable handler -/

theorem live_keyed_of_slot {f : Int} {i : Nat} {st : PortState} {x : fd_map_item}
    (hx : st.fd_map[i]? = some x) (hfd : x.fd = f) (her : x.erased = false) :
    live_keyed f i st = true := by
  simp [live_keyed, hx, hfd, her]

/-- Up to the return of `getmsg` the handler changes, in the table, only fields of slot
`i` other than `fd` and `erased`. -/
theorem call_getmsg_slot (env : Env) (st : PortState) (i : Nat) (it : fd_map_item)
    (hidx : map_get_item it.fd st = (i : Int)) (hit : st.fd_map[i]? = some it) :
    ∃ x, (call_getmsg env i st).2.fd_map = st.fd_map.set i x ∧ x.fd = it.fd
      ∧ x.erased = it.erased
      ∧ (∃ v, (call_getmsg env i st).1 = Outcome.ok v) := by
  obtain ⟨st0, hst0, hidx0, hit0, hrun0⟩ := call_getmsg_run env st i it hidx hit
  rw [hrun0]
  by_cases hv : env.recvmsg.value ≤ 0
  · rw [getmsg_eof _ hidx0 hit0 hv]
    subst hst0
    simp only [List.set_set]
    exact ⟨_, rfl, slot_prepared_fd it, slot_prepared_erased it, _, rfl⟩
  · rw [getmsg_pos _ _ hidx0 hit0 (by omega)]
    subst hst0
    split
    · simp only [List.set_set]
      exact ⟨_, rfl, slot_prepared_fd it, slot_prepared_erased it, _, rfl⟩
    · simp only [List.set_set]
      refine ⟨_, rfl, ?_, ?_, _, rfl⟩
      · rw [recv_grow_fd]; exact slot_prepared_fd it
      · rw [recv_grow_erased]; exact slot_prepared_erased it

/-- The part of the handler under "Receiving data", for a ready fd that `map_get_item`
finds in slot `i`: the call of `getmsg` and the three cases of the `switch`. -/
theorem receive_data_cases (env : Env) (f : Int) (st : PortState) (i : Nat)
    (hidx : map_get_item f st = (i : Int)) :
    receive_data env f st
      = match call_getmsg env i st with
        | (Outcome.ok return_value_t.WHOLE_MESSAGE_RECEIVED, st2) =>
          (deliver_whole_message env i >>= fun _ => release_buffer i) st2
        | (Outcome.ok return_value_t.PARTIAL_RECEIVE, st2) =>
          modify_item i (fun it => { it with processing_message := true }) st2
        | (Outcome.ok return_value_t.EOF_OR_ERROR, st2) => case_EOF_OR_ERROR env i st2
        | (Outcome.fatal e, st2) => (Outcome.fatal e, st2) := by
  have hne : ((i : Int) != -1) = true := by simp
  unfold receive_data
  simp only [bind_run, getState_run, hidx, hne, if_true]
  cases hg : call_getmsg env i st with
  | mk o st2 =>
    cases o with
    | fatal e => rfl
    | ok v => cases v <;> simp only [case_WHOLE_MESSAGE_RECEIVED_eq, bind_run]

theorem stable_and {T U : List fd_map_item → Prop} (hT : stable T) (hU : stable U) :
    stable fun m => T m ∧ U m :=
  ⟨fun m fd hfd h => ⟨hT.1 m fd hfd h.1, hU.1 m fd hfd h.2⟩,
    fun m i hi h => ⟨hT.2 m i hi h.1, hU.2 m i hi h.2⟩⟩

/-- The connection table never gets shorter. -/
theorem stable_length (n : Nat) : stable fun m => n ≤ m.length := by
  constructor
  · intro m fd _ h
    simp only [table_put, List.length_set]
    unfold grown
    split
    · simp only [List.length_append]
      omega
    · exact h
  · intro m i _ h
    simpa using h

/-- A slot is as it was in the table `orig`, or its buffer is null: a stable property
when the erased slots of `orig` have null buffers. -/
theorem stable_same_or_null (orig : List fd_map_item)
    (hnull : ∀ (j : Nat) (it : fd_map_item), orig[j]? = some it → it.erased = true →
      it.buf = none) :
    stable (all_slots fun j x => orig[j]? = some x ∨ x.buf = none) := by
  apply stable_all_slots
  · intro j
    exact Or.inr rfl
  · intro j it fd _ her h
    right
    rcases h with h | h
    · exact hnull j it h her
    · exact h

/-- Up to the return of `getmsg` the handler changes `receiving_fd`, fields of slot `i`
other than `fd` and `erased`, and the trace, and nothing else. -/
theorem call_getmsg_state (env : Env) (st : PortState) (i : Nat) (it : fd_map_item)
    (hidx : map_get_item it.fd st = (i : Int)) (hit : st.fd_map[i]? = some it) :
    ∃ x calls,
      (call_getmsg env i st).2
        = { st with receiving_fd := it.fd, fd_map := st.fd_map.set i x,
                    trace := st.trace ++ calls }
      ∧ x.fd = it.fd ∧ x.erased = it.erased := by
  obtain ⟨st0, hst0, hidx0, hit0, hrun0⟩ := call_getmsg_run env st i it hidx hit
  rw [hrun0]
  by_cases hv : env.recvmsg.value ≤ 0
  · rw [getmsg_eof _ hidx0 hit0 hv]
    subst hst0
    simp only [List.set_set, List.append_assoc]
    exact ⟨_, _, rfl, slot_prepared_fd it, slot_prepared_erased it⟩
  · rw [getmsg_pos _ _ hidx0 hit0 (by omega)]
    subst hst0
    split
    · simp only [List.set_set, List.append_assoc]
      exact ⟨_, _, rfl, slot_prepared_fd it, slot_prepared_erased it⟩
    · simp only [List.set_set, List.append_assoc]
      refine ⟨_, _, rfl, ?_, ?_⟩
      · rw [recv_grow_fd]; exact slot_prepared_fd it
      · rw [recv_grow_erased]; exact slot_prepared_erased it

/-- The scan of `map_delete_item_fd` looks at the stored fd only. -/
theorem first_with_fd_set (fd : Int) (m : List fd_map_item) (k i : Nat)
    (it y : fd_map_item) (hit : m[i]? = some it) (hfd : y.fd = it.fd) :
    first_with_fd fd (m.set i y) k = first_with_fd fd m k := by
  induction m generalizing k i with
  | nil => simp
  | cons a as ih =>
    cases i with
    | zero =>
      simp only [List.getElem?_cons_zero, Option.some.injEq] at hit
      subst hit
      simp [first_with_fd, hfd]
    | succ n =>
      simp only [List.getElem?_cons_succ] at hit
      simp only [List.set_cons_succ, first_with_fd, ih (k + 1) n hit]

/-- C15 (as stated, refuted): the readable handler finds fd 5 in slot 0 and receives an
association-change notification with state `SCTP_COMM_LOST`; the decoder removes slot 0,
and the handler then executes `Free(fd_map[i].buf); fd_map[i].buf = NULL` with `i = 0`
in a state in which slot 0 is erased, not live and keyed by 5. -/
theorem C15_counterexample :
    map_get_item 5 example_state = 0
      ∧ Handle_Fd_Event_Readable comm_lost_env 5 example_state
        = release_buffer 0
            (deliver_whole_message comm_lost_env 0
              (call_getmsg comm_lost_env 0 example_state).2).2
      ∧ (deliver_whole_message comm_lost_env 0
            (call_getmsg comm_lost_env 0 example_state).2).2.fd_map[0]? = some erased_item
      ∧ live_keyed 5 0
          (deliver_whole_message comm_lost_env 0
            (call_getmsg comm_lost_env 0 example_state).2).2 = false :=
  ⟨rfl, rfl, rfl, rfl⟩

/-- C15 (amended): in one call of the readable handler, for the slot index `i` that
`map_get_item` returned for the ready fd `f` (a descriptor, with at most one live slot
keyed by it and erased slots that hold fd `-1`), slot `i` is live and keyed by `f` at
every access through `i` but one: when the handler is entered, when `getmsg` has returned
(the accesses of the three cases of the `switch`), after `processing_message` has been
cleared, and at the release of the buffer (`Free(fd_map[i].buf); fd_map[i].buf = NULL`)
after data or after a notification other than an association change with state
`SCTP_COMM_LOST`.  After such a notification the decoder has removed slot `i`: unless
the port is in simple mode with `reconnect` set, the release is reached with slot `i`
erased and not live, index `i` inside the table and the buffer null, and it changes
nothing.  In simple mode with `reconnect` set the release is not reached: line 1209 of
the decoder reads the notification from the buffer that the removal has freed. -/
theorem C15_index_valid_until_release (env : Env) (f : Int) (st : PortState) (i : Nat)
    (hidx : map_get_item f st = (i : Int)) (hf : f ≠ -1)
    (huniq : live_count f st.fd_map ≤ 1)
    (her : ∀ it ∈ st.fd_map, it.erased = true → it.fd = -1) :
    live_keyed f i st = true
      ∧ live_keyed f i (call_getmsg env i st).2 = true
      ∧ ((call_getmsg env i st).1 = Outcome.ok return_value_t.WHOLE_MESSAGE_RECEIVED →
          receive_data env f st
              = (deliver_whole_message env i >>= fun _ => release_buffer i)
                  (call_getmsg env i st).2
            ∧ live_keyed f i
                (modify_item i (fun it => { it with processing_message := false })
                  (call_getmsg env i st).2).2 = true
            ∧ (env.recvmsg.MSG_NOTIFICATION = false →
                live_keyed f i (deliver_whole_message env i (call_getmsg env i st).2).2 = true)
            ∧ (∀ x bs, (call_getmsg env i st).2.fd_map[i]? = some x → x.buf = some bs →
                ¬ ((env.sn bs).sn_type = SCTP_ASSOC_CHANGE
                    ∧ (env.sn bs).sac_state = SCTP_COMM_LOST) →
                live_keyed f i (deliver_whole_message env i (call_getmsg env i st).2).2 = true)
            ∧ (∀ x bs, (call_getmsg env i st).2.fd_map[i]? = some x → x.buf = some bs →
                env.recvmsg.MSG_NOTIFICATION = true →
                (env.sn bs).sn_type = SCTP_ASSOC_CHANGE →
                (env.sn bs).sac_state = SCTP_COMM_LOST →
                ((st.simple_mode && st.reconnect) = false →
                  ∃ st3,
                    deliver_whole_message env i (call_getmsg env i st).2
                      = (Outcome.ok (), st3)
                    ∧ st3.fd_map[i]? = some erased_item
                    ∧ live_keyed f i st3 = false
                    ∧ release_buffer i st3 = (Outcome.ok (), st3))
                ∧ ((st.simple_mode && st.reconnect) = true →
                  ∃ st3,
                    deliver_whole_message env i (call_getmsg env i st).2
                      = (Outcome.fatal Fatal.undefined_behaviour, st3)
                    ∧ receive_data env f st
                      = (Outcome.fatal Fatal.undefined_behaviour, st3)))) := by
  obtain ⟨it, hit, hler, hfd⟩ := map_get_item_found f st i hidx
  subst hfd
  have hi : i < st.fd_map.length := (List.getElem?_eq_some_iff.mp hit).1
  obtain ⟨x, calls0, hst2, hxfd, hxer⟩ := call_getmsg_state env st i it hidx hit
  have hxi : (call_getmsg env i st).2.fd_map[i]? = some x := by
    rw [hst2]; exact List.getElem?_set_self hi
  refine ⟨live_keyed_of_slot hit rfl hler, live_keyed_of_slot hxi hxfd (hxer.trans hler), ?_⟩
  intro hwhole
  have hcases := receive_data_cases env it.fd st i hidx
  cases hg : call_getmsg env i st with
  | mk o st2 =>
    rw [hg] at hwhole hcases hst2 hxi
    simp only [] at hwhole hst2 hxi
    subst hwhole
    simp only [] at hcases
    have hi2 : i < st2.fd_map.length := (List.getElem?_eq_some_iff.mp hxi).1
    obtain ⟨y, hy⟩ : ∃ y : fd_map_item, y = { x with processing_message := false } :=
      ⟨_, rfl⟩
    have hyfd : y.fd = it.fd := by rw [hy]; exact hxfd
    have hyer : y.erased = false := by rw [hy]; exact hxer.trans hler
    have hybuf : y.buf = x.buf := by rw [hy]
    have hset : (st2.fd_map.set i y)[i]? = some y := List.getElem?_set_self hi2
    have h528 : modify_item i (fun it => { it with processing_message := false }) st2
        = (Outcome.ok (), { st2 with fd_map := st2.fd_map.set i y }) := by
      rw [hy]; exact modify_item_run hxi _
    have hdata : env.recvmsg.MSG_NOTIFICATION = false →
        (deliver_whole_message env i st2).2.fd_map = st2.fd_map.set i y := by
      intro hn
      rw [hy]
      unfold deliver_whole_message
      simp [hxi, hn, List.getElem?_set_self hi2, incoming_message]
    refine ⟨hcases, ?_, ?_, ?_, ?_⟩
    · rw [h528]
      exact live_keyed_of_slot hset hyfd hyer
    · intro hn
      exact live_keyed_of_slot (by rw [hdata hn]; exact hset) hyfd hyer
    · intro z bs hz hbs hnot
      rw [hxi] at hz
      cases hz
      cases hn : env.recvmsg.MSG_NOTIFICATION
      · exact live_keyed_of_slot (by rw [hdata hn]; exact hset) hyfd hyer
      · rw [deliver_notification_run y hy hxi hn, hbs]
        simp only []
        obtain ⟨calls, fd1, m, ms, -, -, -, -, hrun, hsame, -⟩ := handle_event_run env i bs
          { st2 with fd_map := st2.fd_map.set i y }
        obtain ⟨-, hm, -⟩ := hsame hnot
        subst hm
        rw [hrun]
        split
        · rename_i hre
          simp only [reread_due, Bool.and_eq_true, beq_iff_eq] at hre
          have hl : (env.sn bs).sac_state ≠ SCTP_COMM_LOST := fun h => hnot ⟨hre.1.1, h⟩
          obtain ⟨-, -, -, hkeep⟩ := reconnect_on_reread_trace env i (env.sn bs).sac_state
            { st2 with fd := fd1, fd_map := st2.fd_map.set i y, fd_map_server := ms,
                       trace := st2.trace ++ calls }
          rw [hkeep hl]
          exact live_keyed_of_slot hset hyfd hyer
        · exact live_keyed_of_slot hset hyfd hyer
    · intro z bs hz hbs hn hty hl
      rw [hxi] at hz
      cases hz
      obtain ⟨calls, fd1, m, ms, -, -, -, -, hrun, -, hlost⟩ := handle_event_run env i bs
        { st2 with fd_map := st2.fd_map.set i y }
      have hfirst : first_with_fd it.fd (st2.fd_map.set i y) 0 = some i := by
        rw [first_with_fd_set it.fd st2.fd_map 0 i x y hxi (by rw [hy]), hst2,
          first_with_fd_set it.fd st.fd_map 0 i it x hit hxfd]
        simpa using first_with_fd_of_unique it.fd st.fd_map 0 i it hit hler rfl hf huniq her
      have hrecv : st2.receiving_fd = it.fd := by rw [hst2]
      have hm : m = st2.fd_map.set i erased_item := by
        rw [hlost ⟨hty, hl⟩]
        simp [table_remove_fd, hrecv, hf, hfirst]
      subst hm
      have hslot : (st2.fd_map.set i erased_item)[i]? = some erased_item :=
        List.getElem?_set_self hi2
      have hmode : st2.simple_mode = st.simple_mode ∧ st2.reconnect = st.reconnect := by
        rw [hst2]; exact ⟨rfl, rfl⟩
      have hdeliver : deliver_whole_message env i st2
          = handle_event env i bs { st2 with fd_map := st2.fd_map.set i y } := by
        rw [deliver_notification_run y hy hxi hn, hbs]
      constructor
      · intro hoff
        have hre : reread_due { st2 with fd_map := st2.fd_map.set i y } (env.sn bs)
            = false := by
          simp only [Bool.and_eq_false_iff] at hoff
          rcases hoff with h | h
          · simp [reread_due, hmode.1, h]
          · simp [reread_due, hmode.2, h]
        have hok : deliver_whole_message env i st2
            = (Outcome.ok (),
                { st2 with fd := fd1, fd_map := st2.fd_map.set i erased_item,
                           fd_map_server := ms, trace := st2.trace ++ calls }) := by
          rw [hdeliver, hrun, hre]
          simp
        refine ⟨_, hok, hslot, ?_, ?_⟩
        · simp only [live_keyed, hslot]
          rfl
        · rw [release_buffer_run hslot]
          simp [erased_item, List.set_set]
      · intro hon
        simp only [Bool.and_eq_true] at hon
        have hre : reread_due { st2 with fd_map := st2.fd_map.set i y } (env.sn bs)
            = true := by
          simp [reread_due, hty, hmode.1, hmode.2, hon.1, hon.2]
        have hfatal : deliver_whole_message env i st2
            = (Outcome.fatal Fatal.undefined_behaviour,
                { st2 with fd := fd1, fd_map := st2.fd_map.set i erased_item,
                           fd_map_server := ms, trace := st2.trace ++ calls }) := by
          rw [hdeliver, hrun, hre]
          simp only [if_true]
          exact reconnect_on_reread_freed env i _
            ({ st2 with fd := fd1, fd_map := st2.fd_map.set i erased_item,
                        fd_map_server := ms, trace := st2.trace ++ calls } : PortState)
            erased_item hslot rfl
        refine ⟨_, hfatal, ?_⟩
        rw [hcases, bind_run, hfatal]

theorem C15_index_valid_until_release_witness :
    (live_keyed 5 0 example_state = true
      ∧ live_keyed 5 0 (call_getmsg comm_lost_env 0 example_state).2 = true
      ∧ ∃ st3,
          deliver_whole_message comm_lost_env 0 (call_getmsg comm_lost_env 0 example_state).2
            = (Outcome.ok (), st3)
          ∧ st3.fd_map[0]? = some erased_item
          ∧ live_keyed 5 0 st3 = false
          ∧ release_buffer 0 st3 = (Outcome.ok (), st3))
    ∧ ∃ st3,
        deliver_whole_message comm_lost_env 0
            (call_getmsg comm_lost_env 0 { example_state with reconnect := true }).2
          = (Outcome.fatal Fatal.undefined_behaviour, st3)
        ∧ receive_data comm_lost_env 5 { example_state with reconnect := true }
          = (Outcome.fatal Fatal.undefined_behaviour, st3) :=
  ⟨⟨(C15_index_valid_until_release comm_lost_env 5 example_state 0 rfl (by decide)
        (by decide) (by decide)).1,
      (C15_index_valid_until_release comm_lost_env 5 example_state 0 rfl (by decide)
        (by decide) (by decide)).2.1,
      (((C15_index_valid_until_release comm_lost_env 5 example_state 0 rfl (by decide)
        (by decide) (by decide)).2.2 rfl).2.2.2.2 _ _ rfl rfl rfl rfl rfl).1 rfl⟩,
    (((C15_index_valid_until_release comm_lost_env 5 { example_state with reconnect := true }
        0 rfl (by decide) (by decide) (by decide)).2.2 rfl).2.2.2.2 _ _ rfl rfl rfl rfl
      rfl).2 rfl⟩

/-! ## The writable handler when the connect has not completed -/

/-- What the writable handler does when the `connect` it issues again fails for another
reason than `EISCONN`. -/
theorem Handle_Fd_Event_Writable_failure (env : Env) (f : Int) (st : PortState) (j : Nat)
    (it : fd_map_item) (hmux : st.simple_mode = false) (hit : st.fd_map[j]? = some it)
    (hlive : it.erased = false) (hfd : it.fd = f) (hprog : it.einprogress = true)
    (hf : f ≠ -1) (huniq : live_count f st.fd_map ≤ 1)
    (her : ∀ x ∈ st.fd_map, x.erased = true → x.fd = -1)
    (hret : (env.connect 0).ret = -1) (herrno : (env.connect 0).errno ≠ EISCONN) :
    Handle_Fd_Event_Writable env f st
      = (Outcome.ok (),
          { st with
            fd := -1
            fd_map := st.fd_map.set j erased_item
            trace := st.trace
              ++ [Effect.connect f it.sin it.saLen, Effect.Handler_Remove_Fd_Write f,
                  Effect.close f,
                  Effect.incoming_message
                    (Message.ASP_SCTP_RESULT (some f) true (some (env.connect 0).errno)),
                  Effect.close f, Effect.Handler_Remove_Fd f]
              ++ (if it.buf.isSome then [Effect.Free] else []) }) := by
  have hidx : map_get_item f st = (j : Int) := by
    have := map_get_item_from_unique f st.fd_map 0 j it hit
      (by simp [live_with_fd, hlive, hfd]) huniq
    simpa [map_get_item] using this
  have hfirst : first_with_fd f st.fd_map 0 = some j := by
    simpa using first_with_fd_of_unique f st.fd_map 0 j it hit hlive hfd hf huniq her
  have hne : ((j : Int) != -1) = true := by simp
  have hcond : (!it.erased && it.einprogress) = true := by simp [hlive, hprog]
  have herr : ((env.connect 0).errno == EISCONN) = false := by simpa using herrno
  have hfne : (f != -1) = true := by simpa using hf
  subst hfd
  unfold Handle_Fd_Event_Writable map_delete_item_fd
  simp only [bind_run, getState_run, hidx, hne, hmux, Bool.not_false, Bool.and_self,
    if_true, item_natCast, hit, hcond, emit_run, hret, beq_self_eq_true, herr,
    Bool.false_eq_true, if_false, incoming_message, modifyState_run, hfne, hfirst,
    map_delete_item_natCast, List.append_assoc]
  simp [delete_calls, hfne]

/-- C21: for every live record with fd `f` whose `einprogress` flag is set, in
multiplexed mode (`f` a descriptor, at most one live record per fd, erased records with
fd `-1`), when the `connect` the writable handler issues again returns `-1` with an
`errno` other than `EISCONN`, the handler returns, the connection table then has no live
record keyed by `f`, and one connect-result event with client id `f` and error status
true was emitted; but `close` was issued on `f` twice: once by the handler itself (line
394) and once more by `map_delete_item`, whose test `fd_map[index].fd != -1` still finds
`f` in the record. -/
theorem C21_deferred_connect_failure (env : Env) (f : Int) (st : PortState) (j : Nat)
    (it : fd_map_item) (hmux : st.simple_mode = false) (hit : st.fd_map[j]? = some it)
    (hlive : it.erased = false) (hfd : it.fd = f) (hprog : it.einprogress = true)
    (hf : f ≠ -1) (huniq : live_count f st.fd_map ≤ 1)
    (her : ∀ x ∈ st.fd_map, x.erased = true → x.fd = -1)
    (hret : (env.connect 0).ret = -1) (herrno : (env.connect 0).errno ≠ EISCONN) :
    ∃ calls st1,
      Handle_Fd_Event_Writable env f st = (Outcome.ok (), st1)
      ∧ st1.trace = st.trace ++ calls
      ∧ live_count f st1.fd_map = 0
      ∧ events_of calls
          = [Message.ASP_SCTP_RESULT (some f) true (some (env.connect 0).errno)]
      ∧ closes calls = [f, f] := by
  have hj : j < st.fd_map.length := (List.getElem?_eq_some_iff.mp hit).1
  refine ⟨[Effect.connect f it.sin it.saLen, Effect.Handler_Remove_Fd_Write f,
      Effect.close f,
      Effect.incoming_message
        (Message.ASP_SCTP_RESULT (some f) true (some (env.connect 0).errno)),
      Effect.close f, Effect.Handler_Remove_Fd f]
      ++ (if it.buf.isSome then [Effect.Free] else []), _,
    Handle_Fd_Event_Writable_failure env f st j it hmux hit hlive hfd hprog hf
      huniq her hret herrno, (List.append_assoc _ _ _), ?_, ?_, ?_⟩
  · have hrm := table_remove_fd_removes f st.fd_map hf huniq her
    have hfirst : first_with_fd f st.fd_map 0 = some j := by
      simpa using first_with_fd_of_unique f st.fd_map 0 j it hit hlive hfd hf huniq her
    simpa [table_remove_fd, hf, hfirst] using hrm
  · cases hb : it.buf.isSome <;> simp [events_of, hb]
  · cases hb : it.buf.isSome <;> simp [closes, hb]

theorem C21_deferred_connect_failure_witness :
    ∃ calls st1,
      Handle_Fd_Event_Writable refused_env 5 connecting_state = (Outcome.ok (), st1)
      ∧ st1.trace = connecting_state.trace ++ calls
      ∧ live_count 5 st1.fd_map = 0
      ∧ events_of calls
          = [Message.ASP_SCTP_RESULT (some 5) true (some (refused_env.connect 0).errno)]
      ∧ closes calls = [5, 5] :=
  C21_deferred_connect_failure refused_env 5 connecting_state 0
    { erased_item with fd := 5, erased := false, einprogress := true,
                       sin := ⟨AF_INET, 9000, [10, 0, 0, 1]⟩, saLen := 16 }
    rfl rfl rfl rfl rfl (by decide) (by decide) (by decide) rfl (by decide)

/-- C27: the writable handler for the fd `f` returns and leaves the port as it was, with
the flag still set, no readiness-notifier call and no event, when the record of `f` is
live with `einprogress` set in multiplexed mode and the `connect` issued again returns
something other than `-1` (that `connect` on `f` with the stored address is then the
only call made); and it returns with the port unchanged and no call at all when no live
record is keyed by `f`, when the port is in simple mode, or when the flag of the live
record keyed by `f` is clear (at most one live record per fd). -/
theorem C27_writable_handler_idle (env : Env) (f : Int) (st : PortState) :
    (∀ (j : Nat) (it : fd_map_item), st.simple_mode = false → st.fd_map[j]? = some it →
        it.erased = false → it.fd = f → it.einprogress = true →
        live_count f st.fd_map ≤ 1 → (env.connect 0).ret ≠ -1 →
        Handle_Fd_Event_Writable env f st
            = (Outcome.ok (),
                { st with trace := st.trace ++ [Effect.connect f it.sin it.saLen] })
          ∧ (Handle_Fd_Event_Writable env f st).2.fd_map[j]? = some it)
    ∧ (live_count f st.fd_map = 0 →
        Handle_Fd_Event_Writable env f st = (Outcome.ok (), st))
    ∧ (st.simple_mode = true → Handle_Fd_Event_Writable env f st = (Outcome.ok (), st))
    ∧ (∀ (j : Nat) (it : fd_map_item), st.fd_map[j]? = some it → it.erased = false →
        it.fd = f → it.einprogress = false → live_count f st.fd_map ≤ 1 →
        Handle_Fd_Event_Writable env f st = (Outcome.ok (), st)) := by
  refine ⟨?_, ?_, ?_, ?_⟩
  · intro j it hmux hit hlive hfd hprog huniq hret
    have hidx : map_get_item f st = (j : Int) := by
      have := map_get_item_from_unique f st.fd_map 0 j it hit
        (by simp [live_with_fd, hlive, hfd]) huniq
      simpa [map_get_item] using this
    have hne : ((j : Int) != -1) = true := by simp
    have hcond : (!it.erased && it.einprogress) = true := by simp [hlive, hprog]
    have hr : ((env.connect 0).ret == -1) = false := by simpa using hret
    have hrun : Handle_Fd_Event_Writable env f st
        = (Outcome.ok (),
            { st with trace := st.trace ++ [Effect.connect f it.sin it.saLen] }) := by
      subst hfd
      unfold Handle_Fd_Event_Writable
      simp only [bind_run, getState_run, hidx, hne, hmux, Bool.not_false, Bool.and_self,
        if_true, item_natCast, hit, hcond, emit_run, hr, Bool.false_eq_true, if_false,
        pure_run]
    exact ⟨hrun, by rw [hrun]; exact hit⟩
  · intro hnone
    have hidx : map_get_item f st = -1 := (map_get_item_neg_one f st).mpr hnone
    unfold Handle_Fd_Event_Writable
    simp [bind_run, getState_run, hidx, pure_run]
  · intro hsimple
    unfold Handle_Fd_Event_Writable
    simp [bind_run, getState_run, hsimple, pure_run]
  · intro j it hit hlive hfd hprog huniq
    have hidx : map_get_item f st = (j : Int) := by
      have := map_get_item_from_unique f st.fd_map 0 j it hit
        (by simp [live_with_fd, hlive, hfd]) huniq
      simpa [map_get_item] using this
    have hne : ((j : Int) != -1) = true := by simp
    have hcond : (!it.erased && it.einprogress) = false := by simp [hprog]
    unfold Handle_Fd_Event_Writable
    cases hs : st.simple_mode
    · simp only [bind_run, getState_run, hidx, hne, hs, Bool.not_false, Bool.and_self,
        if_true, item_natCast, hit, hcond, Bool.false_eq_true, if_false, pure_run]
    · simp [bind_run, getState_run, hs, pure_run]

theorem C27_writable_handler_idle_witness :
    (Handle_Fd_Event_Writable accepting_env 5 connecting_state
        = (Outcome.ok (),
            { connecting_state with
              trace := connecting_state.trace
                ++ [Effect.connect 5 ⟨AF_INET, 9000, [10, 0, 0, 1]⟩ 16] })
      ∧ (Handle_Fd_Event_Writable accepting_env 5 connecting_state).2.fd_map[0]?
          = some { erased_item with fd := 5, erased := false, einprogress := true,
                                    sin := ⟨AF_INET, 9000, [10, 0, 0, 1]⟩, saLen := 16 })
    ∧ Handle_Fd_Event_Writable accepting_env 6 connecting_state
        = (Outcome.ok (), connecting_state)
    ∧ Handle_Fd_Event_Writable accepting_env 5 example_state = (Outcome.ok (), example_state)
    ∧ Handle_Fd_Event_Writable accepting_env 5 multiplexed_state
        = (Outcome.ok (), multiplexed_state) :=
  ⟨(C27_writable_handler_idle accepting_env 5 connecting_state).1 0
      { erased_item with fd := 5, erased := false, einprogress := true,
                         sin := ⟨AF_INET, 9000, [10, 0, 0, 1]⟩, saLen := 16 }
      rfl rfl rfl rfl rfl (by decide) (by decide),
    (C27_writable_handler_idle accepting_env 6 connecting_state).2.1 (by decide),
    (C27_writable_handler_idle accepting_env 5 example_state).2.2.1 (by decide),
    (C27_writable_handler_idle accepting_env 5 multiplexed_state).2.2.2 0
      { erased_item with fd := 5, erased := false } rfl rfl rfl rfl (by decide)⟩

/-! ## Room left in the buffer after a partial receive -/

theorem all_part_sum_pos (es : List Env) (e : Env) (h : all_part (es ++ [e]) = true) :
    0 < ((es ++ [e]).map fun x => x.recvmsg.value).sum := by
  induction es with
  | nil =>
    simp only [all_part, List.nil_append, List.all_cons, List.all_nil, Bool.and_true,
      Bool.and_eq_true, decide_eq_true_eq] at h
    simpa using h.1
  | cons x xs ih =>
    simp only [all_part, List.cons_append, List.all_cons, Bool.and_eq_true,
      decide_eq_true_eq] at h
    have := ih (by simpa [all_part] using h.2)
    simp only [List.cons_append, List.map_cons, List.sum_cons]
    omega

/-- C26: for a connection in the empty state, after every run of receives that `getmsg`
classifies as `PARTIAL_RECEIVE` (each returns a positive count no larger than the length
offered to it, without the end-of-record flag), the handler has returned, a message is in
progress, and the slot's accumulated-byte count `nr` is positive and strictly less than
its capacity `buflen`; so the next call of the handler for the fd hands `getmsg` an
`iov` at offset `nr` of the buffer with the non-zero length `buflen - nr`. -/
theorem C26_room_after_partial_receive (f : Int) (i : Nat) (es : List Env) (e e2 : Env)
    (st : PortState) (it : fd_map_item) (hidx : map_get_item f st = (i : Int))
    (hit : st.fd_map[i]? = some it) (hnl : not_listening f st = true)
    (hempty : it.processing_message = false)
    (hall : all_part (es ++ [e]) = true)
    (hoff : within_offered it (es ++ [e]) = true) :
    ∃ st2 it2,
      readable_calls f (es ++ [e]) st = (Outcome.ok (), st2)
      ∧ st2.fd_map[i]? = some it2
      ∧ it2.processing_message = true
      ∧ 0 < it2.nr ∧ it2.nr < it2.buflen ∧ 0 < it2.buflen - it2.nr
      ∧ ∃ st3, st3.fd_map[i]? = some it2
          ∧ call_getmsg e2 i st2
            = getmsg e2 f { iov_index := i, iov_offset := it2.nr,
                            iov_len := it2.buflen - it2.nr } st3 := by
  have hi : i < st.fd_map.length := (List.getElem?_eq_some_iff.mp hit).1
  obtain ⟨it0, hit0, her, hfd⟩ := map_get_item_found f st i hidx
  rw [hit] at hit0
  cases hit0
  have hb0 : between_receives it := by
    intro h; rw [hempty] at h; cases h
  have hpm : (slot_after_parts it (es ++ [e])).processing_message = true := by
    rw [slot_after_parts_append]; rfl
  have hb := slot_after_parts_between it (es ++ [e]) hb0 hoff hpm
  have hnr : (slot_after_parts it (es ++ [e])).nr
      = ((es ++ [e]).map fun x => x.recvmsg.value).sum := by
    have h1 := base_nr_slot_after_parts it (es ++ [e])
    simpa [base_nr, hpm, hempty] using h1
  have hrun := readable_calls_parts f i (es ++ [e]) st it hidx hit hnl hall
  have hfd2 : (slot_after_parts it (es ++ [e])).fd = f := by
    rw [slot_after_parts_fd]; exact hfd
  have hset : ({ st with
      receiving_fd := if (es ++ [e]).isEmpty then st.receiving_fd else f
      fd_map := st.fd_map.set i (slot_after_parts it (es ++ [e]))
      trace := st.trace ++ calls_parts it (es ++ [e]) } : PortState).fd_map[i]?
      = some (slot_after_parts it (es ++ [e])) := by
    simp [List.getElem?_set_self hi]
  refine ⟨_, slot_after_parts it (es ++ [e]), hrun, hset, hpm, ?_, hb.2, by omega, ?_⟩
  · rw [hnr]; exact all_part_sum_pos es e hall
  · obtain ⟨st3, -, -, hit3, hcall⟩ := call_getmsg_run e2 _ i
      (slot_after_parts it (es ++ [e]))
      (by
        rw [hfd2]
        rw [map_get_item_set f st _ i it (slot_after_parts it (es ++ [e])) hit rfl
          (slot_after_parts_fd it _) (slot_after_parts_erased it _), hidx])
      hset
    refine ⟨st3, ?_, ?_⟩
    · simpa [slot_prepared, hpm] using hit3
    · rw [hcall, hfd2]
      simp [offered_offset, offered_len, hpm]

set_option maxRecDepth 100000 in
theorem C26_room_after_partial_receive_witness :
    ∃ st2 it2,
      readable_calls 5
          ([example_env (fragment (List.replicate 1024 7) false) fun _ => true]
            ++ [example_env (fragment (List.replicate 1024 8) false) fun _ => true])
          example_state = (Outcome.ok (), st2)
      ∧ st2.fd_map[0]? = some it2
      ∧ it2.processing_message = true
      ∧ 0 < it2.nr ∧ it2.nr < it2.buflen ∧ 0 < it2.buflen - it2.nr
      ∧ ∃ st3, st3.fd_map[0]? = some it2
          ∧ call_getmsg three_bytes_env 0 st2
            = getmsg three_bytes_env 5 { iov_index := 0, iov_offset := it2.nr,
                                         iov_len := it2.buflen - it2.nr } st3 :=
  C26_room_after_partial_receive 5 0 _ _ three_bytes_env example_state
    { erased_item with fd := 5, erased := false } (by decide) (by decide) (by decide)
    (by decide) (by decide) (by decide)

/-! ## The send request -/

theorem INTEGER_to_int_native (v : Int) (st : PortState) (h : is_native v = true) :
    INTEGER_to_int v st = (Outcome.ok v, st) := by
  simp [INTEGER_to_int, h, pure_run]

/-- For a payload protocol id in `[0, 2^32)` lines 1080-1091 raise no error. -/
theorem outgoing_send_sinfo_ppid_returns (le : Bool) (p : Int) (st : PortState)
    (h0 : 0 ≤ p) (h1 : p < 2 ^ 32) :
    ∃ w, outgoing_send_sinfo_ppid le p st = (Outcome.ok w, st) := by
  obtain ⟨n, rfl⟩ := Int.eq_ofNat_of_zero_le h0
  have hn : n < 4294967296 := by exact_mod_cast h1
  unfold outgoing_send_sinfo_ppid
  by_cases hnat : (is_native (n : Int) && decide ((n : Int) > 0)) = true
  · exact ⟨_, by simp only [hnat, if_true, bind_run, pure_run]; rfl⟩
  · have hos : int2oct (n : Int) 4
        = some [n / 256 ^ 3 % 256, n / 256 ^ 2 % 256, n / 256 ^ 1 % 256, n / 256 ^ 0 % 256] := by
      simp [int2oct, hn, List.range_succ]
    exact ⟨_, by simp only [hnat, Bool.false_eq_true, if_false, hos, bind_run, pure_run]; rfl⟩
theorem map_get_item_server_neg_one (fd : Int) (st : PortState) :
    map_get_item_server fd st = -1 ↔ live_server_count fd st.fd_map_server = 0 :=
  map_get_item_server_from_neg_one fd st.fd_map_server 0

theorem outgoing_send_target_run (client_id : Option Int) (st : PortState)
    (hcid : ∀ c, client_id = some c → is_native c = true) :
    (send_rejected st client_id = true →
      ∃ e, outgoing_send_target client_id st = (Outcome.fatal e, st))
    ∧ (send_rejected st client_id = false →
        outgoing_send_target client_id st = (Outcome.ok (send_target st client_id), st)) := by
  unfold outgoing_send_target send_rejected send_target
  cases hs : st.simple_mode
  · cases client_id with
    | none => simp [bind_run, getState_run, hs, error]
    | some c =>
      have hc := hcid c rfl
      simp only [bind_run, getState_run, hs, Bool.not_false, if_true, INTEGER_to_int_native _ _ hc]
      by_cases h1 : map_get_item c st = -1
      · by_cases h2 : map_get_item_server c st = -1
        · have h3 := (map_get_item_neg_one c st).mp h1
          have h4 := (map_get_item_server_neg_one c st).mp h2
          simp [h1, h2, h3, h4, error, bind_run]
        · have h4 : live_server_count c st.fd_map_server ≠ 0 :=
            fun h => h2 ((map_get_item_server_neg_one c st).mpr h)
          simp [h1, h2, h4, pure_run, bind_run]
      · have h3 : live_count c st.fd_map ≠ 0 :=
          fun h => h1 ((map_get_item_neg_one c st).mpr h)
        simp [h1, h3, pure_run, bind_run]
  · cases hv : st.server_mode
    · cases client_id with
      | some c => simp [bind_run, getState_run, hs, hv, error]
      | none =>
        by_cases h1 : map_get_item st.fd st = -1
        · have h3 := (map_get_item_neg_one st.fd st).mp h1
          simp [bind_run, getState_run, hs, hv, error, h1, h3, pure_run]
        · have h3 : live_count st.fd st.fd_map ≠ 0 :=
            fun h => h1 ((map_get_item_neg_one st.fd st).mpr h)
          simp [bind_run, getState_run, hs, hv, h1, h3, pure_run]
    · cases client_id with
      | none => simp [bind_run, getState_run, hs, hv, error]
      | some c =>
        have hc := hcid c rfl
        by_cases h1 : map_get_item c st = -1
        · have h3 := (map_get_item_neg_one c st).mp h1
          simp [bind_run, getState_run, hs, hv, error, h1, h3, pure_run,
            INTEGER_to_int_native _ _ hc]
        · have h3 : live_count c st.fd_map ≠ 0 :=
            fun h => h1 ((map_get_item_neg_one c st).mpr h)
          simp [bind_run, getState_run, hs, hv, h1, h3, pure_run,
            INTEGER_to_int_native _ _ hc]

/-- What a send request does, for a valid stream id and payload protocol id. -/
theorem outgoing_send_ASP_SCTP_run (env : Env) (client_id : Option Int)
    (sinfo_stream sinfo_ppid : Int) (data : List Nat) (st : PortState)
    (hstream : is_native sinfo_stream = true) (h0 : 0 ≤ sinfo_ppid)
    (h1 : sinfo_ppid < 2 ^ 32) (hcid : ∀ c, client_id = some c → is_native c = true) :
    (send_rejected st client_id = true →
      ∃ e, outgoing_send_ASP_SCTP env client_id sinfo_stream sinfo_ppid data st
        = (Outcome.fatal e, st))
    ∧ (send_rejected st client_id = false →
      ∃ w, outgoing_send_ASP_SCTP env client_id sinfo_stream sinfo_ppid data st
        = (Outcome.ok (),
            { st with
              trace := st.trace
                ++ [Effect.sendmsg (send_target st client_id) (sinfo_stream % 65536) w data]
                ++ (if env.sendmsg < 0 then
                      [Effect.incoming_message
                        (Message.ASP_SCTP_SENDMSG_ERROR
                          (if st.server_mode then some (send_target st client_id) else none)
                          sinfo_stream sinfo_ppid data)]
                    else []) })) := by
  obtain ⟨hrej, hacc⟩ := outgoing_send_target_run client_id st hcid
  obtain ⟨w, hw⟩ := outgoing_send_sinfo_ppid_returns env.little_endian sinfo_ppid st h0 h1
  constructor
  · intro h
    obtain ⟨e, he⟩ := hrej h
    refine ⟨e, ?_⟩
    unfold outgoing_send_ASP_SCTP
    simp only [bind_run, INTEGER_to_int_native _ _ hstream, he]
  · intro h
    refine ⟨w, ?_⟩
    unfold outgoing_send_ASP_SCTP
    simp only [bind_run, INTEGER_to_int_native _ _ hstream, hacc h, hw, emit_run]
    by_cases hs : env.sendmsg < 0
    · simp [hs, bind_run, getState_run, incoming_message, emit_run]
    · simp [hs, pure_run]

/-- C22: for a stream id held in an `int`, a payload protocol id in `[0, 2^32)` and a
client id that, when present, is held in an `int`, the send request ends in a fatal
error exactly when (a) in multiplexed mode the client id is omitted or names an fd live
in neither the connection table nor the listener table, (b) in simple server mode it is
omitted or names an fd not live in the connection table, (c) in simple client mode it
is present or the port's `fd` is not live in the connection table; the rejected request
leaves the port as it was, with no call made, and the request that is not rejected
returns after exactly one `sendmsg`. -/
theorem C22_send_target_validation (env : Env) (client_id : Option Int)
    (sinfo_stream sinfo_ppid : Int) (data : List Nat) (st : PortState)
    (hstream : is_native sinfo_stream = true) (h0 : 0 ≤ sinfo_ppid)
    (h1 : sinfo_ppid < 2 ^ 32) (hcid : ∀ c, client_id = some c → is_native c = true) :
    ((∃ e, (outgoing_send_ASP_SCTP env client_id sinfo_stream sinfo_ppid data st).1
          = Outcome.fatal e)
        ↔ send_rejected st client_id = true)
    ∧ (send_rejected st client_id = true →
        (outgoing_send_ASP_SCTP env client_id sinfo_stream sinfo_ppid data st).2 = st)
    ∧ (send_rejected st client_id = false →
        ∃ calls,
          (outgoing_send_ASP_SCTP env client_id sinfo_stream sinfo_ppid data st).1
            = Outcome.ok ()
          ∧ (outgoing_send_ASP_SCTP env client_id sinfo_stream sinfo_ppid data st).2.trace
            = st.trace ++ calls
          ∧ sendmsg_count calls = 1) := by
  obtain ⟨hrej, hacc⟩ := outgoing_send_ASP_SCTP_run env client_id sinfo_stream sinfo_ppid
    data st hstream h0 h1 hcid
  refine ⟨⟨?_, ?_⟩, ?_, ?_⟩
  · rintro ⟨e, he⟩
    cases hn : send_rejected st client_id
    · obtain ⟨w, hw⟩ := hacc hn
      rw [hw] at he
      cases he
    · rfl
  · intro h
    obtain ⟨e, he⟩ := hrej h
    exact ⟨e, by rw [he]⟩
  · intro h
    obtain ⟨e, he⟩ := hrej h
    rw [he]
  · intro h
    obtain ⟨w, hw⟩ := hacc h
    rw [hw]
    refine ⟨_, rfl, List.append_assoc _ _ _, ?_⟩
    by_cases hs : env.sendmsg < 0 <;> simp [sendmsg_count, hs]

theorem C22_send_target_validation_witness :
    ((∃ e, (outgoing_send_ASP_SCTP connected_env (some 6) 3 1 [1, 2] multiplexed_state).1
          = Outcome.fatal e)
        ↔ send_rejected multiplexed_state (some 6) = true)
    ∧ (send_rejected multiplexed_state (some 6) = true →
        (outgoing_send_ASP_SCTP connected_env (some 6) 3 1 [1, 2] multiplexed_state).2
          = multiplexed_state)
    ∧ (send_rejected multiplexed_state (some 6) = false →
        ∃ calls,
          (outgoing_send_ASP_SCTP connected_env (some 6) 3 1 [1, 2] multiplexed_state).1
            = Outcome.ok ()
          ∧ (outgoing_send_ASP_SCTP connected_env (some 6) 3 1 [1, 2]
              multiplexed_state).2.trace
            = multiplexed_state.trace ++ calls
          ∧ sendmsg_count calls = 1) :=
  C22_send_target_validation connected_env (some 6) 3 1 [1, 2] multiplexed_state
    (by decide) (by decide) (by decide) (by intro c hc; cases hc; decide)

/-- C23: when the `sendmsg` of a send request that passed the checks fails, the request
returns after that one `sendmsg` and one send-failed event that carries the caller's
stream id, payload protocol id and payload; the connection table is unchanged.  The
client id of the event is the target only `if (server_mode)`: in multiplexed mode, where
`server_mode` is not set, the event carries no client id although the caller supplied
one. -/
theorem C23_send_failure_event (env : Env) (client_id : Option Int)
    (sinfo_stream sinfo_ppid : Int) (data : List Nat) (st : PortState)
    (hstream : is_native sinfo_stream = true) (h0 : 0 ≤ sinfo_ppid)
    (h1 : sinfo_ppid < 2 ^ 32) (hcid : ∀ c, client_id = some c → is_native c = true)
    (hok : send_rejected st client_id = false) (hfail : env.sendmsg < 0) :
    ∃ calls st1,
      outgoing_send_ASP_SCTP env client_id sinfo_stream sinfo_ppid data st
        = (Outcome.ok (), st1)
      ∧ st1.trace = st.trace ++ calls
      ∧ st1.fd_map = st.fd_map
      ∧ sendmsg_count calls = 1
      ∧ events_of calls
          = [Message.ASP_SCTP_SENDMSG_ERROR
              (if st.server_mode then some (send_target st client_id) else none)
              sinfo_stream sinfo_ppid data]
      ∧ (st.simple_mode = false → st.server_mode = false →
          client_id = some (send_target st client_id)
            ∧ events_of calls
              = [Message.ASP_SCTP_SENDMSG_ERROR none sinfo_stream sinfo_ppid data]) := by
  obtain ⟨-, hacc⟩ := outgoing_send_ASP_SCTP_run env client_id sinfo_stream sinfo_ppid
    data st hstream h0 h1 hcid
  obtain ⟨w, hw⟩ := hacc hok
  refine ⟨_, _, hw, List.append_assoc _ _ _, rfl, ?_, ?_, ?_⟩
  · simp [sendmsg_count, hfail]
  · simp [events_of, hfail]
  · intro hs hv
    constructor
    · cases client_id with
      | none => simp [send_rejected, hs] at hok
      | some c => simp [send_target, hs]
    · simp [events_of, hfail, hv]

theorem C23_send_failure_event_witness :
    ∃ calls st1,
      outgoing_send_ASP_SCTP send_failing_env (some 5) 3 1 [1, 2] multiplexed_state
        = (Outcome.ok (), st1)
      ∧ st1.trace = multiplexed_state.trace ++ calls
      ∧ st1.fd_map = multiplexed_state.fd_map
      ∧ sendmsg_count calls = 1
      ∧ events_of calls
          = [Message.ASP_SCTP_SENDMSG_ERROR
              (if multiplexed_state.server_mode then
                some (send_target multiplexed_state (some 5)) else none)
              3 1 [1, 2]]
      ∧ (multiplexed_state.simple_mode = false → multiplexed_state.server_mode = false →
          some 5 = some (send_target multiplexed_state (some 5))
            ∧ events_of calls = [Message.ASP_SCTP_SENDMSG_ERROR none 3 1 [1, 2]]) :=
  C23_send_failure_event send_failing_env (some 5) 3 1 [1, 2] multiplexed_state
    (by decide) (by decide) (by decide) (by intro c hc; cases hc; decide) (by decide)
    (by decide)

/-! ## Address resolution before socket creation -/

theorem never_unresolved_pure {α : Type} (a : α) : never_unresolved (pure a : M α) := by
  intro st h; cases h

theorem never_unresolved_error {α : Type} (e : Fatal) (h : e ≠ Fatal.cant_resolve_host) :
    never_unresolved (error e : M α) := by
  intro st hc
  exact h (Outcome.fatal.inj hc)

theorem never_unresolved_getState : never_unresolved getState := by
  intro st h; cases h

theorem never_unresolved_modifyState (f : PortState → PortState) :
    never_unresolved (modifyState f) := by
  intro st h; cases h

theorem never_unresolved_emit (e : Effect) : never_unresolved (emit e) :=
  never_unresolved_modifyState _

theorem never_unresolved_incoming_message (m : Message) :
    never_unresolved (incoming_message m) :=
  never_unresolved_emit _

theorem never_unresolved_bind {α β : Type} {x : M α} {f : α → M β}
    (hx : never_unresolved x) (hf : ∀ a, never_unresolved (f a)) :
    never_unresolved (x >>= f) := by
  intro st
  have h1 := hx st
  rw [bind_run]
  cases hr : x st with
  | mk o st1 =>
    rw [hr] at h1
    cases o with
    | ok a => exact hf a st1
    | fatal e => simpa using h1

theorem never_unresolved_ite {α : Type} (c : Prop) [Decidable c] {x y : M α}
    (hx : never_unresolved x) (hy : never_unresolved y) :
    never_unresolved (if c then x else y) := by
  split
  · exact hx
  · exact hy

theorem never_unresolved_create_socket (env : Env) (k : Nat) (addr_family : Int) :
    never_unresolved (create_socket env k addr_family) := by
  intro st
  rw [create_socket_run]
  split <;> simp

theorem never_unresolved_setNonBlocking (env : Env) (fd : Int) :
    never_unresolved (setNonBlocking env fd) := by
  intro st
  rw [setNonBlocking_run]
  split <;> simp

theorem never_unresolved_map_put_item (fd : Int) : never_unresolved (map_put_item fd) := by
  intro st
  rw [map_put_item_run]
  simp

theorem never_unresolved_modify_item (i : Int) (f : fd_map_item → fd_map_item) :
    never_unresolved (modify_item i f) := by
  intro st
  unfold modify_item
  split
  · simp
  · split <;> simp

theorem never_unresolved_INTEGER_to_int (v : Int) : never_unresolved (INTEGER_to_int v) := by
  unfold INTEGER_to_int
  exact never_unresolved_ite _ (never_unresolved_pure _) (never_unresolved_error _ (by decide))

theorem never_unresolved_map_put_item_server (fd : Int) (name : String) (port : Int) :
    never_unresolved (map_put_item_server fd name port) := by
  unfold map_put_item_server
  refine never_unresolved_bind never_unresolved_getState fun st => ?_
  dsimp only []
  split
  · exact never_unresolved_bind (never_unresolved_modifyState _)
      fun _ => never_unresolved_modifyState _
  · exact never_unresolved_bind (never_unresolved_pure _)
      fun _ => never_unresolved_modifyState _

theorem socket_free_pure {α : Type} (a : α) : socket_free (pure a : M α) :=
  fun _ => ⟨[], by simp [pure_run], rfl⟩

theorem socket_free_error {α : Type} (e : Fatal) : socket_free (error e : M α) :=
  fun _ => ⟨[], by simp [error], rfl⟩

theorem socket_free_getState : socket_free getState :=
  fun _ => ⟨[], by simp [getState], rfl⟩

theorem socket_free_modifyState (f : PortState → PortState)
    (hf : ∀ s, (f s).trace = s.trace) : socket_free (modifyState f) :=
  fun st => ⟨[], by simp [modifyState, hf st], rfl⟩

theorem socket_free_bind {α β : Type} {x : M α} {f : α → M β}
    (hx : socket_free x) (hf : ∀ a, socket_free (f a)) : socket_free (x >>= f) := by
  intro st
  obtain ⟨c1, h1, n1⟩ := hx st
  rw [bind_run]
  cases hr : x st with
  | mk o st1 =>
    rw [hr] at h1
    cases o with
    | ok a =>
      obtain ⟨c2, h2, n2⟩ := hf a st1
      refine ⟨c1 ++ c2, ?_, ?_⟩
      · simp only [] at h1 ⊢
        rw [h2, h1, List.append_assoc]
      · rw [socket_count_append, n1, n2]
    | fatal e => exact ⟨c1, h1, n1⟩

theorem socket_free_ite {α : Type} (c : Prop) [Decidable c] {x y : M α}
    (hx : socket_free x) (hy : socket_free y) : socket_free (if c then x else y) := by
  split
  · exact hx
  · exact hy

theorem socket_free_INTEGER_to_int (v : Int) : socket_free (INTEGER_to_int v) := by
  unfold INTEGER_to_int
  exact socket_free_ite _ (socket_free_pure _) (socket_free_error _)

theorem socket_count_resolve_calls (env : Env) (name : String) :
    socket_count (resolve_calls env name) = 0 := by
  unfold resolve_calls
  split <;> rfl

theorem socket_free_fill_addr_struct (env : Env) (name : String) (port : Int)
    (saLen0 : Nat) : socket_free (fill_addr_struct env name port saLen0) := by
  intro st
  refine ⟨resolve_calls env name, ?_, socket_count_resolve_calls env name⟩
  rw [(fill_addr_struct_run env name port saLen0 st).1]

theorem resolves_before_socket_of_never {α : Type} {x : M α} (h : never_unresolved x) :
    resolves_before_socket x :=
  fun st hc => absurd hc (h st)

theorem resolves_before_socket_bind {α β : Type} {x : M α} {f : α → M β}
    (hx : socket_free x) (hf : ∀ a, resolves_before_socket (f a)) :
    resolves_before_socket (x >>= f) := by
  intro st
  obtain ⟨c1, h1, n1⟩ := hx st
  rw [bind_run]
  cases hr : x st with
  | mk o st1 =>
    rw [hr] at h1
    cases o with
    | ok a =>
      intro hc
      obtain ⟨c2, h2, n2⟩ := hf a st1 hc
      refine ⟨c1 ++ c2, ?_, ?_⟩
      · simp only [] at h1 ⊢
        rw [h2, h1, List.append_assoc]
      · rw [socket_count_append, n1, n2]
    | fatal e => exact fun _ => ⟨c1, h1, n1⟩

theorem resolves_before_socket_ite {α : Type} (c : Prop) [Decidable c] {x y : M α}
    (hx : resolves_before_socket x) (hy : resolves_before_socket y) :
    resolves_before_socket (if c then x else y) := by
  split
  · exact hx
  · exact hy

theorem never_unresolved_forced_reconnect_loop (env : Env) (sock_type : Int)
    (sa : sockaddr_storage) (saLen : Nat) (attempts : Int) (fuel : Nat) (i : Int) (s : Nat) :
    never_unresolved (forced_reconnect_loop env sock_type sa saLen attempts fuel i s) := by
  induction fuel generalizing i s with
  | zero => exact never_unresolved_pure _
  | succ fuel ih =>
    rw [forced_reconnect_loop]
    repeat (any_goals (first
      | with_reducible exact ih _ _
      | with_reducible exact never_unresolved_pure _
      | with_reducible exact never_unresolved_getState
      | with_reducible exact never_unresolved_modifyState _
      | with_reducible exact never_unresolved_emit _
      | with_reducible exact never_unresolved_incoming_message _
      | with_reducible exact never_unresolved_create_socket _ _ _
      | with_reducible exact never_unresolved_setNonBlocking _ _
      | with_reducible exact never_unresolved_map_put_item _
      | with_reducible exact never_unresolved_error _ (by decide)
      | with_reducible refine never_unresolved_bind ?_ fun _ => ?_
      | split))

theorem resolves_before_socket_forced_reconnect (env : Env) (attempts : Int) :
    resolves_before_socket (forced_reconnect env attempts) := by
  unfold forced_reconnect
  refine resolves_before_socket_bind socket_free_getState fun st => ?_
  refine resolves_before_socket_bind (socket_free_fill_addr_struct _ _ _ _) fun r => ?_
  refine resolves_before_socket_of_never ?_
  repeat (any_goals (first
    | with_reducible exact never_unresolved_forced_reconnect_loop _ _ _ _ _ _ _ _
    | with_reducible exact never_unresolved_pure _
    | with_reducible exact never_unresolved_error _ (by decide)
    | with_reducible refine never_unresolved_bind ?_ fun _ => ?_
    | split))

theorem socket_free_outgoing_send_peer (peer_hostname : Option String)
    (peer_portnumber : Option Int) :
    socket_free (outgoing_send_peer peer_hostname peer_portnumber) := by
  unfold outgoing_send_peer
  repeat (any_goals (first
    | with_reducible exact socket_free_pure _
    | with_reducible exact socket_free_error _
    | with_reducible exact socket_free_getState
    | with_reducible exact socket_free_INTEGER_to_int _
    | with_reducible exact socket_free_modifyState _ fun _ => rfl
    | with_reducible refine socket_free_bind ?_ fun _ => ?_
    | split))

theorem never_unresolved_ConnectFrom_connect (env : Env) (fd : Int)
    (sa : sockaddr_storage) (saLen : Nat) :
    never_unresolved (outgoing_send_ASP_SCTP_ConnectFrom_connect env fd sa saLen) := by
  unfold outgoing_send_ASP_SCTP_ConnectFrom_connect
  repeat (any_goals (first
    | with_reducible exact never_unresolved_pure _
    | with_reducible exact never_unresolved_getState
    | with_reducible exact never_unresolved_modifyState _
    | with_reducible exact never_unresolved_emit _
    | with_reducible exact never_unresolved_incoming_message _
    | with_reducible exact never_unresolved_setNonBlocking _ _
    | with_reducible exact never_unresolved_map_put_item _
    | with_reducible exact never_unresolved_modify_item _ _
    | with_reducible refine never_unresolved_bind ?_ fun _ => ?_
    | split))

theorem resolves_before_socket_Listen (env : Env) (local_hostname : Option String)
    (local_portnumber : Int) :
    resolves_before_socket (outgoing_send_ASP_SCTP_Listen env local_hostname
      local_portnumber) := by
  unfold outgoing_send_ASP_SCTP_Listen
  repeat (any_goals (first
    | with_reducible refine resolves_before_socket_bind socket_free_getState fun _ => ?_
    | with_reducible
        refine resolves_before_socket_bind (socket_free_fill_addr_struct _ _ _ _) fun _ => ?_
    | with_reducible
        refine resolves_before_socket_bind (socket_free_INTEGER_to_int _) fun _ => ?_
    | with_reducible exact resolves_before_socket_of_never (never_unresolved_pure _)
    | with_reducible
        refine resolves_before_socket_of_never
          (never_unresolved_bind (never_unresolved_create_socket _ _ _) fun _ => ?_)
    | with_reducible exact never_unresolved_modifyState _
    | with_reducible exact never_unresolved_emit _
    | with_reducible exact never_unresolved_pure _
    | with_reducible exact never_unresolved_map_put_item_server _ _ _
    | with_reducible exact never_unresolved_error _ (by decide)
    | with_reducible refine never_unresolved_bind ?_ fun _ => ?_
    | split))

theorem resolves_before_socket_ConnectFrom (env : Env) (local_hostname : Option String)
    (local_portnumber : Int) (peer_hostname : Option String)
    (peer_portnumber : Option Int) :
    resolves_before_socket (outgoing_send_ASP_SCTP_ConnectFrom env local_hostname
      local_portnumber peer_hostname peer_portnumber) := by
  unfold outgoing_send_ASP_SCTP_ConnectFrom
  repeat (any_goals (first
    | with_reducible refine resolves_before_socket_bind socket_free_getState fun _ => ?_
    | with_reducible
        refine resolves_before_socket_bind (socket_free_outgoing_send_peer _ _) fun _ => ?_
    | with_reducible
        refine resolves_before_socket_bind (socket_free_fill_addr_struct _ _ _ _) fun _ => ?_
    | with_reducible
        refine resolves_before_socket_bind (socket_free_INTEGER_to_int _) fun _ => ?_
    | with_reducible refine resolves_before_socket_bind (socket_free_error _) fun _ => ?_
    | with_reducible refine resolves_before_socket_bind (socket_free_pure _) fun _ => ?_
    | with_reducible exact resolves_before_socket_of_never (never_unresolved_pure _)
    | with_reducible
        refine resolves_before_socket_of_never
          (never_unresolved_bind (never_unresolved_create_socket _ _ _) fun _ => ?_)
    | with_reducible exact never_unresolved_modifyState _
    | with_reducible exact never_unresolved_emit _
    | with_reducible exact never_unresolved_pure _
    | with_reducible exact never_unresolved_ConnectFrom_connect _ _ _ _
    | with_reducible exact never_unresolved_error _ (by decide)
    | with_reducible refine never_unresolved_bind ?_ fun _ => ?_
    | split))

theorem outgoing_send_peer_none (st : PortState)
    (hip : st.peer_IP_address_is_present = true) (hport : st.peer_port_is_present = true) :
    outgoing_send_peer none none st = (Outcome.ok (), st) := by
  unfold outgoing_send_peer
  simp [bind_run, getState_run, hip, hport, pure_run]

/-- What a connect request does in simple client mode when the port is to bind to a
local address that does not resolve: the socket is created before that resolution. -/
theorem outgoing_send_ASP_SCTP_Connect_unresolved_local (env : Env) (st : PortState)
    (hs : st.simple_mode = true) (hv : st.server_mode = false) (hfd : st.fd = -1)
    (hlp : st.local_port_is_present = true)
    (hip : st.peer_IP_address_is_present = true) (hport : st.peer_port_is_present = true)
    (hpeer : resolves env st.peer_IP_address = true) (hsock : env.socket 0 ≠ -1)
    (hloc : resolves env st.local_IP_address = false) :
    ∃ sock_type,
      outgoing_send_ASP_SCTP_Connect env none none st
        = (Outcome.fatal Fatal.cant_resolve_host,
            { st with
              fd := env.socket 0
              trace := st.trace ++ resolve_calls env st.peer_IP_address
                ++ [Effect.usleep 200000, Effect.socket sock_type,
                    Effect.setsockopt (env.socket 0) Sockopt.SCTP_INITMSG,
                    Effect.setsockopt (env.socket 0) Sockopt.SCTP_EVENTS]
                ++ resolve_calls env st.local_IP_address }) := by
  obtain ⟨h2, h1, -⟩ := fill_addr_struct_run env st.peer_IP_address st.peer_port 0 st
  obtain ⟨⟨sock_type, sa, saLen⟩, hv1⟩ := h1 hpeer
  have hfill : fill_addr_struct env st.peer_IP_address st.peer_port 0 st
      = (Outcome.ok (sock_type, sa, saLen),
          { st with trace := st.trace ++ resolve_calls env st.peer_IP_address }) :=
    Prod.ext hv1 h2
  have hfill2 : ∀ s : PortState, fill_addr_struct env st.local_IP_address st.local_port 0 s
      = (Outcome.fatal Fatal.cant_resolve_host,
          { s with trace := s.trace ++ resolve_calls env st.local_IP_address }) := by
    intro s
    obtain ⟨h4, -, h3⟩ := fill_addr_struct_run env st.local_IP_address st.local_port 0 s
    exact Prod.ext (h3 hloc) h4
  have hne : (env.socket 0 = -1) = False := by simpa using hsock
  refine ⟨sock_type, ?_⟩
  unfold outgoing_send_ASP_SCTP_Connect
  simp only [bind_run, getState_run, hs, hv, hfd, if_true, Bool.false_eq_true, if_false,
    bne_self_eq_false, pure_run, outgoing_send_peer_none st hip hport, hfill,
    create_socket_run, hne, modifyState_run, hlp, Bool.and_self, hfill2,
    List.append_assoc]

/-- C24: a connect-from request, a listen request and a reconnect that end in the fatal
resolution error have made no socket-creation call; but a connect request in simple
client mode whose port is to bind to a local address (`local_port` given) creates its
socket right after the peer address resolved (line 685) and resolves the local address
only then (line 691): when that resolution fails, the request ends in the fatal
resolution error after one socket creation, and the descriptor stays in `fd`. -/
theorem C24_resolution_before_socket (env : Env) (st : PortState)
    (hs : st.simple_mode = true) (hv : st.server_mode = false) (hfd : st.fd = -1)
    (hlp : st.local_port_is_present = true)
    (hip : st.peer_IP_address_is_present = true) (hport : st.peer_port_is_present = true)
    (hpeer : resolves env st.peer_IP_address = true) (hsock : env.socket 0 ≠ -1)
    (hloc : resolves env st.local_IP_address = false) :
    (∃ calls st1,
        outgoing_send_ASP_SCTP_Connect env none none st
          = (Outcome.fatal Fatal.cant_resolve_host, st1)
        ∧ st1.trace = st.trace ++ calls ∧ socket_count calls = 1
        ∧ st1.fd = env.socket 0)
    ∧ (∀ local_hostname local_portnumber peer_hostname peer_portnumber,
        resolves_before_socket
          (outgoing_send_ASP_SCTP_ConnectFrom env local_hostname local_portnumber
            peer_hostname peer_portnumber))
    ∧ (∀ local_hostname local_portnumber,
        resolves_before_socket
          (outgoing_send_ASP_SCTP_Listen env local_hostname local_portnumber))
    ∧ (∀ attempts, resolves_before_socket (forced_reconnect env attempts)) := by
  obtain ⟨sock_type, hrun⟩ := outgoing_send_ASP_SCTP_Connect_unresolved_local env st hs hv
    hfd hlp hip hport hpeer hsock hloc
  refine ⟨⟨resolve_calls env st.peer_IP_address
      ++ ([Effect.usleep 200000, Effect.socket sock_type,
            Effect.setsockopt (env.socket 0) Sockopt.SCTP_INITMSG,
            Effect.setsockopt (env.socket 0) Sockopt.SCTP_EVENTS]
          ++ resolve_calls env st.local_IP_address), _, hrun, ?_, ?_, rfl⟩,
    fun _ _ _ _ => resolves_before_socket_ConnectFrom env _ _ _ _,
    fun _ _ => resolves_before_socket_Listen env _ _,
    fun _ => resolves_before_socket_forced_reconnect env _⟩
  · simp only [List.append_assoc]
  · simp only [socket_count_append, socket_count_resolve_calls]
    rfl

theorem C24_resolution_before_socket_witness :
    (∃ calls st1,
        outgoing_send_ASP_SCTP_Connect literal_env none none binding_state
          = (Outcome.fatal Fatal.cant_resolve_host, st1)
        ∧ st1.trace = binding_state.trace ++ calls ∧ socket_count calls = 1
        ∧ st1.fd = literal_env.socket 0)
    ∧ (∀ local_hostname local_portnumber peer_hostname peer_portnumber,
        resolves_before_socket
          (outgoing_send_ASP_SCTP_ConnectFrom literal_env local_hostname local_portnumber
            peer_hostname peer_portnumber))
    ∧ (∀ local_hostname local_portnumber,
        resolves_before_socket
          (outgoing_send_ASP_SCTP_Listen literal_env local_hostname local_portnumber))
    ∧ (∀ attempts, resolves_before_socket (forced_reconnect literal_env attempts)) :=
  C24_resolution_before_socket literal_env binding_state rfl rfl rfl rfl rfl rfl
    (by decide) (by decide) (by decide)

/-! ## Socket-option requests -/

end SCTPasp
